import Mathlib

/-!
Refcount checker (`plugins/refcount_checker/refcount_checker.cpp`)

A shallow embedding of `FunctionRefchecker`: the ownership slots (`RefState`),
the dataflow fact (`BlockState`), the join (`checkSameAndMerge`), the type
classifier (`isRefcountedType`), the annotation resolver (`getAnnotationType`)
and the two `handle` walkers over expressions and statements.

Conventions of the embedding.

* A `RefState*` is the position of the slot in the `states` deque of its
  `BlockState` (a deque never moves its elements on `emplace_back`, so a
  position identifies a slot for the whole life of the state). `NULL` is
  `none`.
* A `ValueDecl*` is a natural number (the identity of the declaration).
* `DenseMap<ValueDecl*, RefState*>` is an association list; it is iterated in
  list order (the order of a `DenseMap` is unspecified in the source).
* Every `assert`, `ASSERT` and `RELEASE_ASSERT` is active; a failing one,
  and every null dereference, ends the analysis with an `Err` that names the
  place.
* The Clang syntax tree is data: `QualType`, `Expr`, `Stmt` carry exactly
  the answers to the queries the checker makes.
-/

namespace FunctionRefchecker

/-! ## Data model -/

/-- The `AnnotationType` enumeration. -/
inductive AnnotationType
  | NONE
  | BORROWED
  | STOLEN
  deriving DecidableEq, Repr

/-- The `RefType` enumeration; `UNKNOWN` is the value-initialised kind. -/
inductive RefType
  | UNKNOWN
  | BORROWED
  | OWNED
  deriving DecidableEq, Repr

/-- The `RefState` struct: one ownership slot. -/
structure RefState where
  type : RefType
  num_refs : Int
  deriving DecidableEq, Repr

/-- The `BlockState` struct: the slots and the variable bindings. -/
structure BlockState where
  states : List RefState
  vars : List (Nat × Nat)
  deriving DecidableEq, Repr

/-- Where the analysis stopped: one constructor per assertion (or null
dereference) of the source. -/
inductive Err
  /-- Source: `assert(newstate)` in `doAssign`. -/
  | assignNull
  /-- Source: `assert(vars.count(decl))` in `doAssign`. -/
  | assignUnbound
  /-- Source: `assert(vars[decl]->num_refs == 0)` in `doAssign`. -/
  | assignNonzero
  /-- Source: `assert(state1.vars[decl]->num_refs == 0)` in `checkSameAndMerge`. -/
  | mergeOnlyFirst
  /-- Source: `assert(state2.vars[decl]->num_refs == 0)` in `checkSameAndMerge`. -/
  | mergeOnlySecond
  /-- Source: `assert(s1->num_refs == s2->num_refs)` in `checkSameAndMerge`. -/
  | mergeCount
  /-- Source: `assert(s1->type != UNKNOWN)` / `assert(s2->type != UNKNOWN)`. -/
  | mergeUnknown
  /-- Source: `assert(found)` in `checkSameAndMerge`. -/
  | mergeOrphan
  /-- Source: `assert(s.num_refs == 0)` in `checkClean`. -/
  | notClean
  /-- Source: `assert(cxx_record_decl)` in `isRefcountedType`. -/
  | noRecordDecl
  /-- Source: `assert(!isRefcountedType(expr->getType()))` on a dependent, construct,
  predefined, pack-expansion or default-argument expression. -/
  | refcountedUnexpected
  /-- Source: `ASSERT(!isRefcountedType(...), "implement me")` on an operator. -/
  | implementMe
  /-- The assertion on a `CastExpr`. -/
  | castToRefcounted
  /-- Source: `ASSERT(0, "Don't know how to handle")` on a `DeclRefExpr`. -/
  | unknownDecl
  /-- Source: `assert(ft_ptr->isPointerType())` on a callee. -/
  | calleeNotPointer
  /-- Source: `assert(isa<FunctionProtoType>(pointed_to))` on a callee. -/
  | calleeNotProto
  /-- Source: `assert((s1 == NULL) == (s2 == NULL))` on a `ConditionalOperator`. -/
  | ternaryPresence
  /-- Source: `assert(s1->num_refs == s2->num_refs)` on a `ConditionalOperator`. -/
  | ternaryCount
  /-- Source: `ASSERT(s1->type == s2->type, "maybe could deal with this")`. -/
  | ternaryKind
  /-- Source: `RELEASE_ASSERT(0, "unhandled expr type: ...")`. -/
  | unhandledExpr
  /-- Source: `assert(stmt)` in `handle(Stmt*)`, or `isa<>` on a null expression. -/
  | nullNode
  /-- Source: `RELEASE_ASSERT(..., "Only support do {} while(false); ...")`. -/
  | unsupportedDo
  /-- Source: `assert(!isRefcountedType(...getConditionVariable()->getType()))`. -/
  | condVarRefcounted
  /-- Source: `assert(!state.vars.count(vardecl))` in a `DeclStmt`. -/
  | redeclared
  /-- Source: `cast<VarDecl>(decl)` on a declaration that is not a variable. -/
  | notVarDecl
  /-- Source: `ASSERT(rstate->num_refs > 0, "Returning an object with 0 refs!")`. -/
  | returnZeroRefs
  /-- Source: `rstate->num_refs` with `rstate == NULL` in a `ReturnStmt`. -/
  | returnNull
  /-- Source: `RELEASE_ASSERT(0, "unhandled statement type: ...")`. -/
  | unhandledStmt
  /-- Source: `assert(!rstate)` on a parameter in `checkFunction`. -/
  | paramRebound
  /-- A slot position outside the deque (a dangling `RefState*`). -/
  | dangling
  deriving DecidableEq, Repr

/-! ## The variable table (`DenseMap<ValueDecl*, RefState*>`) -/

/-- Source: `vars.count(decl)` / `vars[decl]` on a present key: the slot bound to
`decl`, if any. -/
def varsFind (decl : Nat) : List (Nat × Nat) → Option Nat
  | [] => none
  | (k, v) :: rest => if k = decl then some v else varsFind decl rest

/-- Source: `vars.erase(decl)`. -/
def varsErase (decl : Nat) : List (Nat × Nat) → List (Nat × Nat)
  | [] => []
  | (k, v) :: rest => if k = decl then varsErase decl rest else (k, v) :: varsErase decl rest

/-- Source: `vars[decl] = slot`. -/
def varsSet (decl slot : Nat) : List (Nat × Nat) → List (Nat × Nat)
  | [] => [(decl, slot)]
  | (k, v) :: rest => if k = decl then (k, slot) :: rest else (k, v) :: varsSet decl slot rest

/-! ## `BlockState` members -/

namespace BlockState

/-- Source: `BlockState()`: no slots, no bindings. -/
def empty : BlockState := ⟨[], []⟩

/-- Source: `createBorrowed()`: appends a `BORROWED` slot with no references and
returns it. -/
def createBorrowed (s : BlockState) : Nat × BlockState :=
  (s.states.length, { s with states := s.states ++ [⟨RefType.BORROWED, 0⟩] })

/-- Source: `createOwned()`: appends an `OWNED` slot with one reference and returns
it. -/
def createOwned (s : BlockState) : Nat × BlockState :=
  (s.states.length, { s with states := s.states ++ [⟨RefType.OWNED, 1⟩] })

/-- The slot a `RefState*` points to. -/
def slot (s : BlockState) (p : Nat) : Except Err RefState :=
  match s.states[p]? with
  | some r => .ok r
  | none => .error Err.dangling

/-- Source: `doAssign(decl, newstate)`: the kind of `newstate` is copied into the
slot of `decl`, and the two counts are swapped (when both pointers are the
same slot, nothing changes). -/
def doAssign (s : BlockState) (decl : Nat) (newstate : Option Nat) : Except Err BlockState :=
  match newstate with
  | none => .error Err.assignNull
  | some n =>
    match varsFind decl s.vars with
    | none => .error Err.assignUnbound
    | some v =>
      match s.slot v, s.slot n with
      | .ok sv, .ok sn =>
        if sv.num_refs = 0 then
          .ok { s with states := (s.states.set v ⟨sn.type, sn.num_refs⟩).set n ⟨sn.type, sv.num_refs⟩ }
        else .error Err.assignNonzero
      | _, _ => .error Err.dangling

/-- The copy constructor `BlockState(const BlockState& rhs)`: the deque is
copied and every variable is bound to the slot of the copy at the position
its slot has in `rhs`. With slots addressed by position the copy has the
same fields as the original. -/
def copy (rhs : BlockState) : BlockState :=
  { states := rhs.states, vars := rhs.vars }

end BlockState

/-! ## The join: `checkSameAndMerge` -/

/-- Source: `decls.insert(...)` on the `DenseSet<ValueDecl*>`. -/
def declsInsert (decls : List Nat) (decl : Nat) : List Nat :=
  if decl ∈ decls then decls else decls ++ [decl]

/-- The set `decls` of `checkSameAndMerge`: the variables of either state. -/
def mergeDeclSet (state1 state2 : BlockState) : List Nat :=
  (state2.vars.map Prod.fst).foldl declsInsert ((state1.vars.map Prod.fst).foldl declsInsert [])

/-- Source: `s->type = OWNED` through a `RefState*`. -/
def setOwned (s : BlockState) (p : Nat) : BlockState :=
  match s.states[p]? with
  | some r => { s with states := s.states.set p { r with type := RefType.OWNED } }
  | none => s

/-- The body of the first loop of `checkSameAndMerge`, for one `decl`. -/
def mergeDecl (decl : Nat) (state1 state2 : BlockState) : Except Err (BlockState × BlockState) :=
  match varsFind decl state1.vars, varsFind decl state2.vars with
  | none, none => .error Err.dangling
  | some p1, none =>
    match state1.slot p1 with
    | .error e => .error e
    | .ok r1 =>
      if r1.num_refs = 0 then .ok ({ state1 with vars := varsErase decl state1.vars }, state2)
      else .error Err.mergeOnlyFirst
  | none, some p2 =>
    match state2.slot p2 with
    | .error e => .error e
    | .ok r2 =>
      if r2.num_refs = 0 then .ok (state1, { state2 with vars := varsErase decl state2.vars })
      else .error Err.mergeOnlySecond
  | some p1, some p2 =>
    match state1.slot p1, state2.slot p2 with
    | .ok s1, .ok s2 =>
      if s1.num_refs = s2.num_refs then
        if s1.type ≠ s2.type then
          if s1.type = RefType.UNKNOWN ∨ s2.type = RefType.UNKNOWN then .error Err.mergeUnknown
          else .ok (setOwned state1 p1, setOwned state2 p2)
        else .ok (state1, state2)
      else .error Err.mergeCount
    | _, _ => .error Err.dangling

/-- The first loop of `checkSameAndMerge`: `for (auto&& decl : decls)`. -/
def mergeDecls : List Nat → BlockState → BlockState → Except Err (BlockState × BlockState)
  | [], state1, state2 => .ok (state1, state2)
  | decl :: rest, state1, state2 =>
    match mergeDecl decl state1 state2 with
    | .error e => .error e
    | .ok (m1, m2) => mergeDecls rest m1 m2

/-- The inner loops of the second half of `checkSameAndMerge`: every slot
of `state1.states` with a nonzero count is the target of some entry of
`state1.vars`. -/
def allFound (state1 : BlockState) : Bool :=
  (List.range state1.states.length).all fun i =>
    match state1.states[i]? with
    | some state => state.num_refs = 0 || state1.vars.any fun p => p.2 = i
    | none => true

/-- Source: `checkSameAndMerge(state1, state2)`. The second loop runs once for each
element of `{ state1, state2 }` (two copies), and its body reads
`state1.states` and `state1.vars` both times, as the source does. -/
def checkSameAndMerge (state1 state2 : BlockState) : Except Err (BlockState × BlockState) :=
  match mergeDecls (mergeDeclSet state1 state2) state1 state2 with
  | .error e => .error e
  | .ok (m1, m2) =>
    if [m1.copy, m2.copy].all (fun _bstate => allFound m1) then .ok (m1, m2)
    else .error Err.mergeOrphan

/-- Source: `checkClean(state)`. -/
def checkClean (state : BlockState) : Except Err Unit :=
  if state.states.all (fun s => s.num_refs = 0) then .ok () else .error Err.notClean

/-! ## Types (`QualType`) and `isRefcountedType` -/

/-- The type nodes the checker distinguishes. `paren` and `typedef` are
sugar; `templateSpecialization` and `record` carry the name of the class
declaration they resolve to (if any); `other` is every remaining node
(arrays, references, enumerations, ...), which is not a pointer and has no
class declaration. -/
inductive QualType
  | builtin
  | pointer (pointee : QualType)
  | paren (inner : QualType)
  | typedef (underlying : QualType)
  | functionProto (unresolvedExceptionSpec nothrow : Bool)
  | functionNoProto
  | templateTypeParm
  | templateSpecialization (decl : Option String)
  | record (name : String)
  | other
  deriving DecidableEq, Repr

namespace QualType

/-- Source: `getAs<PointerType>()`: looks through sugar; the pointee if the type is
a pointer. -/
def asPointer : QualType → Option QualType
  | pointer pointee => some pointee
  | paren inner => asPointer inner
  | typedef underlying => asPointer underlying
  | _ => none

/-- Source: `t->isPointerType()`. -/
def isPointerType (t : QualType) : Bool := t.asPointer.isSome

/-- Source: `isa<BuiltinType>(t)`: the node itself, sugar not removed. -/
def isBuiltin : QualType → Bool
  | builtin => true
  | _ => false

/-- Source: `isa<FunctionType>(t)`. -/
def isFunction : QualType → Bool
  | functionProto _ _ => true
  | functionNoProto => true
  | _ => false

/-- Source: `isa<TemplateTypeParmType>(t)`. -/
def isTemplateTypeParm : QualType → Bool
  | templateTypeParm => true
  | _ => false

/-- Source: `isa<TemplateSpecializationType>(t)`. -/
def isTemplateSpecialization : QualType → Bool
  | templateSpecialization _ => true
  | _ => false

/-- Source: `t->getAsCXXRecordDecl()`, as the name of the declaration: looks
through sugar. -/
def getAsCXXRecordDecl : QualType → Option String
  | record name => some name
  | templateSpecialization decl => decl
  | paren inner => getAsCXXRecordDecl inner
  | typedef underlying => getAsCXXRecordDecl underlying
  | _ => none

/-- The `do { ... } while (0)` block of `isRefcountedType`: a `continue`
inside it jumps to the test `while (0)`, so the block runs once and removes
one `ParenType` or else one `TypedefType` layer. -/
def unwrapOnce : QualType → QualType
  | paren inner => inner
  | typedef underlying => underlying
  | t => t

/-- Source: `while (auto pt = dyn_cast<ParenType>(pointed_to)) pointed_to =
pt->getInnerType();` in the `CallExpr` case. -/
def stripParens : QualType → QualType
  | paren inner => stripParens inner
  | t => t

end QualType

/-- Source: `StringRef::startswith`. -/
def startswith (name marker : String) : Bool := marker.toList.isPrefixOf name.toList

/-- Source: `isRefcountedType(t)`. -/
def isRefcountedType (t : QualType) : Except Err Bool :=
  match t.asPointer with
  | none => .ok false
  | some pointee =>
    let pointed_to := pointee.unwrapOnce
    if pointed_to.isBuiltin || pointed_to.isFunction then .ok false
    else if pointed_to.isTemplateTypeParm then .ok false
    else
      match pointed_to.getAsCXXRecordDecl with
      | none => .error Err.noRecordDecl
      | some name => .ok (startswith name "Box")

/-! ## `getAnnotationType` -/

/-- Source: `getAnnotationType(loc)`, a source location being the chain of the names
of the macros whose expansion it is in, innermost first; the empty chain is
a location that is not a macro location. -/
def getAnnotationType : List String → AnnotationType
  | [] => AnnotationType.NONE
  | MacroName :: caller =>
    if MacroName = "BORROWED" then AnnotationType.BORROWED
    else if MacroName = "STOLEN" then AnnotationType.STOLEN
    else getAnnotationType caller

/-! ## The syntax tree -/

/-- Source: `Decl::Kind` of a declaration context. -/
inductive DeclKind
  | Namespace
  | LinkageSpec
  | TranslationUnit
  | Function
  | CXXRecord
  | Other
  deriving DecidableEq, Repr

/-- Expressions, one constructor per branch of `handle(Expr*)`.
`dependentOrConstruct` stands for the eight classes of the second test
(`UnresolvedLookupExpr` ... `PackExpansionExpr`); `other` is any class no
test matches. A `declRef` carries the declaration and the chain of its
declaration contexts, innermost first. -/
inductive Expr
  | stringLiteral
  | integerLiteral
  | boolLiteral (value : Bool)
  | dependentOrConstruct (ty : QualType)
  | defaultArg (ty : QualType)
  | exprWithCleanups (sub : Expr)
  | materializeTemporary (sub : Expr)
  | bindTemporary (sub : Expr)
  | unaryOperator (ty : QualType) (sub : Expr)
  | paren (sub : Expr)
  | binaryOperator (ty : QualType) (lhs rhs : Expr)
  | cast (ty : QualType) (sub : Expr)
  | member (ty : QualType) (base : Expr)
  | this (ty : QualType)
  | declRef (ty : QualType) (decl : Nat) (context : List DeclKind)
  | call (ty : QualType) (callee : Expr) (args : List Expr)
  | new (ty : QualType) (placement : List Expr) (init : Option Expr)
  | conditional (ty : QualType) (cond trueExpr falseExpr : Expr)
  | other (ty : QualType)
  deriving Repr

/-- Source: `expr->getType()`. A literal has its fixed, non-pointer type; a wrapper
has the type of what it wraps. -/
def Expr.getType : Expr → QualType
  | .stringLiteral => .other
  | .integerLiteral => .builtin
  | .boolLiteral _ => .builtin
  | .dependentOrConstruct ty => ty
  | .defaultArg ty => ty
  | .exprWithCleanups sub => sub.getType
  | .materializeTemporary sub => sub.getType
  | .bindTemporary sub => sub.getType
  | .unaryOperator ty _ => ty
  | .paren sub => sub.getType
  | .binaryOperator ty _ _ => ty
  | .cast ty _ => ty
  | .member ty _ => ty
  | .this ty => ty
  | .declRef ty _ _ => ty
  | .call ty _ _ => ty
  | .new ty _ _ => ty
  | .conditional ty _ _ _ => ty
  | .other ty => ty

/-- A declaration of a `DeclStmt`: a `VarDecl` (its identity, its type and
its initialiser) or something else. -/
inductive Decl
  | varDecl (decl : Nat) (ty : QualType) (init : Option Expr)
  | nonVar
  deriving Repr

/-- Statements, one constructor per branch of `handle(Stmt*)`; `other` is
any class no test matches. A child the source may find null is an
`Option`. -/
inductive Stmt
  | expr (e : Expr)
  | compound (body : List Stmt)
  | doStmt (cond : Expr) (body : Stmt)
  | forStmt (init : Option Stmt) (cond : Option Expr) (condVar : Option QualType)
      (inc : Option Expr) (body : Stmt)
  | whileStmt (cond : Expr) (condVar : Option QualType) (body : Stmt)
  | ifStmt (cond : Expr) (thenStmt elseStmt : Option Stmt)
  | declStmt (decls : List Decl)
  | returnStmt (retValue : Option Expr)
  | asmStmt (inputs outputs : List Expr)
  | other
  deriving Repr

/-- The exception information of a `FunctionProtoType`. -/
structure FunctionProtoType where
  unresolvedExceptionSpec : Bool
  nothrow : Bool
  deriving DecidableEq, Repr

/-- The computation of `ft` at the head of the `CallExpr` case. -/
def calleeProto (ft_ptr : QualType) : Except Err (Option FunctionProtoType) :=
  if ft_ptr.isBuiltin then .ok none
  else if ft_ptr.isTemplateSpecialization then .ok none
  else
    match ft_ptr.asPointer with
    | none => .error Err.calleeNotPointer
    | some pointee =>
      match pointee.stripParens with
      | .functionProto u n => .ok (some ⟨u, n⟩)
      | _ => .error Err.calleeNotProto

/-- Source: `bool can_throw = ft && !isUnresolvedExceptionSpec(...) &&
!ft->isNothrow(...)`. -/
def canThrow : Option FunctionProtoType → Bool
  | some ft => !ft.unresolvedExceptionSpec && !ft.nothrow
  | none => false

/-- The walk from `decl->getDeclContext()` past every `LinkageSpec`. -/
def skipLinkageSpec : List DeclKind → List DeclKind
  | DeclKind.LinkageSpec :: parent => skipLinkageSpec parent
  | context => context
/-! ## `handle(Expr*, BlockState&)` -/

/-- Source: `assert(!isRefcountedType(t))`, failing with `err`. -/
def assertNotRefcounted (t : QualType) (err : Err) : Except Err Unit :=
  match isRefcountedType t with
  | .error e => .error e
  | .ok true => .error err
  | .ok false => .ok ()

/-- Source: `if (!isRefcountedType(t)) return NULL; return state.createBorrowed();` -/
def borrowedIfRefcounted (t : QualType) (state : BlockState) :
    Except Err (Option Nat × BlockState) :=
  match isRefcountedType t with
  | .error e => .error e
  | .ok false => .ok (none, state)
  | .ok true => .ok (some state.createBorrowed.1, state.createBorrowed.2)

/-- The three assertions that close the `ConditionalOperator` case, on the
merged states. -/
def ternaryAgree (s1 s2 : Option Nat) (state false_state : BlockState) : Except Err Unit :=
  match s1, s2 with
  | none, none => .ok ()
  | some p1, some p2 =>
    match state.slot p1, false_state.slot p2 with
    | .ok r1, .ok r2 =>
      if r1.num_refs = r2.num_refs then
        if r1.type = r2.type then .ok () else .error Err.ternaryKind
      else .error Err.ternaryCount
    | _, _ => .error Err.dangling
  | _, _ => .error Err.ternaryPresence

mutual
/-- Source: `RefState* handle(Expr* expr, BlockState& state)`: the slot of the value
(or `none` for `NULL`) and the state afterwards. -/
def handleExpr : Expr → BlockState → Except Err (Option Nat × BlockState)
  | .stringLiteral, state => .ok (none, state)
  | .integerLiteral, state => .ok (none, state)
  | .boolLiteral _, state => .ok (none, state)
  | .dependentOrConstruct ty, state =>
    match assertNotRefcounted ty Err.refcountedUnexpected with
    | .error e => .error e
    | .ok _ => .ok (none, state)
  | .defaultArg ty, state =>
    match assertNotRefcounted ty Err.refcountedUnexpected with
    | .error e => .error e
    | .ok _ => .ok (none, state)
  | .exprWithCleanups sub, state => handleExpr sub state
  | .materializeTemporary sub, state => handleExpr sub state
  | .bindTemporary sub, state => handleExpr sub state
  | .unaryOperator ty sub, state =>
    match handleExpr sub state with
    | .error e => .error e
    | .ok (_, st) =>
      match assertNotRefcounted ty Err.implementMe with
      | .error e => .error e
      | .ok _ => .ok (none, st)
  | .paren sub, state => handleExpr sub state
  | .binaryOperator ty lhs rhs, state =>
    match handleExpr lhs state with
    | .error e => .error e
    | .ok (_, st1) =>
      match handleExpr rhs st1 with
      | .error e => .error e
      | .ok (_, st2) =>
        match assertNotRefcounted ty Err.implementMe with
        | .error e => .error e
        | .ok _ => .ok (none, st2)
  | .cast ty sub, state =>
    match isRefcountedType ty with
    | .error e => .error e
    | .ok false => handleExpr sub state
    | .ok true =>
      match isRefcountedType sub.getType with
      | .error e => .error e
      | .ok false => .error Err.castToRefcounted
      | .ok true => handleExpr sub state
  | .member ty base, state =>
    match handleExpr base state with
    | .error e => .error e
    | .ok (_, st) => borrowedIfRefcounted ty st
  | .this ty, state => borrowedIfRefcounted ty state
  | .declRef ty decl context, state =>
    match isRefcountedType ty with
    | .error e => .error e
    | .ok false => .ok (none, state)
    | .ok true =>
      match varsFind decl state.vars with
      | some p => .ok (some p, state)
      | none =>
        match skipLinkageSpec context with
        | DeclKind.Namespace :: _ =>
          .ok (some state.createBorrowed.1,
            { state.createBorrowed.2 with
              vars := varsSet decl state.createBorrowed.1 state.createBorrowed.2.vars })
        | _ => .error Err.unknownDecl
  | .call ty callee args, state =>
    match calleeProto callee.getType with
    | .error e => .error e
    | .ok ft =>
      match handleExpr callee state with
      | .error e => .error e
      | .ok (_, st1) =>
        match handleExprs args st1 with
        | .error e => .error e
        | .ok st2 =>
          match (if canThrow ft then checkClean st2 else .ok ()) with
          | .error e => .error e
          | .ok _ =>
            match isRefcountedType ty with
            | .error e => .error e
            | .ok true => .ok (some st2.createOwned.1, st2.createOwned.2)
            | .ok false => .ok (none, st2)
  | .new ty placement init, state =>
    match handleExprs placement state with
    | .error e => .error e
    | .ok st1 =>
      match handleOptExpr init st1 with
      | .error e => .error e
      | .ok st2 => borrowedIfRefcounted ty st2
  | .conditional _ cond trueExpr falseExpr, state =>
    match handleExpr cond state with
    | .error e => .error e
    | .ok (_, st) =>
      match handleExpr trueExpr st with
      | .error e => .error e
      | .ok (s1, true_state) =>
        match handleExpr falseExpr st.copy with
        | .error e => .error e
        | .ok (s2, false_state) =>
          match checkSameAndMerge true_state false_state with
          | .error e => .error e
          | .ok (m1, m2) =>
            match ternaryAgree s1 s2 m1 m2 with
            | .error e => .error e
            | .ok _ => .ok (s1, m1)
  | .other _, _ => .error Err.unhandledExpr
/-- Source: `for (auto arg : ...) handle(arg, state);` -/
def handleExprs : List Expr → BlockState → Except Err BlockState
  | [], state => .ok state
  | e :: rest, state =>
    match handleExpr e state with
    | .error err => .error err
    | .ok (_, st) => handleExprs rest st
/-- Source: `if (newexpr->hasInitializer()) handle(newexpr->getInitializer(), state);` -/
def handleOptExpr : Option Expr → BlockState → Except Err BlockState
  | none, state => .ok state
  | some e, state =>
    match handleExpr e state with
    | .error err => .error err
    | .ok (_, st) => .ok st
end

/-! ## `handle(Stmt*, BlockState&)` -/

/-- Source: `handle(e, state)` for an expression pointer that may be null. -/
def handleExprPtr (e : Option Expr) (state : BlockState) : Except Err (Option Nat × BlockState) :=
  match e with
  | none => .error Err.nullNode
  | some e => handleExpr e state

/-- Source: `if (...->getConditionVariable())
assert(!isRefcountedType(...->getConditionVariable()->getType()));` -/
def checkConditionVariable (condVar : Option QualType) : Except Err Unit :=
  match condVar with
  | none => .ok ()
  | some t => assertNotRefcounted t Err.condVarRefcounted

/-- The body of the loop of the `DeclStmt` case, for one declaration. -/
def handleDecl (d : Decl) (state : BlockState) : Except Err BlockState :=
  match d with
  | .nonVar => .error Err.notVarDecl
  | .varDecl vardecl ty init =>
    if (varsFind vardecl state.vars).isSome then .error Err.redeclared
    else
      match isRefcountedType ty with
      | .error e => .error e
      | .ok is_refcounted =>
        let st1 : BlockState :=
          if is_refcounted then
            { state.createBorrowed.2 with
              vars := varsSet vardecl state.createBorrowed.1 state.createBorrowed.2.vars }
          else state
        match init with
        | none => .ok st1
        | some e =>
          match handleExpr e st1 with
          | .error err => .error err
          | .ok (assigning, st2) =>
            if is_refcounted then st2.doAssign vardecl assigning else .ok st2

/-- Source: `for (auto decl : declstmt->decls()) ...` -/
def handleDecls : List Decl → BlockState → Except Err BlockState
  | [], state => .ok state
  | d :: rest, state =>
    match handleDecl d state with
    | .error e => .error e
    | .ok st => handleDecls rest st

/-- The tail of the `ReturnStmt` case: the returned slot gives one
reference to the caller unless the function is annotated `BORROWED`. -/
def consumeReturn (return_ann : AnnotationType) (retType : QualType) (rstate : Option Nat)
    (state : BlockState) : Except Err BlockState :=
  match isRefcountedType retType with
  | .error e => .error e
  | .ok false => .ok state
  | .ok true =>
    if return_ann ≠ AnnotationType.BORROWED then
      match rstate with
      | none => .error Err.returnNull
      | some p =>
        match state.slot p with
        | .error e => .error e
        | .ok r =>
          if r.num_refs > 0 then
            .ok { state with states := state.states.set p { r with num_refs := r.num_refs - 1 } }
          else .error Err.returnZeroRefs
    else .ok state

mutual
/-- Source: `void handle(Stmt* stmt, BlockState& state)`: the state afterwards. -/
def handleStmt (return_ann : AnnotationType) : Stmt → BlockState → Except Err BlockState
  | .expr e, state =>
    match handleExpr e state with
    | .error err => .error err
    | .ok (_, st) => .ok st
  | .compound body, state => handleStmts return_ann body state
  | .doStmt cond body, state =>
    match cond with
    | .boolLiteral false => handleStmt return_ann body state
    | _ => .error Err.unsupportedDo
  | .forStmt init cond condVar _ body, state =>
    match handleStmtPtr return_ann init state with
    | .error e => .error e
    | .ok st1 =>
      match handleExprPtr cond st1 with
      | .error e => .error e
      | .ok (_, st2) =>
        match checkConditionVariable condVar with
        | .error e => .error e
        | .ok _ =>
          match handleStmt return_ann body st2 with
          | .error e => .error e
          | .ok st3 =>
            match checkSameAndMerge st3 st2.copy with
            | .error e => .error e
            | .ok (m1, _) => .ok m1
  | .whileStmt cond condVar body, state =>
    match handleExpr cond state with
    | .error e => .error e
    | .ok (_, st1) =>
      match checkConditionVariable condVar with
      | .error e => .error e
      | .ok _ =>
        match handleStmt return_ann body st1 with
        | .error e => .error e
        | .ok st2 =>
          match checkSameAndMerge st2 st1.copy with
          | .error e => .error e
          | .ok (m1, _) => .ok m1
  | .ifStmt cond thenStmt elseStmt, state =>
    match handleExpr cond state with
    | .error e => .error e
    | .ok (_, st) =>
      match handleOptStmt return_ann thenStmt st with
      | .error e => .error e
      | .ok then_state =>
        match handleOptStmt return_ann elseStmt st.copy with
        | .error e => .error e
        | .ok else_state =>
          match checkSameAndMerge then_state else_state with
          | .error e => .error e
          | .ok (m1, _) => .ok m1
  | .declStmt decls, state => handleDecls decls state
  | .returnStmt retValue, state =>
    match retValue with
    | none => .error Err.nullNode
    | some e =>
      match handleExpr e state with
      | .error err => .error err
      | .ok (rstate, st) => consumeReturn return_ann e.getType rstate st
  | .asmStmt inputs outputs, state =>
    match handleExprs inputs state with
    | .error e => .error e
    | .ok st => handleExprs outputs st
  | .other, _ => .error Err.unhandledStmt
/-- Source: `for (auto sub_stmt : cstmt->body()) handle(sub_stmt, state);` -/
def handleStmts (return_ann : AnnotationType) : List Stmt → BlockState → Except Err BlockState
  | [], state => .ok state
  | stmt :: rest, state =>
    match handleStmt return_ann stmt state with
    | .error e => .error e
    | .ok st => handleStmts return_ann rest st
/-- Source: `if (stmt) handle(stmt, state);` as in the `IfStmt` case. -/
def handleOptStmt (return_ann : AnnotationType) : Option Stmt → BlockState → Except Err BlockState
  | none, state => .ok state
  | some stmt, state => handleStmt return_ann stmt state
/-- Source: `handle(stmt, state)` for a statement pointer that may be null:
`assert(stmt)` fails on null. -/
def handleStmtPtr (return_ann : AnnotationType) : Option Stmt → BlockState → Except Err BlockState
  | none, _ => .error Err.nullNode
  | some stmt, state => handleStmt return_ann stmt state
end

/-! ## `checkFunction` -/

/-- What `checkFunction` reads of a `FunctionDecl`: the macro chain of the
location where the return type starts, the parameters (identity and type)
and the body. -/
structure FunctionDecl where
  returnTypeLoc : List String
  params : List (Nat × QualType)
  body : Stmt
  deriving Repr

/-- The loop over `func->params()`: a parameter of refcounted type is bound
to a fresh `BORROWED` slot. -/
def bindParams : List (Nat × QualType) → BlockState → Except Err BlockState
  | [], state => .ok state
  | (param, ty) :: rest, state =>
    match isRefcountedType ty with
    | .error e => .error e
    | .ok false => bindParams rest state
    | .ok true =>
      if (varsFind param state.vars).isSome then .error Err.paramRebound
      else
        bindParams rest
          { state.createBorrowed.2 with
            vars := varsSet param state.createBorrowed.1 state.createBorrowed.2.vars }

/-- Source: `checkFunction(func)`: on success, the `BlockState` at the end of the
body (which `checkClean` has accepted). -/
def checkFunction (func : FunctionDecl) : Except Err BlockState :=
  let return_ann := getAnnotationType func.returnTypeLoc
  match bindParams func.params BlockState.empty with
  | .error e => .error e
  | .ok state =>
    match handleStmt return_ann func.body state with
    | .error e => .error e
    | .ok st =>
      match checkClean st with
      | .error e => .error e
      | .ok _ => .ok st

deriving instance DecidableEq for Except

/-! ## Program fragments used in the statements below -/

/-- A pointer to a class whose name carries the marker: `BoxedInt*`. -/
def boxPtr : QualType := .pointer (.record "BoxedInt")

/-- A call `f()` without arguments and with result type `ty`, `f` a function
declared at file scope with a prototype whose exception specification is
unresolved (`u`) or non-throwing (`n`); the callee is the usual
function-to-pointer cast of the reference to `f`. -/
def callOwned (ty : QualType) (f : Nat) (u n : Bool) : Expr :=
  .call ty
    (.cast (.pointer (.functionProto u n))
      (.declRef (.functionProto u n) f [DeclKind.TranslationUnit])) []

/-- The use `x` of a local variable of type `ty` as a value (the
lvalue-to-rvalue cast of the reference). -/
def useVar (ty : QualType) (x : Nat) : Expr :=
  .cast ty (.declRef ty x [DeclKind.Function])

/-- The declaration statement `ty x = f();`. -/
def declOwned (ty : QualType) (x f : Nat) (u n : Bool) : Stmt :=
  .declStmt [.varDecl x ty (some (callOwned ty f u n))]

/-- The statement `return x;`. -/
def returnVar (ty : QualType) (x : Nat) : Stmt :=
  .returnStmt (some (useVar ty x))

/-- Every binding of the state points to a slot of the state (in the source
a binding is a pointer into the deque of its own state). -/
def BlockState.wellFormed (s : BlockState) : Bool :=
  s.vars.all fun q => q.2 < s.states.length

/-- No two bindings of the state point to the same slot (the checker gives
every variable a slot of its own: `state.vars[decl] = state.createBorrowed()`). -/
def BlockState.distinctSlots (s : BlockState) : Bool :=
  decide (s.vars.map Prod.snd).Nodup

/-- A relation between the state before and the state after that every
elementary action of `handle(Expr*)` respects: appending a slot, binding a
fresh variable to an appended `BORROWED` slot, and keeping the first state
of a merge of two states that both come from a common state. -/
structure StepRel (R : BlockState → BlockState → Prop) : Prop where
  refl : ∀ s, R s s
  trans : ∀ a b c, R a b → R b c → R a c
  borrowed : ∀ s : BlockState, R s ⟨s.states ++ [⟨RefType.BORROWED, 0⟩], s.vars⟩
  owned : ∀ s : BlockState, R s ⟨s.states ++ [⟨RefType.OWNED, 1⟩], s.vars⟩
  bind : ∀ (s : BlockState) (d : Nat), varsFind d s.vars = none →
    R s ⟨s.states ++ [⟨RefType.BORROWED, 0⟩], varsSet d s.states.length s.vars⟩
  merge : ∀ s a b m1 m2, R s a → R s b → checkSameAndMerge a b = .ok (m1, m2) → R s m1

/-- Every slot of kind `BORROWED` holds no reference. -/
def BlockState.borrowedHaveNoRefs (s : BlockState) : Bool :=
  s.states.all fun r => decide (r.type = RefType.BORROWED → r.num_refs = 0)

/-- A `StepRel` that the two actions of `handle(Stmt*)` on slots respect as
well: the assignment of a declaration and the return of a reference. -/
structure StmtRel (R : BlockState → BlockState → Prop) extends StepRel R : Prop where
  assign : ∀ (s s' : BlockState) (d : Nat) (n : Option Nat), s.doAssign d n = .ok s' → R s s'
  consume : ∀ (ann : AnnotationType) (ty : QualType) (rs : Option Nat) (s s' : BlockState),
    consumeReturn ann ty rs s = .ok s' → R s s'

/-- The state `b` extends the state `a`: the slots of `a` are the first
slots of `b`, unchanged; the bindings of `a` are bindings of `b`; and every
other binding of `b` points to a `BORROWED` slot without references. -/
def BlockState.Extends (a b : BlockState) : Prop :=
  (∃ extra, b.states = a.states ++ extra)
  ∧ (∀ d p, varsFind d a.vars = some p → varsFind d b.vars = some p)
  ∧ (∀ d p, varsFind d b.vars = some p →
      varsFind d a.vars = some p
      ∨ (varsFind d a.vars = none ∧ b.states[p]? = some ⟨RefType.BORROWED, 0⟩))

/-- The type is classified, and classified as not refcounted. -/
def notRefcounted (t : QualType) : Bool :=
  match isRefcountedType t with
  | .ok false => true
  | _ => false

/-- A prototype (or its absence) is found for a callee of this type. -/
def calleeKnown (ft_ptr : QualType) : Bool :=
  match calleeProto ft_ptr with
  | .ok _ => true
  | .error _ => false

mutual
/-- An expression built from the classes `handle(Expr*)` knows, in which no
type the walk classifies is refcounted and every callee type is one the
`CallExpr` case accepts. -/
def Expr.plain : Expr → Bool
  | .stringLiteral => true
  | .integerLiteral => true
  | .boolLiteral _ => true
  | .dependentOrConstruct ty => notRefcounted ty
  | .defaultArg ty => notRefcounted ty
  | .exprWithCleanups sub => sub.plain
  | .materializeTemporary sub => sub.plain
  | .bindTemporary sub => sub.plain
  | .unaryOperator ty sub => notRefcounted ty && sub.plain
  | .paren sub => sub.plain
  | .binaryOperator ty lhs rhs => notRefcounted ty && lhs.plain && rhs.plain
  | .cast ty sub => notRefcounted ty && sub.plain
  | .member ty base => notRefcounted ty && base.plain
  | .this ty => notRefcounted ty
  | .declRef ty _ _ => notRefcounted ty
  | .call ty callee args =>
    calleeKnown callee.getType && notRefcounted ty && callee.plain && Expr.plainList args
  | .new ty placement init => notRefcounted ty && Expr.plainList placement && Expr.plainOpt init
  | .conditional _ cond trueExpr falseExpr => cond.plain && trueExpr.plain && falseExpr.plain
  | .other _ => false
/-- Every expression of the list is plain. -/
def Expr.plainList : List Expr → Bool
  | [] => true
  | e :: rest => e.plain && Expr.plainList rest
/-- The expression, if there is one, is plain. -/
def Expr.plainOpt : Option Expr → Bool
  | none => true
  | some e => e.plain
end

/-- A declaration of a variable that is not of refcounted type, with a
plain initialiser if it has one. -/
def Decl.plain : Decl → Bool
  | .varDecl _ ty init => notRefcounted ty && Expr.plainOpt init
  | .nonVar => false

/-- The condition variable, if there is one, is not of refcounted type. -/
def plainConditionVariable : Option QualType → Bool
  | none => true
  | some t => notRefcounted t

mutual
/-- A statement built from the classes `handle(Stmt*)` knows, with plain
expressions and declarations, whose `do` loops are `do {} while (false)`,
whose `for` loops have an initialiser and a condition, and whose `return`
statements return a value that is not of refcounted type. -/
def Stmt.plain : Stmt → Bool
  | .expr e => e.plain
  | .compound body => Stmt.plainList body
  | .doStmt cond body =>
    (match cond with
      | .boolLiteral false => true
      | _ => false) && body.plain
  | .forStmt init cond condVar _ body =>
    Stmt.plainPtr init
      && (match cond with
        | some c => c.plain
        | none => false)
      && plainConditionVariable condVar && body.plain
  | .whileStmt cond condVar body => cond.plain && plainConditionVariable condVar && body.plain
  | .ifStmt cond thenStmt elseStmt =>
    cond.plain && Stmt.plainOpt thenStmt && Stmt.plainOpt elseStmt
  | .declStmt decls => decls.all Decl.plain
  | .returnStmt retValue =>
    (match retValue with
      | some e => e.plain && notRefcounted e.getType
      | none => false)
  | .asmStmt inputs outputs => Expr.plainList inputs && Expr.plainList outputs
  | .other => false
/-- Every statement of the list is plain. -/
def Stmt.plainList : List Stmt → Bool
  | [] => true
  | stmt :: rest => stmt.plain && Stmt.plainList rest
/-- The statement, if there is one, is plain. -/
def Stmt.plainOpt : Option Stmt → Bool
  | none => true
  | some stmt => stmt.plain
/-- There is a statement, and it is plain. -/
def Stmt.plainPtr : Option Stmt → Bool
  | none => false
  | some stmt => stmt.plain
end

/-- Every slot holds no reference or one reference. -/
def BlockState.countsZeroOrOne (s : BlockState) : Bool :=
  s.states.all fun r => decide (r.num_refs = 0 ∨ r.num_refs = 1)

/-- The sum of the counts of all slots of the state. -/
def sumRefs (s : BlockState) : Int :=
  (s.states.map RefState.num_refs).sum

/-- The type is classified, and classified as refcounted. -/
def isRefcounted (t : QualType) : Bool :=
  match isRefcountedType t with
  | .ok true => true
  | _ => false

mutual
/-- The number of call expressions of refcounted type in the expression. -/
def Expr.ownedCalls : Expr → Nat
  | .stringLiteral => 0
  | .integerLiteral => 0
  | .boolLiteral _ => 0
  | .dependentOrConstruct _ => 0
  | .defaultArg _ => 0
  | .exprWithCleanups sub => sub.ownedCalls
  | .materializeTemporary sub => sub.ownedCalls
  | .bindTemporary sub => sub.ownedCalls
  | .unaryOperator _ sub => sub.ownedCalls
  | .paren sub => sub.ownedCalls
  | .binaryOperator _ lhs rhs => lhs.ownedCalls + rhs.ownedCalls
  | .cast _ sub => sub.ownedCalls
  | .member _ base => base.ownedCalls
  | .this _ => 0
  | .declRef _ _ _ => 0
  | .call ty callee args =>
    callee.ownedCalls + Expr.ownedCallsList args + (if isRefcounted ty then 1 else 0)
  | .new _ placement init => Expr.ownedCallsList placement + Expr.ownedCallsOpt init
  | .conditional _ cond trueExpr falseExpr =>
    cond.ownedCalls + trueExpr.ownedCalls + falseExpr.ownedCalls
  | .other _ => 0
/-- The number of call expressions of refcounted type in the list. -/
def Expr.ownedCallsList : List Expr → Nat
  | [] => 0
  | e :: rest => e.ownedCalls + Expr.ownedCallsList rest
/-- The number of call expressions of refcounted type in the expression,
if there is one. -/
def Expr.ownedCallsOpt : Option Expr → Nat
  | none => 0
  | some e => e.ownedCalls
end

mutual
/-- The expression contains no `ConditionalOperator`. -/
def Expr.noTernary : Expr → Bool
  | .stringLiteral => true
  | .integerLiteral => true
  | .boolLiteral _ => true
  | .dependentOrConstruct _ => true
  | .defaultArg _ => true
  | .exprWithCleanups sub => sub.noTernary
  | .materializeTemporary sub => sub.noTernary
  | .bindTemporary sub => sub.noTernary
  | .unaryOperator _ sub => sub.noTernary
  | .paren sub => sub.noTernary
  | .binaryOperator _ lhs rhs => lhs.noTernary && rhs.noTernary
  | .cast _ sub => sub.noTernary
  | .member _ base => base.noTernary
  | .this _ => true
  | .declRef _ _ _ => true
  | .call _ callee args => callee.noTernary && Expr.noTernaryList args
  | .new _ placement init => Expr.noTernaryList placement && Expr.noTernaryOpt init
  | .conditional _ _ _ _ => false
  | .other _ => true
/-- No expression of the list contains a `ConditionalOperator`. -/
def Expr.noTernaryList : List Expr → Bool
  | [] => true
  | e :: rest => e.noTernary && Expr.noTernaryList rest
/-- The expression, if there is one, contains no `ConditionalOperator`. -/
def Expr.noTernaryOpt : Option Expr → Bool
  | none => true
  | some e => e.noTernary
end

/-- The initialiser of the declaration contains no `ConditionalOperator`. -/
def Decl.noTernary : Decl → Bool
  | .varDecl _ _ init => Expr.noTernaryOpt init
  | .nonVar => true

/-- The number of call expressions of refcounted type in the initialiser of
the declaration. -/
def Decl.ownedCalls : Decl → Nat
  | .varDecl _ _ init => Expr.ownedCallsOpt init
  | .nonVar => 0

/-- The number of call expressions of refcounted type in the declarations. -/
def Decl.ownedCallsList : List Decl → Nat
  | [] => 0
  | d :: rest => d.ownedCalls + Decl.ownedCallsList rest

mutual
/-- A statement built from compound statements, `do` statements,
declarations, returns and expression statements only, with no
`ConditionalOperator` in its expressions. -/
def Stmt.branchFree : Stmt → Bool
  | .expr e => e.noTernary
  | .compound body => Stmt.branchFreeList body
  | .doStmt _ body => body.branchFree
  | .declStmt decls => decls.all Decl.noTernary
  | .returnStmt retValue => Expr.noTernaryOpt retValue
  | _ => false
/-- Every statement of the list is branch free. -/
def Stmt.branchFreeList : List Stmt → Bool
  | [] => true
  | stmt :: rest => stmt.branchFree && Stmt.branchFreeList rest
end

mutual
/-- The number of call expressions of refcounted type in a branch-free
statement (the condition of a `do` statement is a literal). -/
def Stmt.ownedCalls : Stmt → Nat
  | .expr e => e.ownedCalls
  | .compound body => Stmt.ownedCallsList body
  | .doStmt _ body => body.ownedCalls
  | .declStmt decls => Decl.ownedCallsList decls
  | .returnStmt retValue => Expr.ownedCallsOpt retValue
  | _ => 0
/-- The number of call expressions of refcounted type in the list. -/
def Stmt.ownedCallsList : List Stmt → Nat
  | [] => 0
  | stmt :: rest => stmt.ownedCalls + Stmt.ownedCallsList rest
end

mutual
/-- The number of return statements whose value is of refcounted type, in a
branch-free statement. -/
def Stmt.ownedReturns : Stmt → Nat
  | .compound body => Stmt.ownedReturnsList body
  | .doStmt _ body => body.ownedReturns
  | .returnStmt (some e) => if isRefcounted e.getType then 1 else 0
  | _ => 0
/-- The number of return statements whose value is of refcounted type, in
the list. -/
def Stmt.ownedReturnsList : List Stmt → Nat
  | [] => 0
  | stmt :: rest => stmt.ownedReturns + Stmt.ownedReturnsList rest
end

/-! ## Theorems -/

/-! ### Basic facts -/

theorem bindParams_not_refcounted (params : List (Nat × QualType)) (state : BlockState)
    (h : ∀ q ∈ params, isRefcountedType q.2 = .ok false) :
    bindParams params state = .ok state := by
  induction params with
  | nil => rfl
  | cons q rest ih =>
    obtain ⟨param, ty⟩ := q
    have h1 : isRefcountedType ty = .ok false := h (param, ty) (List.mem_cons_self _ _)
    simp only [bindParams, h1]
    exact ih (fun q hq => h q (List.mem_cons_of_mem _ hq))

theorem isRefcountedType_functionProto (u n : Bool) :
    isRefcountedType (.functionProto u n) = .ok false := rfl

theorem isRefcountedType_pointer_functionProto (u n : Bool) :
    isRefcountedType (.pointer (.functionProto u n)) = .ok false := rfl

theorem isRefcountedType_boxPtr : isRefcountedType boxPtr = .ok true := by decide

/-- Evaluating `callOwned` on a state that passes the exception check (or
needs none) appends one `OWNED` slot with one reference. -/
theorem handleExpr_callOwned (ty : QualType) (f : Nat) (u n : Bool) (state : BlockState)
    (hty : isRefcountedType ty = .ok true)
    (hclean : canThrow (some ⟨u, n⟩) = true → checkClean state = .ok ()) :
    handleExpr (callOwned ty f u n) state
      = .ok (some state.states.length, { state with states := state.states ++ [⟨.OWNED, 1⟩] }) := by
  by_cases hc : canThrow (some ⟨u, n⟩) = true
  · simp [callOwned, handleExpr, handleExprs, calleeProto, Expr.getType, QualType.isBuiltin,
      QualType.isTemplateSpecialization, QualType.asPointer, QualType.stripParens,
      isRefcountedType_functionProto, isRefcountedType_pointer_functionProto, hc, hclean hc, hty,
      BlockState.createOwned]
  · simp [callOwned, handleExpr, handleExprs, calleeProto, Expr.getType, QualType.isBuiltin,
      QualType.isTemplateSpecialization, QualType.asPointer, QualType.stripParens,
      isRefcountedType_functionProto, isRefcountedType_pointer_functionProto, hc, hty,
      BlockState.createOwned]

/-! ### C1 -/

/-- C1: for a function without refcounted parameters and with a return
annotation other than `BORROWED`, the body `ty x = f(); return x;` (`ty`
refcounted) is accepted by `checkFunction`; with the body `ty x = f();`
alone the walk of the body succeeds, leaves the slot of `x` with one
reference, and `checkFunction` fails in its final `checkClean`. -/
theorem checkFunction_decl_return (loc : List String) (params : List (Nat × QualType))
    (x f : Nat) (ty : QualType) (u n : Bool)
    (hparams : ∀ q ∈ params, isRefcountedType q.2 = .ok false)
    (hty : isRefcountedType ty = .ok true)
    (hann : getAnnotationType loc ≠ AnnotationType.BORROWED) :
    checkFunction ⟨loc, params, .compound [declOwned ty x f u n, returnVar ty x]⟩
        = .ok ⟨[⟨.OWNED, 0⟩, ⟨.OWNED, 0⟩], [(x, 0)]⟩
    ∧ handleStmt (getAnnotationType loc) (.compound [declOwned ty x f u n]) BlockState.empty
        = .ok ⟨[⟨.OWNED, 1⟩, ⟨.OWNED, 0⟩], [(x, 0)]⟩
    ∧ checkClean ⟨[⟨.OWNED, 1⟩, ⟨.OWNED, 0⟩], [(x, 0)]⟩ = .error Err.notClean
    ∧ checkFunction ⟨loc, params, .compound [declOwned ty x f u n]⟩ = .error Err.notClean := by
  refine ⟨?_, ?_, ?_, ?_⟩
  · simp [checkFunction, bindParams_not_refcounted params _ hparams, handleStmt, handleStmts,
      handleDecls, handleDecl, handleExpr, handleExprs, declOwned, returnVar, callOwned, useVar, hty,
      BlockState.empty, varsFind, varsSet, BlockState.createBorrowed, BlockState.createOwned,
      calleeProto, Expr.getType, QualType.isBuiltin, QualType.isTemplateSpecialization,
      QualType.asPointer, QualType.stripParens, isRefcountedType_functionProto,
      isRefcountedType_pointer_functionProto, canThrow, checkClean, BlockState.doAssign,
      BlockState.slot, consumeReturn, hann]
  · simp [handleStmt, handleStmts,
      handleDecls, handleDecl, handleExpr, handleExprs, declOwned, callOwned, hty,
      BlockState.empty, varsFind, varsSet, BlockState.createBorrowed, BlockState.createOwned,
      calleeProto, Expr.getType, QualType.isBuiltin, QualType.isTemplateSpecialization,
      QualType.asPointer, QualType.stripParens, isRefcountedType_functionProto,
      isRefcountedType_pointer_functionProto, canThrow, checkClean, BlockState.doAssign,
      BlockState.slot]
  · simp [checkClean]
  · simp [checkFunction, bindParams_not_refcounted params _ hparams, handleStmt, handleStmts,
      handleDecls, handleDecl, handleExpr, handleExprs, declOwned, callOwned, hty,
      BlockState.empty, varsFind, varsSet, BlockState.createBorrowed, BlockState.createOwned,
      calleeProto, Expr.getType, QualType.isBuiltin, QualType.isTemplateSpecialization,
      QualType.asPointer, QualType.stripParens, isRefcountedType_functionProto,
      isRefcountedType_pointer_functionProto, canThrow, checkClean, BlockState.doAssign,
      BlockState.slot]

/-- C1, at `BoxedInt* x = f(); return x;` in a function without annotation
and with one `int` parameter. -/
theorem checkFunction_decl_return_witness :
    checkFunction ⟨[], [(9, .builtin)], .compound [declOwned boxPtr 1 2 false false, returnVar boxPtr 1]⟩
        = .ok ⟨[⟨.OWNED, 0⟩, ⟨.OWNED, 0⟩], [(1, 0)]⟩
    ∧ handleStmt (getAnnotationType []) (.compound [declOwned boxPtr 1 2 false false]) BlockState.empty
        = .ok ⟨[⟨.OWNED, 1⟩, ⟨.OWNED, 0⟩], [(1, 0)]⟩
    ∧ checkClean ⟨[⟨.OWNED, 1⟩, ⟨.OWNED, 0⟩], [(1, 0)]⟩ = .error Err.notClean
    ∧ checkFunction ⟨[], [(9, .builtin)], .compound [declOwned boxPtr 1 2 false false]⟩ = .error Err.notClean :=
  checkFunction_decl_return [] [(9, .builtin)] 1 2 boxPtr false false (by decide) (by decide) (by decide)

/-! ### C2 -/

/-- C2 (as the code has it): for a parameterless function whose body is the
single statement `return f();` with `f()` of refcounted type, `checkFunction`
succeeds under every return annotation other than `BORROWED`, the return
having consumed the one reference of the `OWNED` slot; under `BORROWED` the
return performs no decrement, the slot keeps its reference and
`checkFunction` fails in its final `checkClean`. -/
theorem checkFunction_return_call (loc : List String) (f : Nat) (ty : QualType) (u n : Bool)
    (hty : isRefcountedType ty = .ok true) :
    (getAnnotationType loc ≠ AnnotationType.BORROWED →
      checkFunction ⟨loc, [], .returnStmt (some (callOwned ty f u n))⟩ = .ok ⟨[⟨.OWNED, 0⟩], []⟩)
    ∧ (getAnnotationType loc = AnnotationType.BORROWED →
      handleStmt AnnotationType.BORROWED (.returnStmt (some (callOwned ty f u n))) BlockState.empty
          = .ok ⟨[⟨.OWNED, 1⟩], []⟩
      ∧ checkFunction ⟨loc, [], .returnStmt (some (callOwned ty f u n))⟩ = .error Err.notClean) := by
  have hcall : handleExpr (callOwned ty f u n) BlockState.empty
      = .ok (some 0, ⟨[⟨.OWNED, 1⟩], []⟩) := by
    rw [handleExpr_callOwned ty f u n _ hty (fun _ => by simp [checkClean, BlockState.empty])]
    rfl
  have hgt : (callOwned ty f u n).getType = ty := rfl
  refine ⟨fun hann => ?_, fun hann => ⟨?_, ?_⟩⟩
  · simp [checkFunction, bindParams, handleStmt, hcall, hgt, consumeReturn, hty, hann,
      BlockState.slot, checkClean]
  · simp [handleStmt, hcall, hgt, consumeReturn, hty]
  · simp [checkFunction, bindParams, handleStmt, hcall, hgt, consumeReturn, hty, hann, checkClean]

/-- C2, at `return f();` with `f` returning `BoxedInt*`, under the three
annotations. -/
theorem checkFunction_return_call_witness :
    checkFunction ⟨[], [], .returnStmt (some (callOwned boxPtr 2 false false))⟩
        = .ok ⟨[⟨.OWNED, 0⟩], []⟩
    ∧ checkFunction ⟨["STOLEN"], [], .returnStmt (some (callOwned boxPtr 2 false false))⟩
        = .ok ⟨[⟨.OWNED, 0⟩], []⟩
    ∧ checkFunction ⟨["BORROWED"], [], .returnStmt (some (callOwned boxPtr 2 false false))⟩
        = .error Err.notClean :=
  ⟨(checkFunction_return_call [] 2 boxPtr false false isRefcountedType_boxPtr).1 (by decide),
   (checkFunction_return_call ["STOLEN"] 2 boxPtr false false isRefcountedType_boxPtr).1 (by decide),
   ((checkFunction_return_call ["BORROWED"] 2 boxPtr false false isRefcountedType_boxPtr).2
      (by decide)).2⟩

/-- C2 fails as stated: the function `BORROWED BoxedInt* get() { return
f(); }` is rejected, its `OWNED` slot still holding one reference at the
final `checkClean`. -/
theorem checkFunction_return_call_borrowed_fails :
    getAnnotationType ["BORROWED"] = AnnotationType.BORROWED
    ∧ isRefcountedType boxPtr = .ok true
    ∧ ¬ ∃ st, checkFunction ⟨["BORROWED"], [], .returnStmt (some (callOwned boxPtr 2 false false))⟩
        = .ok st := by
  refine ⟨by decide, by decide, ?_⟩
  rintro ⟨st, h⟩
  have h2 : checkFunction ⟨["BORROWED"], [], .returnStmt (some (callOwned boxPtr 2 false false))⟩
      = .error Err.notClean := by decide
  rw [h2] at h
  cases h

/-! ### C3 -/

/-- C3: let the returned expression have refcounted type and evaluate to
the slot `p`, holding `r`, in the state `st`. Under an annotation other than
`BORROWED` the return fails when the count of `r` is zero (or below), and
otherwise succeeds with the count of `p` lowered by exactly one, every other
slot and every binding unchanged. Under `BORROWED` the return succeeds with
the state `st` itself. -/
theorem handleStmt_return (return_ann : AnnotationType) (e : Expr) (state st : BlockState)
    (p : Nat) (r : RefState)
    (heval : handleExpr e state = .ok (some p, st))
    (hty : isRefcountedType e.getType = .ok true)
    (hr : st.states[p]? = some r) :
    (return_ann ≠ AnnotationType.BORROWED → r.num_refs ≤ 0 →
      handleStmt return_ann (.returnStmt (some e)) state = .error Err.returnZeroRefs)
    ∧ (return_ann ≠ AnnotationType.BORROWED → 0 < r.num_refs →
      ∃ st', handleStmt return_ann (.returnStmt (some e)) state = .ok st'
        ∧ st'.vars = st.vars
        ∧ st'.states.length = st.states.length
        ∧ st'.states[p]? = some ⟨r.type, r.num_refs - 1⟩
        ∧ ∀ q, q ≠ p → st'.states[q]? = st.states[q]?)
    ∧ (return_ann = AnnotationType.BORROWED →
      handleStmt return_ann (.returnStmt (some e)) state = .ok st) := by
  have hp : p < st.states.length := by
    rcases Nat.lt_or_ge p st.states.length with h | h
    · exact h
    · rw [List.getElem?_eq_none h] at hr
      cases hr
  refine ⟨fun hann hz => ?_, fun hann hpos => ?_, fun hann => ?_⟩
  · have : ¬ (0 < r.num_refs) := by omega
    simp [handleStmt, heval, consumeReturn, hty, hann, BlockState.slot, hr, this]
  · refine ⟨{ st with states := st.states.set p { r with num_refs := r.num_refs - 1 } }, ?_, rfl,
      by simp, ?_, ?_⟩
    · simp [handleStmt, heval, consumeReturn, hty, hann, BlockState.slot, hr, hpos]
    · simp [List.getElem?_set, hp]
    · intro q hq
      simp [List.getElem?_set, Ne.symm hq]
  · simp [handleStmt, heval, consumeReturn, hty, hann]

/-- C3, at `return x;` with `x` bound to an `OWNED` slot holding one
reference, without annotation. -/
theorem handleStmt_return_witness :
    ∃ st', handleStmt AnnotationType.NONE (returnVar boxPtr 1) ⟨[⟨.OWNED, 1⟩, ⟨.OWNED, 0⟩], [(1, 0)]⟩
        = .ok st'
      ∧ st'.vars = [(1, 0)]
      ∧ st'.states.length = 2
      ∧ st'.states[0]? = some ⟨.OWNED, 1 - 1⟩
      ∧ ∀ q, q ≠ 0 → st'.states[q]? = [(⟨.OWNED, 1⟩ : RefState), ⟨.OWNED, 0⟩][q]? :=
  (handleStmt_return AnnotationType.NONE (useVar boxPtr 1) ⟨[⟨.OWNED, 1⟩, ⟨.OWNED, 0⟩], [(1, 0)]⟩
    ⟨[⟨.OWNED, 1⟩, ⟨.OWNED, 0⟩], [(1, 0)]⟩ 0 ⟨.OWNED, 1⟩ (by decide) (by decide) (by decide)).2.1
    (by decide) (by decide)


/-! ### C10 -/

/-- C10: `isRefcountedType` answers `false` on every type that is not a
pointer. On a pointer whose pointee, after the unwrapping block, is neither
builtin, nor a function type, nor a template parameter: if the pointee
resolves to a class declaration the answer is `true` exactly when the name
of the class starts with `Box`; if it resolves to none, the call fails on
`assert(cxx_record_decl)`. -/
theorem isRefcountedType_classifies (t : QualType) :
    (t.isPointerType = false → isRefcountedType t = .ok false)
    ∧ (∀ pointee, t.asPointer = some pointee →
        pointee.unwrapOnce.isBuiltin = false → pointee.unwrapOnce.isFunction = false →
        pointee.unwrapOnce.isTemplateTypeParm = false →
        (∀ name, pointee.unwrapOnce.getAsCXXRecordDecl = some name →
          ∃ b, isRefcountedType t = .ok b ∧ (b = true ↔ startswith name "Box" = true))
        ∧ (pointee.unwrapOnce.getAsCXXRecordDecl = none →
          isRefcountedType t = .error Err.noRecordDecl)) := by
  refine ⟨fun h => ?_, fun pointee hp hb hf ht => ⟨fun name hn => ?_, fun hn => ?_⟩⟩
  · cases hq : t.asPointer with
    | none => simp [isRefcountedType, hq]
    | some q => simp [QualType.isPointerType, hq] at h
  · exact ⟨startswith name "Box", by simp [isRefcountedType, hp, hb, hf, ht, hn], Iff.rfl⟩
  · simp [isRefcountedType, hp, hb, hf, ht, hn]

/-- C10, at `int` (not a pointer), `BoxedInt*` (marked class), `Str*`
(unmarked class) and a pointer to a type without class declaration. -/
theorem isRefcountedType_classifies_witness :
    isRefcountedType .builtin = .ok false
    ∧ (∃ b, isRefcountedType (.pointer (.record "BoxedInt")) = .ok b
        ∧ (b = true ↔ startswith "BoxedInt" "Box" = true))
    ∧ (∃ b, isRefcountedType (.pointer (.record "Str")) = .ok b
        ∧ (b = true ↔ startswith "Str" "Box" = true))
    ∧ isRefcountedType (.pointer .other) = .error Err.noRecordDecl :=
  ⟨(isRefcountedType_classifies .builtin).1 (by decide),
   ((isRefcountedType_classifies (.pointer (.record "BoxedInt"))).2 (.record "BoxedInt") (by decide)
      (by decide) (by decide) (by decide)).1 "BoxedInt" (by decide),
   ((isRefcountedType_classifies (.pointer (.record "Str"))).2 (.record "Str") (by decide)
      (by decide) (by decide) (by decide)).1 "Str" (by decide),
   ((isRefcountedType_classifies (.pointer .other)).2 .other (by decide)
      (by decide) (by decide) (by decide)).2 (by decide)⟩

/-! ### C11 -/

/-- C11 (what the code does): the block `do { ... continue; ... } while (0)`
removes at most one layer of sugar. A pointer to a builtin or function type
under no layer, or under one `ParenType` or `TypedefType` layer, is
classified `false`; under two layers (in any mixture) the pointee is still
sugar after the block, is taken for a class type, resolves to no class
declaration, and the call fails on `assert(cxx_record_decl)`. -/
theorem isRefcountedType_sugar_layers (t : QualType)
    (h : t.isBuiltin = true ∨ t.isFunction = true) :
    isRefcountedType (.pointer t) = .ok false
    ∧ isRefcountedType (.pointer (.paren t)) = .ok false
    ∧ isRefcountedType (.pointer (.typedef t)) = .ok false
    ∧ isRefcountedType (.pointer (.paren (.paren t))) = .error Err.noRecordDecl
    ∧ isRefcountedType (.pointer (.paren (.typedef t))) = .error Err.noRecordDecl
    ∧ isRefcountedType (.pointer (.typedef (.paren t))) = .error Err.noRecordDecl
    ∧ isRefcountedType (.pointer (.typedef (.typedef t))) = .error Err.noRecordDecl := by
  cases t <;> simp [QualType.isBuiltin, QualType.isFunction] at h <;>
    simp [isRefcountedType, QualType.asPointer, QualType.unwrapOnce, QualType.isBuiltin,
      QualType.isFunction, QualType.isTemplateTypeParm, QualType.getAsCXXRecordDecl]

/-- C11, at `int` under zero, one and two layers. -/
theorem isRefcountedType_sugar_layers_witness :
    isRefcountedType (.pointer .builtin) = .ok false
    ∧ isRefcountedType (.pointer (.paren .builtin)) = .ok false
    ∧ isRefcountedType (.pointer (.typedef .builtin)) = .ok false
    ∧ isRefcountedType (.pointer (.paren (.paren .builtin))) = .error Err.noRecordDecl
    ∧ isRefcountedType (.pointer (.paren (.typedef .builtin))) = .error Err.noRecordDecl
    ∧ isRefcountedType (.pointer (.typedef (.paren .builtin))) = .error Err.noRecordDecl
    ∧ isRefcountedType (.pointer (.typedef (.typedef .builtin))) = .error Err.noRecordDecl :=
  isRefcountedType_sugar_layers .builtin (Or.inl (by decide))

/-! ### C12 -/

/-- C12: `getAnnotationType` is a total function of the macro chain. On a
chain none of whose names is `BORROWED` or `STOLEN` (the empty chain, a
location outside every macro, included) it returns `NONE`; on a chain whose
innermost name among the two is `BORROWED` it returns `BORROWED`, and
`STOLEN` likewise, whatever the enclosing chain. -/
theorem getAnnotationType_innermost (inner outer : List String)
    (hinner : ∀ m ∈ inner, m ≠ "BORROWED" ∧ m ≠ "STOLEN") :
    getAnnotationType [] = AnnotationType.NONE
    ∧ getAnnotationType inner = AnnotationType.NONE
    ∧ getAnnotationType (inner ++ "BORROWED" :: outer) = AnnotationType.BORROWED
    ∧ getAnnotationType (inner ++ "STOLEN" :: outer) = AnnotationType.STOLEN := by
  refine ⟨rfl, ?_, ?_, ?_⟩
  all_goals
    induction inner with
    | nil => simp [getAnnotationType]
    | cons m rest ih =>
      have hm := hinner m (List.mem_cons_self _ _)
      simp only [List.cons_append, getAnnotationType, hm.1, hm.2, if_false]
      exact ih (fun x hx => hinner x (List.mem_cons_of_mem _ hx))

/-- C12, at the return type of `PyClass_Name`, written
`PyAPI_FUNC(BORROWED(PyObject *))`. -/
theorem getAnnotationType_innermost_witness :
    getAnnotationType [] = AnnotationType.NONE
    ∧ getAnnotationType ["PyAPI_FUNC"] = AnnotationType.NONE
    ∧ getAnnotationType (["PyAPI_FUNC"] ++ "BORROWED" :: ["DECL"]) = AnnotationType.BORROWED
    ∧ getAnnotationType (["PyAPI_FUNC"] ++ "STOLEN" :: ["DECL"]) = AnnotationType.STOLEN :=
  getAnnotationType_innermost ["PyAPI_FUNC"] ["DECL"] (by decide)


/-! ### C4 -/

/-- C4 (as the code has it): let the callee and the arguments of a call
evaluate to the state `st2`, `ft` being the prototype found for the callee.
The exception check is made exactly when a prototype is found, its
exception specification is resolved and it is not non-throwing; then the
call fails with `notClean` as soon as a slot of `st2` has a count other than
zero. In every other case (callee proven non-throwing, no prototype
available, unresolved exception specification), and also when every slot of
`st2` has count zero, the call is evaluated without any failure of that
check: it yields a fresh `OWNED` slot when its type is refcounted and no
slot otherwise. -/
theorem handleExpr_call_exception_check (ty : QualType) (callee : Expr) (args : List Expr)
    (state st1 st2 : BlockState) (ft : Option FunctionProtoType) (r : Option Nat)
    (hft : calleeProto callee.getType = .ok ft)
    (hcallee : handleExpr callee state = .ok (r, st1))
    (hargs : handleExprs args st1 = .ok st2) :
    (canThrow ft = true ↔ ft = some ⟨false, false⟩)
    ∧ (canThrow ft = true → (∃ s ∈ st2.states, s.num_refs ≠ 0) →
        handleExpr (.call ty callee args) state = .error Err.notClean)
    ∧ ((canThrow ft = false ∨ ∀ s ∈ st2.states, s.num_refs = 0) →
        handleExpr (.call ty callee args) state
          = match isRefcountedType ty with
            | .error e => .error e
            | .ok true =>
              .ok (some st2.states.length, { st2 with states := st2.states ++ [⟨.OWNED, 1⟩] })
            | .ok false => .ok (none, st2)) := by
  refine ⟨?_, fun hc hs => ?_, fun h => ?_⟩
  · cases ft with
    | none => simp [canThrow]
    | some ft =>
      obtain ⟨u, n⟩ := ft
      cases u <;> cases n <;> simp [canThrow]
  · obtain ⟨s, hs, hne⟩ := hs
    have hnot : checkClean st2 = .error Err.notClean := by
      simp only [checkClean]
      rw [if_neg]
      simp only [List.all_eq_true, decide_eq_true_eq, not_forall]
      exact ⟨s, hs, hne⟩
    simp [handleExpr, hft, hcallee, hargs, hc, hnot]
  · have hchk : (if canThrow ft = true then checkClean st2 else .ok ()) = .ok () := by
      rcases h with h | h
      · simp [h]
      · have : checkClean st2 = .ok () := by
          simp only [checkClean]
          rw [if_pos]
          simpa using h
        simp [this]
    simp only [handleExpr, hft, hcallee, hargs, hchk, BlockState.createOwned]

/-- C4, at a call `f()` of type `int` evaluated while an `OWNED` slot holds
one reference: rejected when `f` may throw, accepted when `f` is declared
non-throwing. -/
theorem handleExpr_call_exception_check_witness :
    handleExpr (callOwned .builtin 2 false false) ⟨[⟨.OWNED, 1⟩], [(1, 0)]⟩ = .error Err.notClean
    ∧ handleExpr (callOwned .builtin 2 false true) ⟨[⟨.OWNED, 1⟩], [(1, 0)]⟩
        = .ok (none, ⟨[⟨.OWNED, 1⟩], [(1, 0)]⟩) :=
  ⟨(handleExpr_call_exception_check .builtin
      (.cast (.pointer (.functionProto false false))
        (.declRef (.functionProto false false) 2 [DeclKind.TranslationUnit])) []
      ⟨[⟨.OWNED, 1⟩], [(1, 0)]⟩ ⟨[⟨.OWNED, 1⟩], [(1, 0)]⟩ ⟨[⟨.OWNED, 1⟩], [(1, 0)]⟩
      (some ⟨false, false⟩) none (by decide) (by decide) (by decide)).2.1 (by decide)
      ⟨⟨.OWNED, 1⟩, by simp, by decide⟩,
   (handleExpr_call_exception_check .builtin
      (.cast (.pointer (.functionProto false true))
        (.declRef (.functionProto false true) 2 [DeclKind.TranslationUnit])) []
      ⟨[⟨.OWNED, 1⟩], [(1, 0)]⟩ ⟨[⟨.OWNED, 1⟩], [(1, 0)]⟩ ⟨[⟨.OWNED, 1⟩], [(1, 0)]⟩
      (some ⟨false, true⟩) none (by decide) (by decide) (by decide)).2.2 (Or.inl (by decide))⟩

/-- C4 fails as stated: a call whose callee has an unresolved exception
specification, and a call whose callee has no prototype available (callee of
builtin type), are both accepted while an `OWNED` slot holds one reference,
although neither callee is proven non-throwing. -/
theorem handleExpr_call_unproven_accepted :
    calleeProto (Expr.cast (.pointer (.functionProto true false))
        (.declRef (.functionProto true false) 2 [DeclKind.TranslationUnit])).getType
      = .ok (some ⟨true, false⟩)
    ∧ handleExpr (callOwned .builtin 2 true false) ⟨[⟨.OWNED, 1⟩], [(1, 0)]⟩
        = .ok (none, ⟨[⟨.OWNED, 1⟩], [(1, 0)]⟩)
    ∧ calleeProto (Expr.declRef .builtin 2 [DeclKind.TranslationUnit]).getType = .ok none
    ∧ handleExpr (.call .builtin (.declRef .builtin 2 [DeclKind.TranslationUnit]) [])
        ⟨[⟨.OWNED, 1⟩], [(1, 0)]⟩
        = .ok (none, ⟨[⟨.OWNED, 1⟩], [(1, 0)]⟩) := by
  decide

/-! ### C6 -/

/-- C6 (what the code does): the second loop of `checkSameAndMerge` reads
`state1` on both of its rounds, so a slot of `state2` is never examined.
With no bindings on either side and no slot in `state1` the merge succeeds
whatever the slots of `state2` are, while the same orphan in `state1` is
reported; hence `if (true) {} else { f(); }` with `f` returning `BoxedInt*`
is accepted by `checkFunction`, and the mirrored statement is rejected. -/
theorem checkSameAndMerge_second_state_unchecked :
    (∀ slots : List RefState,
      checkSameAndMerge ⟨[], []⟩ ⟨slots, []⟩ = .ok (⟨[], []⟩, ⟨slots, []⟩))
    ∧ checkSameAndMerge ⟨[⟨.OWNED, 1⟩], []⟩ ⟨[], []⟩ = .error Err.mergeOrphan
    ∧ handleStmt .NONE (.expr (callOwned boxPtr 2 false false)) BlockState.empty
        = .ok ⟨[⟨.OWNED, 1⟩], []⟩
    ∧ checkFunction ⟨[], [], .ifStmt (.boolLiteral true) (some (.compound []))
          (some (.expr (callOwned boxPtr 2 false false)))⟩ = .ok ⟨[], []⟩
    ∧ checkFunction ⟨[], [], .ifStmt (.boolLiteral true)
          (some (.expr (callOwned boxPtr 2 false false))) (some (.compound []))⟩
        = .error Err.mergeOrphan := by
  refine ⟨fun slots => ?_, by decide, by decide, by decide, by decide⟩
  simp [checkSameAndMerge, mergeDeclSet, mergeDecls, allFound, BlockState.copy]


/-! ### Variable table -/

theorem varsFind_varsSet_self (decl slot : Nat) (vars : List (Nat × Nat)) :
    varsFind decl (varsSet decl slot vars) = some slot := by
  induction vars with
  | nil => simp [varsSet, varsFind]
  | cons q rest ih =>
    obtain ⟨k, v⟩ := q
    by_cases hk : k = decl
    · simp [varsSet, varsFind, hk]
    · simp [varsSet, varsFind, hk, ih]

theorem varsFind_varsSet_other (decl slot d : Nat) (vars : List (Nat × Nat)) (h : d ≠ decl) :
    varsFind d (varsSet decl slot vars) = varsFind d vars := by
  induction vars with
  | nil => simp [varsSet, varsFind, Ne.symm h]
  | cons q rest ih =>
    obtain ⟨k, v⟩ := q
    by_cases hk : k = decl
    · have hkd : ¬ k = d := fun hd => h (hd ▸ hk)
      simp [varsSet, varsFind, hk, hkd, Ne.symm h]
    · by_cases hkd : k = d
      · subst hkd
        simp [varsSet, varsFind, hk]
      · simp [varsSet, varsFind, hk, hkd, ih]

/-! ### C18 -/

/-- C18 (as the code has it): for a reference to a variable `d` of
refcounted type. If `d` is bound, the slot it is bound to is returned and the
state is unchanged. If `d` is unbound and its declaration context, linkage
specifications skipped, is a namespace, `d` is bound to a fresh `BORROWED`
slot without references, which is returned, and a second reference returns
that same slot. If `d` is unbound and its context is anything else (the
translation unit, a function, a class), the reference fails. -/
theorem handleExpr_declRef (ty : QualType) (d : Nat) (context : List DeclKind) (state : BlockState)
    (hty : isRefcountedType ty = .ok true) :
    (∀ p, varsFind d state.vars = some p →
      handleExpr (.declRef ty d context) state = .ok (some p, state))
    ∧ (varsFind d state.vars = none →
        (∃ parent, skipLinkageSpec context = DeclKind.Namespace :: parent) →
        handleExpr (.declRef ty d context) state
            = .ok (some state.states.length,
                ⟨state.states ++ [⟨.BORROWED, 0⟩], varsSet d state.states.length state.vars⟩)
        ∧ handleExpr (.declRef ty d context)
              ⟨state.states ++ [⟨.BORROWED, 0⟩], varsSet d state.states.length state.vars⟩
            = .ok (some state.states.length,
                ⟨state.states ++ [⟨.BORROWED, 0⟩], varsSet d state.states.length state.vars⟩))
    ∧ (varsFind d state.vars = none →
        (∀ parent, skipLinkageSpec context ≠ DeclKind.Namespace :: parent) →
        handleExpr (.declRef ty d context) state = .error Err.unknownDecl) := by
  refine ⟨fun p hp => ?_, fun hn hc => ⟨?_, ?_⟩, fun hn hc => ?_⟩
  · simp [handleExpr, hty, hp]
  · obtain ⟨parent, hparent⟩ := hc
    simp [handleExpr, hty, hn, hparent, BlockState.createBorrowed]
  · simp [handleExpr, hty, varsFind_varsSet_self]
  · simp only [handleExpr, hty, hn]

/-- C18, at a variable `BoxedInt* d`: bound to slot 0; unbound and declared
`extern "C"` inside a namespace; unbound and local to a function. -/
theorem handleExpr_declRef_witness :
    handleExpr (.declRef boxPtr 1 [DeclKind.Function]) ⟨[⟨.OWNED, 1⟩], [(1, 0)]⟩
        = .ok (some 0, ⟨[⟨.OWNED, 1⟩], [(1, 0)]⟩)
    ∧ handleExpr (.declRef boxPtr 1 [DeclKind.LinkageSpec, DeclKind.Namespace,
          DeclKind.TranslationUnit]) ⟨[], []⟩
        = .ok (some 0, ⟨[⟨.BORROWED, 0⟩], [(1, 0)]⟩)
    ∧ handleExpr (.declRef boxPtr 1 [DeclKind.Function, DeclKind.TranslationUnit]) ⟨[], []⟩
        = .error Err.unknownDecl :=
  ⟨(handleExpr_declRef boxPtr 1 [DeclKind.Function] ⟨[⟨.OWNED, 1⟩], [(1, 0)]⟩
      isRefcountedType_boxPtr).1 0 (by decide),
   ((handleExpr_declRef boxPtr 1 [DeclKind.LinkageSpec, DeclKind.Namespace,
      DeclKind.TranslationUnit] ⟨[], []⟩ isRefcountedType_boxPtr).2.1 (by decide)
      ⟨[DeclKind.TranslationUnit], by decide⟩).1,
   (handleExpr_declRef boxPtr 1 [DeclKind.Function, DeclKind.TranslationUnit] ⟨[], []⟩
      isRefcountedType_boxPtr).2.2 (by decide) (by simp [skipLinkageSpec])⟩

/-- C18 fails as stated: a reference to an unbound variable of type
`BoxedInt*` declared at translation-unit scope (directly, or `extern "C"`)
is not bound to a slot; the reference fails. -/
theorem handleExpr_declRef_translationUnit_fails :
    isRefcountedType boxPtr = .ok true
    ∧ varsFind 1 BlockState.empty.vars = none
    ∧ handleExpr (.declRef boxPtr 1 [DeclKind.TranslationUnit]) BlockState.empty
        = .error Err.unknownDecl
    ∧ handleExpr (.declRef boxPtr 1 [DeclKind.LinkageSpec, DeclKind.TranslationUnit])
        BlockState.empty = .error Err.unknownDecl := by
  decide

/-! ### C19 -/

/-- C19: when the condition variable of the loop (if there is one) is not
of refcounted type, `while (c) B` and `if (c) B` without `else` are handled
alike on every state: the two walks fail together or succeed together, and
then with the same resulting state. -/
theorem handleStmt_while_eq_if (return_ann : AnnotationType) (c : Expr)
    (condVar : Option QualType) (B : Stmt) (state : BlockState)
    (hcv : checkConditionVariable condVar = .ok ()) :
    handleStmt return_ann (.whileStmt c condVar B) state
      = handleStmt return_ann (.ifStmt c (some B) none) state := by
  simp only [handleStmt, handleOptStmt, hcv]

/-- C19, at `while (true) { BoxedInt* x = f(); return x; }` with an `int`
condition variable. -/
theorem handleStmt_while_eq_if_witness :
    handleStmt .NONE (.whileStmt (.boolLiteral true) (some .builtin)
        (.compound [declOwned boxPtr 1 2 false false, returnVar boxPtr 1])) BlockState.empty
      = handleStmt .NONE (.ifStmt (.boolLiteral true)
        (some (.compound [declOwned boxPtr 1 2 false false, returnVar boxPtr 1])) none)
        BlockState.empty :=
  handleStmt_while_eq_if .NONE (.boolLiteral true) (some .builtin)
    (.compound [declOwned boxPtr 1 2 false false, returnVar boxPtr 1]) BlockState.empty (by decide)


/-! ### C20 -/

/-- C20: let the sub-expressions of a `new` expression (placement
arguments, then initialiser) evaluate to `st2`, and let those of a call
(callee, then arguments) evaluate to `st2c`, the exception check being
passed or not made. When the type of the expression is refcounted, `new`
yields the slot appended to `st2` as `BORROWED` without references, the call
yields the slot appended to `st2c` as `OWNED` with one reference; no other
slot and no binding of `st2` (of `st2c`) is touched. So `return new T(...)`
fails under every annotation other than `BORROWED`. -/
theorem handleExpr_new_call (ty : QualType) (placement : List Expr) (init : Option Expr)
    (callee : Expr) (args : List Expr) (state st1 st2 st1c st2c : BlockState)
    (ft : Option FunctionProtoType) (r : Option Nat) (return_ann : AnnotationType)
    (hty : isRefcountedType ty = .ok true)
    (hplacement : handleExprs placement state = .ok st1)
    (hinit : handleOptExpr init st1 = .ok st2)
    (hft : calleeProto callee.getType = .ok ft)
    (hcallee : handleExpr callee state = .ok (r, st1c))
    (hargs : handleExprs args st1c = .ok st2c)
    (hclean : canThrow ft = true → checkClean st2c = .ok ()) :
    handleExpr (.new ty placement init) state
        = .ok (some st2.states.length, ⟨st2.states ++ [⟨.BORROWED, 0⟩], st2.vars⟩)
    ∧ handleExpr (.call ty callee args) state
        = .ok (some st2c.states.length, ⟨st2c.states ++ [⟨.OWNED, 1⟩], st2c.vars⟩)
    ∧ (return_ann ≠ AnnotationType.BORROWED →
        handleStmt return_ann (.returnStmt (some (.new ty placement init))) state
          = .error Err.returnZeroRefs) := by
  have hnew : handleExpr (.new ty placement init) state
      = .ok (some st2.states.length, ⟨st2.states ++ [⟨.BORROWED, 0⟩], st2.vars⟩) := by
    simp [handleExpr, hplacement, hinit, borrowedIfRefcounted, hty, BlockState.createBorrowed]
  refine ⟨hnew, ?_, fun hann => ?_⟩
  · by_cases hc : canThrow ft = true
    · simp [handleExpr, hft, hcallee, hargs, hc, hclean hc, hty, BlockState.createOwned]
    · simp [handleExpr, hft, hcallee, hargs, hc, hty, BlockState.createOwned]
  · simp [handleStmt, hnew, Expr.getType, consumeReturn, hty, hann, BlockState.slot]

/-- C20, at `new BoxedInt(1)` and `f()` of type `BoxedInt*`, evaluated in a
state with one slot. -/
theorem handleExpr_new_call_witness :
    handleExpr (.new boxPtr [] (some .integerLiteral)) ⟨[⟨.OWNED, 0⟩], [(1, 0)]⟩
        = .ok (some 1, ⟨[⟨.OWNED, 0⟩] ++ [⟨.BORROWED, 0⟩], [(1, 0)]⟩)
    ∧ handleExpr (.call boxPtr (.cast (.pointer (.functionProto false false))
          (.declRef (.functionProto false false) 2 [DeclKind.TranslationUnit])) [])
          ⟨[⟨.OWNED, 0⟩], [(1, 0)]⟩
        = .ok (some 1, ⟨[⟨.OWNED, 0⟩] ++ [⟨.OWNED, 1⟩], [(1, 0)]⟩)
    ∧ (AnnotationType.NONE ≠ AnnotationType.BORROWED →
        handleStmt .NONE (.returnStmt (some (.new boxPtr [] (some .integerLiteral))))
            ⟨[⟨.OWNED, 0⟩], [(1, 0)]⟩
          = .error Err.returnZeroRefs) :=
  handleExpr_new_call boxPtr [] (some .integerLiteral)
    (.cast (.pointer (.functionProto false false))
      (.declRef (.functionProto false false) 2 [DeclKind.TranslationUnit])) []
    ⟨[⟨.OWNED, 0⟩], [(1, 0)]⟩ ⟨[⟨.OWNED, 0⟩], [(1, 0)]⟩ ⟨[⟨.OWNED, 0⟩], [(1, 0)]⟩
    ⟨[⟨.OWNED, 0⟩], [(1, 0)]⟩ ⟨[⟨.OWNED, 0⟩], [(1, 0)]⟩ (some ⟨false, false⟩) none .NONE
    (by decide) (by decide) (by decide) (by decide) (by decide) (by decide) (fun _ => by decide)

/-! ### The join: bindings -/

theorem varsErase_eq_filter (d : Nat) (vs : List (Nat × Nat)) :
    varsErase d vs = vs.filter (fun q => decide (q.1 ≠ d)) := by
  induction vs with
  | nil => rfl
  | cons q rest ih =>
    obtain ⟨k, v⟩ := q
    by_cases hk : k = d
    · simp [varsErase, hk, ih]
    · simp [varsErase, hk, ih]

theorem varsFind_eq_none_iff (d : Nat) (vs : List (Nat × Nat)) :
    varsFind d vs = none ↔ ∀ q ∈ vs, q.1 ≠ d := by
  induction vs with
  | nil => simp [varsFind]
  | cons q rest ih =>
    obtain ⟨k, v⟩ := q
    by_cases hk : k = d
    · simp [varsFind, hk]
    · simp [varsFind, hk, ih]

theorem varsFind_some_mem (d p : Nat) (vs : List (Nat × Nat)) (h : varsFind d vs = some p) :
    (d, p) ∈ vs := by
  induction vs with
  | nil => simp [varsFind] at h
  | cons q rest ih =>
    obtain ⟨k, v⟩ := q
    by_cases hk : k = d
    · simp [varsFind, hk] at h
      simp [hk, h]
    · simp [varsFind, hk] at h
      exact List.mem_cons_of_mem _ (ih h)

theorem varsFind_isSome_of_mem (q : Nat × Nat) (vs : List (Nat × Nat)) (h : q ∈ vs) :
    ∃ p, varsFind q.1 vs = some p := by
  cases hf : varsFind q.1 vs with
  | some p => exact ⟨p, rfl⟩
  | none => exact absurd rfl ((varsFind_eq_none_iff q.1 vs).1 hf q h)

theorem varsFind_filter (d : Nat) (P : Nat → Bool) (vs : List (Nat × Nat)) :
    varsFind d (vs.filter (fun q => P q.1)) = if P d = true then varsFind d vs else none := by
  induction vs with
  | nil => simp [varsFind]
  | cons q rest ih =>
    obtain ⟨k, v⟩ := q
    by_cases hk : k = d
    · subst hk
      by_cases hP : P k = true
      · simp [List.filter_cons, hP, varsFind]
      · simp [List.filter_cons, hP, varsFind, ih]
    · by_cases hP : P k = true
      · simp [List.filter_cons, hP, varsFind, hk, ih]
      · simp [List.filter_cons, hP, varsFind, hk, ih]

theorem varsFind_varsErase (d d0 : Nat) (vs : List (Nat × Nat)) :
    varsFind d (varsErase d0 vs) = if d = d0 then none else varsFind d vs := by
  rw [varsErase_eq_filter, varsFind_filter d (fun k => decide (k ≠ d0)) vs]
  by_cases h : d = d0 <;> simp [h]

theorem mem_foldl_declsInsert (xs acc : List Nat) (d : Nat) :
    d ∈ xs.foldl declsInsert acc ↔ d ∈ acc ∨ d ∈ xs := by
  induction xs generalizing acc with
  | nil => simp
  | cons x rest ih =>
    rw [List.foldl_cons, ih, declsInsert]
    by_cases hx : x ∈ acc
    · simp only [hx, if_true, List.mem_cons]
      constructor
      · rintro (h | h)
        · exact Or.inl h
        · exact Or.inr (Or.inr h)
      · rintro (h | h | h)
        · exact Or.inl h
        · exact Or.inl (h ▸ hx)
        · exact Or.inr h
    · simp only [hx, if_false, List.mem_append, List.mem_singleton, List.mem_cons]
      tauto

theorem nodup_foldl_declsInsert (xs acc : List Nat) (h : acc.Nodup) :
    (xs.foldl declsInsert acc).Nodup := by
  induction xs generalizing acc with
  | nil => simpa using h
  | cons x rest ih =>
    rw [List.foldl_cons]
    apply ih
    rw [declsInsert]
    by_cases hx : x ∈ acc
    · simpa [hx] using h
    · simp only [hx, if_false]
      exact List.Nodup.append h (List.nodup_singleton x) (by simpa using hx)

theorem mem_mergeDeclSet (state1 state2 : BlockState) (d : Nat) :
    d ∈ mergeDeclSet state1 state2
      ↔ (∃ p, varsFind d state1.vars = some p) ∨ (∃ p, varsFind d state2.vars = some p) := by
  have key : ∀ vs : List (Nat × Nat), d ∈ vs.map Prod.fst ↔ ∃ p, varsFind d vs = some p := by
    intro vs
    constructor
    · intro h
      obtain ⟨q, hq, hd⟩ := List.mem_map.1 h
      obtain ⟨p, hp⟩ := varsFind_isSome_of_mem q vs hq
      exact ⟨p, hd ▸ hp⟩
    · rintro ⟨p, hp⟩
      exact List.mem_map.2 ⟨(d, p), varsFind_some_mem d p vs hp, rfl⟩
  rw [mergeDeclSet, mem_foldl_declsInsert, mem_foldl_declsInsert, key, key]
  simp

theorem nodup_mergeDeclSet (state1 state2 : BlockState) : (mergeDeclSet state1 state2).Nodup :=
  nodup_foldl_declsInsert _ _ (nodup_foldl_declsInsert _ _ List.nodup_nil)


/-! ### The join: one variable -/

/-- The four ways in which the body of the first loop of
`checkSameAndMerge` succeeds for a variable. -/
theorem mergeDecl_inv (d : Nat) (s1 s2 a1 a2 : BlockState)
    (h : mergeDecl d s1 s2 = .ok (a1, a2)) :
    (∃ p1 r1, varsFind d s1.vars = some p1 ∧ varsFind d s2.vars = none
        ∧ s1.states[p1]? = some r1 ∧ r1.num_refs = 0
        ∧ a1 = ⟨s1.states, varsErase d s1.vars⟩ ∧ a2 = s2)
    ∨ (∃ p2 r2, varsFind d s1.vars = none ∧ varsFind d s2.vars = some p2
        ∧ s2.states[p2]? = some r2 ∧ r2.num_refs = 0
        ∧ a1 = s1 ∧ a2 = ⟨s2.states, varsErase d s2.vars⟩)
    ∨ (∃ p1 p2 r1 r2, varsFind d s1.vars = some p1 ∧ varsFind d s2.vars = some p2
        ∧ s1.states[p1]? = some r1 ∧ s2.states[p2]? = some r2
        ∧ r1.num_refs = r2.num_refs ∧ r1.type = r2.type ∧ a1 = s1 ∧ a2 = s2)
    ∨ (∃ p1 p2 r1 r2, varsFind d s1.vars = some p1 ∧ varsFind d s2.vars = some p2
        ∧ s1.states[p1]? = some r1 ∧ s2.states[p2]? = some r2
        ∧ r1.num_refs = r2.num_refs ∧ r1.type ≠ r2.type
        ∧ r1.type ≠ RefType.UNKNOWN ∧ r2.type ≠ RefType.UNKNOWN
        ∧ a1 = ⟨s1.states.set p1 ⟨RefType.OWNED, r1.num_refs⟩, s1.vars⟩
        ∧ a2 = ⟨s2.states.set p2 ⟨RefType.OWNED, r2.num_refs⟩, s2.vars⟩) := by
  unfold mergeDecl at h
  cases h1 : varsFind d s1.vars with
  | none =>
    cases h2 : varsFind d s2.vars with
    | none => simp [h1, h2] at h
    | some p2 =>
      cases hr : s2.states[p2]? with
      | none => simp [h1, h2, BlockState.slot, hr] at h
      | some r2 =>
        by_cases hz : r2.num_refs = 0
        · simp [h1, h2, BlockState.slot, hr, hz] at h
          exact Or.inr (Or.inl ⟨p2, r2, rfl, rfl, hr, hz, h.1.symm, h.2.symm⟩)
        · simp [h1, h2, BlockState.slot, hr, hz] at h
  | some p1 =>
    cases hr1 : s1.states[p1]? with
    | none =>
      cases h2 : varsFind d s2.vars with
      | none => simp [h1, h2, BlockState.slot, hr1] at h
      | some p2 =>
        cases hr2 : s2.states[p2]? <;> simp [h1, h2, BlockState.slot, hr1, hr2] at h
    | some r1 =>
      cases h2 : varsFind d s2.vars with
      | none =>
        by_cases hz : r1.num_refs = 0
        · simp [h1, h2, BlockState.slot, hr1, hz] at h
          exact Or.inl ⟨p1, r1, rfl, rfl, hr1, hz, h.1.symm, h.2.symm⟩
        · simp [h1, h2, BlockState.slot, hr1, hz] at h
      | some p2 =>
        cases hr2 : s2.states[p2]? with
        | none => simp [h1, h2, BlockState.slot, hr1, hr2] at h
        | some r2 =>
          by_cases hc : r1.num_refs = r2.num_refs
          · by_cases ht : r1.type = r2.type
            · simp [h1, h2, BlockState.slot, hr1, hr2, hc, ht] at h
              exact Or.inr (Or.inr (Or.inl
                ⟨p1, p2, r1, r2, rfl, rfl, hr1, hr2, hc, ht, h.1.symm, h.2.symm⟩))
            · by_cases hu : r1.type = RefType.UNKNOWN ∨ r2.type = RefType.UNKNOWN
              · simp [h1, h2, BlockState.slot, hr1, hr2, hc, ht, hu] at h
              · simp [h1, h2, BlockState.slot, hr1, hr2, hc, ht, hu, setOwned] at h
                have hu1 : r1.type ≠ RefType.UNKNOWN := fun e => hu (Or.inl e)
                have hu2 : r2.type ≠ RefType.UNKNOWN := fun e => hu (Or.inr e)
                exact Or.inr (Or.inr (Or.inr
                  ⟨p1, p2, r1, r2, rfl, rfl, hr1, hr2, hc, ht, hu1, hu2, hc ▸ h.1.symm,
                    h.2.symm⟩))
          · simp [h1, h2, BlockState.slot, hr1, hr2, hc] at h

/-- A variable bound on both sides to slots of equal content is left alone. -/
theorem mergeDecl_same (d : Nat) (s1 s2 : BlockState) (p1 p2 : Nat) (r : RefState)
    (h1 : varsFind d s1.vars = some p1) (h2 : varsFind d s2.vars = some p2)
    (hr1 : s1.states[p1]? = some r) (hr2 : s2.states[p2]? = some r) :
    mergeDecl d s1 s2 = .ok (s1, s2) := by
  simp [mergeDecl, h1, h2, BlockState.slot, hr1, hr2]

theorem mergeDecls_same (ds : List Nat) (s1 s2 : BlockState)
    (h : ∀ d ∈ ds, ∃ p1 p2 r, varsFind d s1.vars = some p1 ∧ varsFind d s2.vars = some p2
      ∧ s1.states[p1]? = some r ∧ s2.states[p2]? = some r) :
    mergeDecls ds s1 s2 = .ok (s1, s2) := by
  induction ds with
  | nil => rfl
  | cons d rest ih =>
    obtain ⟨p1, p2, r, h1, h2, hr1, hr2⟩ := h d (List.mem_cons_self _ _)
    simp only [mergeDecls, mergeDecl_same d s1 s2 p1 p2 r h1 h2 hr1 hr2]
    exact ih (fun d hd => h d (List.mem_cons_of_mem _ hd))


/-- What a successful step of the first loop keeps: the counts of all
slots, the slots themselves unless they become `OWNED`, and the bindings of
the other variables. -/
theorem mergeDecl_step (d : Nat) (s1 s2 a1 a2 : BlockState)
    (h : mergeDecl d s1 s2 = .ok (a1, a2)) :
    (∀ i : Nat, (a1.states[i]?).map RefState.num_refs = (s1.states[i]?).map RefState.num_refs)
    ∧ (∀ i : Nat, (a2.states[i]?).map RefState.num_refs = (s2.states[i]?).map RefState.num_refs)
    ∧ (∀ (i : Nat) (r : RefState), a1.states[i]? = some r → r.type = RefType.OWNED ∨ s1.states[i]? = some r)
    ∧ (∀ (i : Nat) (r : RefState), a2.states[i]? = some r → r.type = RefType.OWNED ∨ s2.states[i]? = some r)
    ∧ (∀ d', d' ≠ d → varsFind d' a1.vars = varsFind d' s1.vars)
    ∧ (∀ d', d' ≠ d → varsFind d' a2.vars = varsFind d' s2.vars) := by
  have hset : ∀ (xs : List RefState) (p : Nat) (r : RefState), xs[p]? = some r →
      (∀ i : Nat, ((xs.set p ⟨RefType.OWNED, r.num_refs⟩)[i]?).map RefState.num_refs
          = (xs[i]?).map RefState.num_refs)
      ∧ (∀ (i : Nat) (r' : RefState), (xs.set p ⟨RefType.OWNED, r.num_refs⟩)[i]? = some r' →
          r'.type = RefType.OWNED ∨ xs[i]? = some r') := by
    intro xs p r hr
    have hp : p < xs.length := by
      rcases Nat.lt_or_ge p xs.length with hlt | hge
      · exact hlt
      · rw [List.getElem?_eq_none hge] at hr
        cases hr
    refine ⟨fun i => ?_, fun i r' hr' => ?_⟩
    · by_cases hi : p = i
      · subst hi
        simp [List.getElem?_set, hp, hr]
      · simp [List.getElem?_set, hi]
    · by_cases hi : p = i
      · subst hi
        simp [List.getElem?_set, hp] at hr'
        exact Or.inl (hr' ▸ rfl)
      · simp [List.getElem?_set, hi] at hr'
        exact Or.inr hr'
  rcases mergeDecl_inv d s1 s2 a1 a2 h with
    ⟨p1, r1, _, _, _, _, e1, e2⟩ | ⟨p2, r2, _, _, _, _, e1, e2⟩
    | ⟨p1, p2, r1, r2, _, _, _, _, _, _, e1, e2⟩
    | ⟨p1, p2, r1, r2, _, _, hr1, hr2, _, _, _, _, e1, e2⟩
  · subst e1 e2
    refine ⟨fun _ => rfl, fun _ => rfl, fun _ _ hr => Or.inr hr, fun _ _ hr => Or.inr hr,
      fun d' hd => ?_, fun _ _ => rfl⟩
    simp [varsFind_varsErase, hd]
  · subst e1 e2
    refine ⟨fun _ => rfl, fun _ => rfl, fun _ _ hr => Or.inr hr, fun _ _ hr => Or.inr hr,
      fun _ _ => rfl, fun d' hd => ?_⟩
    simp [varsFind_varsErase, hd]
  · subst e1 e2
    exact ⟨fun _ => rfl, fun _ => rfl, fun _ _ hr => Or.inr hr, fun _ _ hr => Or.inr hr,
      fun _ _ => rfl, fun _ _ => rfl⟩
  · subst e1 e2
    exact ⟨(hset s1.states p1 r1 hr1).1, (hset s2.states p2 r2 hr2).1,
      (hset s1.states p1 r1 hr1).2, (hset s2.states p2 r2 hr2).2, fun _ _ => rfl, fun _ _ => rfl⟩

/-- A successful first loop keeps the count of every slot and changes the
kind of a slot to `OWNED` only. -/
theorem mergeDecls_slots (ds : List Nat) (s1 s2 m1 m2 : BlockState)
    (h : mergeDecls ds s1 s2 = .ok (m1, m2)) :
    (∀ i : Nat, (m1.states[i]?).map RefState.num_refs = (s1.states[i]?).map RefState.num_refs)
    ∧ (∀ i : Nat, (m2.states[i]?).map RefState.num_refs = (s2.states[i]?).map RefState.num_refs)
    ∧ (∀ (i : Nat) (r : RefState), m1.states[i]? = some r → r.type = RefType.OWNED ∨ s1.states[i]? = some r)
    ∧ (∀ (i : Nat) (r : RefState), m2.states[i]? = some r → r.type = RefType.OWNED ∨ s2.states[i]? = some r) := by
  induction ds generalizing s1 s2 with
  | nil =>
    simp only [mergeDecls, Except.ok.injEq, Prod.mk.injEq] at h
    obtain ⟨e1, e2⟩ := h
    subst e1 e2
    exact ⟨fun _ => rfl, fun _ => rfl, fun _ _ hr => Or.inr hr, fun _ _ hr => Or.inr hr⟩
  | cons d rest ih =>
    simp only [mergeDecls] at h
    cases hstep : mergeDecl d s1 s2 with
    | error e => simp [hstep] at h
    | ok a =>
      obtain ⟨a1, a2⟩ := a
      simp only [hstep] at h
      obtain ⟨c1, c2, t1, t2, _, _⟩ := mergeDecl_step d s1 s2 a1 a2 hstep
      obtain ⟨k1, k2, u1, u2⟩ := ih a1 a2 h
      refine ⟨fun i => (k1 i).trans (c1 i), fun i => (k2 i).trans (c2 i), fun i r hr => ?_,
        fun i r hr => ?_⟩
      · rcases u1 i r hr with ho | ha
        · exact Or.inl ho
        · exact t1 i r ha
      · rcases u2 i r hr with ho | ha
        · exact Or.inl ho
        · exact t2 i r ha

/-- The first loop on a list of variables fails as soon as one of them is
bound on one side only, to a slot with a count other than zero, or is bound
on both sides to slots of different counts. -/
theorem mergeDecls_fails (ds : List Nat) (s1 s2 : BlockState) (d : Nat) (hd : d ∈ ds)
    (hbad : (∃ p r, varsFind d s1.vars = some p ∧ varsFind d s2.vars = none
          ∧ s1.states[p]? = some r ∧ r.num_refs ≠ 0)
      ∨ (∃ p r, varsFind d s1.vars = none ∧ varsFind d s2.vars = some p
          ∧ s2.states[p]? = some r ∧ r.num_refs ≠ 0)
      ∨ (∃ p1 p2 r1 r2, varsFind d s1.vars = some p1 ∧ varsFind d s2.vars = some p2
          ∧ s1.states[p1]? = some r1 ∧ s2.states[p2]? = some r2
          ∧ r1.num_refs ≠ r2.num_refs)) :
    ∃ e, mergeDecls ds s1 s2 = .error e := by
  induction ds generalizing s1 s2 with
  | nil => cases hd
  | cons d0 rest ih =>
    simp only [mergeDecls]
    cases hstep : mergeDecl d0 s1 s2 with
    | error e => exact ⟨e, rfl⟩
    | ok a =>
      obtain ⟨a1, a2⟩ := a
      simp only []
      by_cases hdd : d = d0
      · subst hdd
        exfalso
        have hinv : (∃ p1 r1, varsFind d s1.vars = some p1 ∧ varsFind d s2.vars = none
              ∧ s1.states[p1]? = some r1 ∧ r1.num_refs = 0)
            ∨ (∃ p2 r2, varsFind d s1.vars = none ∧ varsFind d s2.vars = some p2
              ∧ s2.states[p2]? = some r2 ∧ r2.num_refs = 0)
            ∨ (∃ p1 p2 r1 r2, varsFind d s1.vars = some p1 ∧ varsFind d s2.vars = some p2
              ∧ s1.states[p1]? = some r1 ∧ s2.states[p2]? = some r2
              ∧ r1.num_refs = r2.num_refs) := by
          rcases mergeDecl_inv d s1 s2 a1 a2 hstep with
            ⟨p1, r1, f1, f2, g1, z, _, _⟩ | ⟨p2, r2, f1, f2, g2, z, _, _⟩
            | ⟨p1, p2, r1, r2, f1, f2, g1, g2, hc, _, _, _⟩
            | ⟨p1, p2, r1, r2, f1, f2, g1, g2, hc, _, _, _, _, _⟩
          · exact Or.inl ⟨p1, r1, f1, f2, g1, z⟩
          · exact Or.inr (Or.inl ⟨p2, r2, f1, f2, g2, z⟩)
          · exact Or.inr (Or.inr ⟨p1, p2, r1, r2, f1, f2, g1, g2, hc⟩)
          · exact Or.inr (Or.inr ⟨p1, p2, r1, r2, f1, f2, g1, g2, hc⟩)
        rcases hinv with ⟨p1, r1, f1, f2, g1, z⟩ | ⟨p2, r2, f1, f2, g2, z⟩
          | ⟨p1, p2, r1, r2, f1, f2, g1, g2, hc⟩
        · rcases hbad with ⟨p, r, b1, b2, b3, b4⟩ | ⟨p, r, b1, b2, b3, b4⟩
            | ⟨q1, q2, t1, t2, b1, b2, b3, b4, b5⟩
          · rw [f1] at b1
            cases b1
            rw [g1] at b3
            cases b3
            exact b4 z
          · rw [f1] at b1
            cases b1
          · rw [f2] at b2
            cases b2
        · rcases hbad with ⟨p, r, b1, b2, b3, b4⟩ | ⟨p, r, b1, b2, b3, b4⟩
            | ⟨q1, q2, t1, t2, b1, b2, b3, b4, b5⟩
          · rw [f1] at b1
            cases b1
          · rw [f2] at b2
            cases b2
            rw [g2] at b3
            cases b3
            exact b4 z
          · rw [f1] at b1
            cases b1
        · rcases hbad with ⟨p, r, b1, b2, b3, b4⟩ | ⟨p, r, b1, b2, b3, b4⟩
            | ⟨q1, q2, t1, t2, b1, b2, b3, b4, b5⟩
          · rw [f2] at b2
            cases b2
          · rw [f1] at b1
            cases b1
          · rw [f1] at b1
            rw [f2] at b2
            cases b1
            cases b2
            rw [g1] at b3
            rw [g2] at b4
            cases b3
            cases b4
            exact b5 hc
      · have hrest : d ∈ rest := by
          rcases List.mem_cons.1 hd with h | h
          · exact absurd h hdd
          · exact h
        obtain ⟨c1, c2, _, _, v1, v2⟩ := mergeDecl_step d0 s1 s2 a1 a2 hstep
        have hcount : ∀ (xs ys : List RefState) (p : Nat) (r : RefState),
            (ys[p]?).map RefState.num_refs = (xs[p]?).map RefState.num_refs → xs[p]? = some r →
            ∃ r', ys[p]? = some r' ∧ r'.num_refs = r.num_refs := by
          intro xs ys p r he hr
          rw [hr] at he
          cases hy : ys[p]? with
          | none => simp [hy] at he
          | some r' =>
            simp [hy] at he
            exact ⟨r', rfl, he⟩
        apply ih a1 a2 hrest
        rcases hbad with ⟨p, r, b1, b2, b3, b4⟩ | ⟨p, r, b1, b2, b3, b4⟩
          | ⟨q1, q2, t1, t2, b1, b2, b3, b4, b5⟩
        · obtain ⟨r', hr', hn⟩ := hcount _ _ p r (c1 p) b3
          exact Or.inl ⟨p, r', by rw [v1 d hdd, b1], by rw [v2 d hdd, b2], hr', by rw [hn]; exact b4⟩
        · obtain ⟨r', hr', hn⟩ := hcount _ _ p r (c2 p) b3
          exact Or.inr (Or.inl
            ⟨p, r', by rw [v1 d hdd, b1], by rw [v2 d hdd, b2], hr', by rw [hn]; exact b4⟩)
        · obtain ⟨r1', hr1', hn1⟩ := hcount _ _ q1 t1 (c1 q1) b3
          obtain ⟨r2', hr2', hn2⟩ := hcount _ _ q2 t2 (c2 q2) b4
          exact Or.inr (Or.inr ⟨q1, q2, r1', r2', by rw [v1 d hdd, b1], by rw [v2 d hdd, b2],
            hr1', hr2', by rw [hn1, hn2]; exact b5⟩)


/-- The bindings after a successful first loop: a binding is dropped
exactly when its variable is in the list and unbound on the other side. -/
theorem mergeDecls_vars (ds : List Nat) (s1 s2 m1 m2 : BlockState)
    (h : mergeDecls ds s1 s2 = .ok (m1, m2)) :
    m1.vars = s1.vars.filter (fun q => !(decide (q.1 ∈ ds) && (varsFind q.1 s2.vars).isNone))
    ∧ m2.vars = s2.vars.filter (fun q => !(decide (q.1 ∈ ds) && (varsFind q.1 s1.vars).isNone)) := by
  induction ds generalizing s1 s2 with
  | nil =>
    simp only [mergeDecls, Except.ok.injEq, Prod.mk.injEq] at h
    obtain ⟨e1, e2⟩ := h
    subst e1 e2
    simp
  | cons d rest ih =>
    simp only [mergeDecls] at h
    cases hstep : mergeDecl d s1 s2 with
    | error e => simp [hstep] at h
    | ok a =>
      obtain ⟨a1, a2⟩ := a
      simp only [hstep] at h
      obtain ⟨k1, k2⟩ := ih a1 a2 h
      have hboth : ∀ (vs other : List (Nat × Nat)) (p : Nat), varsFind d other = some p →
          vs.filter (fun q => !(decide (q.1 ∈ rest) && (varsFind q.1 other).isNone))
            = vs.filter (fun q => !(decide (q.1 ∈ d :: rest) && (varsFind q.1 other).isNone)) := by
        intro vs other p hp
        apply List.filter_congr
        intro q _
        by_cases hq : q.1 = d
        · simp [hq, hp]
        · simp [hq]
      have hkeep : ∀ (vs other : List (Nat × Nat)), varsFind d vs = none →
          vs.filter (fun q => !(decide (q.1 ∈ rest) && (varsFind q.1 (varsErase d other)).isNone))
            = vs.filter (fun q => !(decide (q.1 ∈ d :: rest) && (varsFind q.1 other).isNone)) := by
        intro vs other hn
        apply List.filter_congr
        intro q hq
        have hne : q.1 ≠ d := (varsFind_eq_none_iff d vs).1 hn q hq
        simp [varsFind_varsErase, hne]
      have hdrop : ∀ (vs other : List (Nat × Nat)), varsFind d other = none →
          (varsErase d vs).filter (fun q => !(decide (q.1 ∈ rest) && (varsFind q.1 other).isNone))
            = vs.filter (fun q => !(decide (q.1 ∈ d :: rest) && (varsFind q.1 other).isNone)) := by
        intro vs other hn
        rw [varsErase_eq_filter, List.filter_filter]
        apply List.filter_congr
        intro q _
        by_cases hq : q.1 = d
        · simp [hq, hn]
        · simp [hq]
      rcases mergeDecl_inv d s1 s2 a1 a2 hstep with
        ⟨p1, r1, f1, f2, _, _, e1, e2⟩ | ⟨p2, r2, f1, f2, _, _, e1, e2⟩
        | ⟨p1, p2, r1, r2, f1, f2, _, _, _, _, e1, e2⟩
        | ⟨p1, p2, r1, r2, f1, f2, _, _, _, _, _, _, e1, e2⟩
      · subst e1 e2
        exact ⟨k1.trans (hdrop _ _ f2), k2.trans (hkeep _ _ f2)⟩
      · subst e1 e2
        exact ⟨k1.trans (hkeep _ _ f1), k2.trans (hdrop _ _ f1)⟩
      · subst e1 e2
        exact ⟨k1.trans (hboth _ _ p2 f2), k2.trans (hboth _ _ p1 f1)⟩
      · subst e1 e2
        exact ⟨k1.trans (hboth _ _ p2 f2), k2.trans (hboth _ _ p1 f1)⟩

/-- The bindings after a successful merge: those of the variables bound on
both sides. -/
theorem checkSameAndMerge_vars (s1 s2 m1 m2 : BlockState)
    (h : checkSameAndMerge s1 s2 = .ok (m1, m2)) :
    m1.vars = s1.vars.filter (fun q => (varsFind q.1 s2.vars).isSome)
    ∧ m2.vars = s2.vars.filter (fun q => (varsFind q.1 s1.vars).isSome) := by
  unfold checkSameAndMerge at h
  cases hm : mergeDecls (mergeDeclSet s1 s2) s1 s2 with
  | error e => simp [hm] at h
  | ok a =>
    obtain ⟨a1, a2⟩ := a
    simp only [hm] at h
    split at h
    · simp only [Except.ok.injEq, Prod.mk.injEq] at h
      obtain ⟨e1, e2⟩ := h
      subst e1 e2
      obtain ⟨k1, k2⟩ := mergeDecls_vars _ s1 s2 a1 a2 hm
      refine ⟨k1.trans ?_, k2.trans ?_⟩
      · apply List.filter_congr
        intro q hq
        have hmem : q.1 ∈ mergeDeclSet s1 s2 :=
          (mem_mergeDeclSet s1 s2 q.1).2 (Or.inl (varsFind_isSome_of_mem q s1.vars hq))
        cases varsFind q.1 s2.vars <;> simp [hmem]
      · apply List.filter_congr
        intro q hq
        have hmem : q.1 ∈ mergeDeclSet s1 s2 :=
          (mem_mergeDeclSet s1 s2 q.1).2 (Or.inr (varsFind_isSome_of_mem q s2.vars hq))
        cases varsFind q.1 s1.vars <;> simp [hmem]
    · cases h

/-- The slots after a successful merge are those the first loop leaves. -/
theorem checkSameAndMerge_slots (s1 s2 m1 m2 : BlockState)
    (h : checkSameAndMerge s1 s2 = .ok (m1, m2)) :
    (∀ i : Nat, (m1.states[i]?).map RefState.num_refs = (s1.states[i]?).map RefState.num_refs)
    ∧ (∀ i : Nat, (m2.states[i]?).map RefState.num_refs = (s2.states[i]?).map RefState.num_refs)
    ∧ (∀ (i : Nat) (r : RefState), m1.states[i]? = some r →
        r.type = RefType.OWNED ∨ s1.states[i]? = some r)
    ∧ (∀ (i : Nat) (r : RefState), m2.states[i]? = some r →
        r.type = RefType.OWNED ∨ s2.states[i]? = some r) := by
  unfold checkSameAndMerge at h
  cases hm : mergeDecls (mergeDeclSet s1 s2) s1 s2 with
  | error e => simp [hm] at h
  | ok a =>
    obtain ⟨a1, a2⟩ := a
    simp only [hm] at h
    split at h
    · simp only [Except.ok.injEq, Prod.mk.injEq] at h
      obtain ⟨e1, e2⟩ := h
      subst e1 e2
      exact mergeDecls_slots _ s1 s2 a1 a2 hm
    · cases h

/-- The merge fails when the first loop does. -/
theorem checkSameAndMerge_fails (s1 s2 : BlockState)
    (h : ∃ e, mergeDecls (mergeDeclSet s1 s2) s1 s2 = .error e) :
    ∃ e, checkSameAndMerge s1 s2 = .error e := by
  obtain ⟨e, he⟩ := h
  exact ⟨e, by simp [checkSameAndMerge, he]⟩


theorem wellFormed_slot (s : BlockState) (hwf : s.wellFormed = true) (d p : Nat)
    (h : varsFind d s.vars = some p) : ∃ r, s.states[p]? = some r := by
  have hmem := varsFind_some_mem d p s.vars h
  have hlt : p < s.states.length := by
    have := List.all_eq_true.1 hwf (d, p) hmem
    simpa using this
  exact ⟨s.states[p], List.getElem?_eq_getElem hlt⟩

theorem map_num_refs_eq (xs ys : List RefState)
    (h : ∀ i : Nat, (ys[i]?).map RefState.num_refs = (xs[i]?).map RefState.num_refs) :
    ys.map RefState.num_refs = xs.map RefState.num_refs := by
  apply List.ext_getElem?
  intro i
  rw [List.getElem?_map, List.getElem?_map]
  exact h i

/-! ### C5 -/

/-- C5 (as the code has it): merging a state with its duplicate changes
neither of the two; the merge succeeds when every slot with a count other
than zero is the target of a binding, and fails on `assert(found)`
otherwise. -/
theorem checkSameAndMerge_copy (s : BlockState) (hwf : s.wellFormed = true) :
    (allFound s = true → checkSameAndMerge s s.copy = .ok (s, s.copy))
    ∧ (allFound s = false → checkSameAndMerge s s.copy = .error Err.mergeOrphan) := by
  have hm : mergeDecls (mergeDeclSet s s.copy) s s.copy = .ok (s, s.copy) := by
    apply mergeDecls_same
    intro d hd
    have hb : ∃ p, varsFind d s.vars = some p := by
      rcases (mem_mergeDeclSet s s.copy d).1 hd with h | h
      · exact h
      · exact h
    obtain ⟨p, hp⟩ := hb
    obtain ⟨r, hr⟩ := wellFormed_slot s hwf d p hp
    exact ⟨p, p, r, hp, hp, hr, hr⟩
  refine ⟨fun h => ?_, fun h => ?_⟩
  · simp [checkSameAndMerge, hm, h]
  · simp [checkSameAndMerge, hm, h]

/-- C5, at a state with a bound `OWNED` slot holding one reference. -/
theorem checkSameAndMerge_copy_witness :
    checkSameAndMerge ⟨[⟨.OWNED, 1⟩, ⟨.OWNED, 0⟩], [(1, 0)]⟩
        (BlockState.copy ⟨[⟨.OWNED, 1⟩, ⟨.OWNED, 0⟩], [(1, 0)]⟩)
      = .ok (⟨[⟨.OWNED, 1⟩, ⟨.OWNED, 0⟩], [(1, 0)]⟩,
          BlockState.copy ⟨[⟨.OWNED, 1⟩, ⟨.OWNED, 0⟩], [(1, 0)]⟩) :=
  (checkSameAndMerge_copy ⟨[⟨.OWNED, 1⟩, ⟨.OWNED, 0⟩], [(1, 0)]⟩ (by decide)).1 (by decide)

/-- C5 fails as stated: the state whose only slot is an unbound `OWNED`
slot holding one reference does not merge with its duplicate. -/
theorem checkSameAndMerge_copy_orphan_fails :
    ¬ ∃ m, checkSameAndMerge ⟨[⟨.OWNED, 1⟩], []⟩ (BlockState.copy ⟨[⟨.OWNED, 1⟩], []⟩) = .ok m := by
  rintro ⟨m, h⟩
  have h2 : checkSameAndMerge ⟨[⟨.OWNED, 1⟩], []⟩ (BlockState.copy ⟨[⟨.OWNED, 1⟩], []⟩)
      = .error Err.mergeOrphan := by decide
  rw [h2] at h
  cases h

/-! ### C14 -/

/-- C14: a variable bound in one of the two states only, to a slot with a
count other than zero, makes the merge fail. After a successful merge the
bindings of each state are its bindings of the variables bound in both
inputs, unchanged; so a variable is bound after the merge, in either state,
exactly when it was bound in both inputs. -/
theorem checkSameAndMerge_one_sided (state1 state2 : BlockState) :
    (∀ (d p : Nat) (r : RefState), varsFind d state1.vars = some p →
        varsFind d state2.vars = none → state1.states[p]? = some r → r.num_refs ≠ 0 →
        ∃ e, checkSameAndMerge state1 state2 = .error e)
    ∧ (∀ (d p : Nat) (r : RefState), varsFind d state1.vars = none →
        varsFind d state2.vars = some p → state2.states[p]? = some r → r.num_refs ≠ 0 →
        ∃ e, checkSameAndMerge state1 state2 = .error e)
    ∧ (∀ m1 m2, checkSameAndMerge state1 state2 = .ok (m1, m2) →
        m1.vars = state1.vars.filter (fun q => (varsFind q.1 state2.vars).isSome)
        ∧ m2.vars = state2.vars.filter (fun q => (varsFind q.1 state1.vars).isSome)
        ∧ ∀ d : Nat,
          varsFind d m1.vars
              = (if (varsFind d state2.vars).isSome then varsFind d state1.vars else none)
          ∧ varsFind d m2.vars
              = (if (varsFind d state1.vars).isSome then varsFind d state2.vars else none)
          ∧ ((varsFind d m1.vars).isSome
              ↔ (varsFind d state1.vars).isSome ∧ (varsFind d state2.vars).isSome)
          ∧ ((varsFind d m2.vars).isSome
              ↔ (varsFind d state1.vars).isSome ∧ (varsFind d state2.vars).isSome)) := by
  refine ⟨fun d p r f1 f2 g hz => ?_, fun d p r f1 f2 g hz => ?_, fun m1 m2 hok => ?_⟩
  · apply checkSameAndMerge_fails
    exact mergeDecls_fails _ state1 state2 d
      ((mem_mergeDeclSet state1 state2 d).2 (Or.inl ⟨p, f1⟩)) (Or.inl ⟨p, r, f1, f2, g, hz⟩)
  · apply checkSameAndMerge_fails
    exact mergeDecls_fails _ state1 state2 d
      ((mem_mergeDeclSet state1 state2 d).2 (Or.inr ⟨p, f2⟩))
      (Or.inr (Or.inl ⟨p, r, f1, f2, g, hz⟩))
  · obtain ⟨k1, k2⟩ := checkSameAndMerge_vars state1 state2 m1 m2 hok
    refine ⟨k1, k2, fun d => ?_⟩
    have e1 : varsFind d m1.vars
        = (if (varsFind d state2.vars).isSome then varsFind d state1.vars else none) := by
      rw [k1, varsFind_filter d (fun k => (varsFind k state2.vars).isSome) state1.vars]
    have e2 : varsFind d m2.vars
        = (if (varsFind d state1.vars).isSome then varsFind d state2.vars else none) := by
      rw [k2, varsFind_filter d (fun k => (varsFind k state1.vars).isSome) state2.vars]
    refine ⟨e1, e2, ?_, ?_⟩
    · rw [e1]
      cases varsFind d state2.vars <;> cases varsFind d state1.vars <;> simp
    · rw [e2]
      cases varsFind d state2.vars <;> cases varsFind d state1.vars <;> simp

/-- C14, at a merge where `x` (variable 2) is bound on the first side only:
with one reference the merge fails, without reference its binding is
dropped. -/
theorem checkSameAndMerge_one_sided_witness :
    (∃ e, checkSameAndMerge ⟨[⟨.OWNED, 0⟩, ⟨.OWNED, 1⟩], [(1, 0), (2, 1)]⟩
        ⟨[⟨.OWNED, 0⟩], [(1, 0)]⟩ = .error e)
    ∧ ((⟨[⟨.OWNED, 0⟩, ⟨.OWNED, 0⟩], [(1, 0)]⟩ : BlockState).vars
        = [(1, 0), (2, 1)].filter
            (fun q => (varsFind q.1 (⟨[⟨.OWNED, 0⟩], [(1, 0)]⟩ : BlockState).vars).isSome)) :=
  ⟨(checkSameAndMerge_one_sided ⟨[⟨.OWNED, 0⟩, ⟨.OWNED, 1⟩], [(1, 0), (2, 1)]⟩
      ⟨[⟨.OWNED, 0⟩], [(1, 0)]⟩).1 2 1 ⟨.OWNED, 1⟩ (by decide) (by decide) (by decide) (by decide),
   ((checkSameAndMerge_one_sided ⟨[⟨.OWNED, 0⟩, ⟨.OWNED, 0⟩], [(1, 0), (2, 1)]⟩
      ⟨[⟨.OWNED, 0⟩], [(1, 0)]⟩).2.2 ⟨[⟨.OWNED, 0⟩, ⟨.OWNED, 0⟩], [(1, 0)]⟩
      ⟨[⟨.OWNED, 0⟩], [(1, 0)]⟩ (by decide)).1⟩

/-! ### C15 -/

/-- C15: a variable bound in both states to slots of different counts
makes the merge fail; and a successful merge leaves the count of every slot
of both states as it was. -/
theorem checkSameAndMerge_counts (state1 state2 : BlockState) :
    (∀ (d p1 p2 : Nat) (r1 r2 : RefState), varsFind d state1.vars = some p1 →
        varsFind d state2.vars = some p2 → state1.states[p1]? = some r1 →
        state2.states[p2]? = some r2 → r1.num_refs ≠ r2.num_refs →
        ∃ e, checkSameAndMerge state1 state2 = .error e)
    ∧ (∀ m1 m2, checkSameAndMerge state1 state2 = .ok (m1, m2) →
        m1.states.map RefState.num_refs = state1.states.map RefState.num_refs
        ∧ m2.states.map RefState.num_refs = state2.states.map RefState.num_refs) := by
  refine ⟨fun d p1 p2 r1 r2 f1 f2 g1 g2 hne => ?_, fun m1 m2 hok => ?_⟩
  · apply checkSameAndMerge_fails
    exact mergeDecls_fails _ state1 state2 d
      ((mem_mergeDeclSet state1 state2 d).2 (Or.inl ⟨p1, f1⟩))
      (Or.inr (Or.inr ⟨p1, p2, r1, r2, f1, f2, g1, g2, hne⟩))
  · obtain ⟨c1, c2, _, _⟩ := checkSameAndMerge_slots state1 state2 m1 m2 hok
    exact ⟨map_num_refs_eq _ _ c1, map_num_refs_eq _ _ c2⟩

/-- C15, at a variable with one reference on one side and none on the
other, and at a merge that changes a kind and no count. -/
theorem checkSameAndMerge_counts_witness :
    (∃ e, checkSameAndMerge ⟨[⟨.OWNED, 1⟩], [(1, 0)]⟩ ⟨[⟨.OWNED, 0⟩], [(1, 0)]⟩ = .error e)
    ∧ (([⟨.OWNED, 0⟩] : List RefState).map RefState.num_refs
          = ([⟨.BORROWED, 0⟩] : List RefState).map RefState.num_refs
        ∧ ([⟨.OWNED, 0⟩] : List RefState).map RefState.num_refs
          = ([⟨.OWNED, 0⟩] : List RefState).map RefState.num_refs) :=
  ⟨(checkSameAndMerge_counts ⟨[⟨.OWNED, 1⟩], [(1, 0)]⟩ ⟨[⟨.OWNED, 0⟩], [(1, 0)]⟩).1 1 0 0
      ⟨.OWNED, 1⟩ ⟨.OWNED, 0⟩ (by decide) (by decide) (by decide) (by decide) (by decide),
   (checkSameAndMerge_counts ⟨[⟨.BORROWED, 0⟩], [(1, 0)]⟩ ⟨[⟨.OWNED, 0⟩], [(1, 0)]⟩).2
      ⟨[⟨.OWNED, 0⟩], [(1, 0)]⟩ ⟨[⟨.OWNED, 0⟩], [(1, 0)]⟩ (by decide)⟩


/-! ### The join: kinds -/

theorem distinctSlots_inj (s : BlockState) (h : s.distinctSlots = true) (d d' p : Nat)
    (f : varsFind d s.vars = some p) (f' : varsFind d' s.vars = some p) : d = d' := by
  have hnd : (s.vars.map Prod.snd).Nodup := by simpa [BlockState.distinctSlots] using h
  have := List.inj_on_of_nodup_map hnd (varsFind_some_mem d p s.vars f)
    (varsFind_some_mem d' p s.vars f') rfl
  exact congrArg Prod.fst this

/-- A successful step for the variable `d0`, in states where no two
variables share a slot, leaves the slot of every other variable alone. -/
theorem mergeDecl_step_other (d0 : Nat) (s1 s2 a1 a2 : BlockState)
    (h : mergeDecl d0 s1 s2 = .ok (a1, a2))
    (ha1 : ∀ d d' p, varsFind d s1.vars = some p → varsFind d' s1.vars = some p → d = d')
    (ha2 : ∀ d d' p, varsFind d s2.vars = some p → varsFind d' s2.vars = some p → d = d') :
    (∀ d d' p, varsFind d a1.vars = some p → varsFind d' a1.vars = some p → d = d')
    ∧ (∀ d d' p, varsFind d a2.vars = some p → varsFind d' a2.vars = some p → d = d')
    ∧ (∀ d p, d ≠ d0 → varsFind d s1.vars = some p → a1.states[p]? = s1.states[p]?)
    ∧ (∀ d p, d ≠ d0 → varsFind d s2.vars = some p → a2.states[p]? = s2.states[p]?) := by
  have herase : ∀ (vs : List (Nat × Nat)),
      (∀ d d' p, varsFind d vs = some p → varsFind d' vs = some p → d = d') →
      ∀ d d' p, varsFind d (varsErase d0 vs) = some p → varsFind d' (varsErase d0 vs) = some p →
        d = d' := by
    intro vs hvs d d' p f f'
    rw [varsFind_varsErase] at f f'
    by_cases hd : d = d0
    · simp [hd] at f
    · by_cases hd' : d' = d0
      · simp [hd'] at f'
      · simp only [hd, hd', if_false] at f f'
        exact hvs d d' p f f'
  rcases mergeDecl_inv d0 s1 s2 a1 a2 h with
    ⟨p1, r1, _, _, _, _, e1, e2⟩ | ⟨p2, r2, _, _, _, _, e1, e2⟩
    | ⟨p1, p2, r1, r2, _, _, _, _, _, _, e1, e2⟩
    | ⟨p1, p2, r1, r2, f1, f2, _, _, _, _, _, _, e1, e2⟩
  · subst e1 e2
    exact ⟨herase _ ha1, ha2, fun _ _ _ _ => rfl, fun _ _ _ _ => rfl⟩
  · subst e1 e2
    exact ⟨ha1, herase _ ha2, fun _ _ _ _ => rfl, fun _ _ _ _ => rfl⟩
  · subst e1 e2
    exact ⟨ha1, ha2, fun _ _ _ _ => rfl, fun _ _ _ _ => rfl⟩
  · subst e1 e2
    refine ⟨ha1, ha2, fun d p hd f => ?_, fun d p hd f => ?_⟩
    · have hne : p1 ≠ p := fun e => hd (ha1 d d0 p f (e ▸ f1))
      simp [List.getElem?_set, hne]
    · have hne : p2 ≠ p := fun e => hd (ha2 d d0 p f (e ▸ f2))
      simp [List.getElem?_set, hne]

/-- The slots of a variable bound on both sides after a successful first
loop, in states where no two variables share a slot: untouched if the
variable is not in the list or its two kinds agree, both `OWNED` otherwise. -/
theorem mergeDecls_kinds (ds : List Nat) (hnd : ds.Nodup) (s1 s2 m1 m2 : BlockState)
    (h : mergeDecls ds s1 s2 = .ok (m1, m2))
    (ha1 : ∀ d d' p, varsFind d s1.vars = some p → varsFind d' s1.vars = some p → d = d')
    (ha2 : ∀ d d' p, varsFind d s2.vars = some p → varsFind d' s2.vars = some p → d = d')
    (d p1 p2 : Nat) (r1 r2 : RefState)
    (f1 : varsFind d s1.vars = some p1) (f2 : varsFind d s2.vars = some p2)
    (g1 : s1.states[p1]? = some r1) (g2 : s2.states[p2]? = some r2) :
    (d ∉ ds → m1.states[p1]? = some r1 ∧ m2.states[p2]? = some r2)
    ∧ (d ∈ ds → r1.num_refs = r2.num_refs
        ∧ (r1.type = r2.type → m1.states[p1]? = some r1 ∧ m2.states[p2]? = some r2)
        ∧ (r1.type ≠ r2.type → m1.states[p1]? = some ⟨RefType.OWNED, r1.num_refs⟩
            ∧ m2.states[p2]? = some ⟨RefType.OWNED, r2.num_refs⟩)) := by
  induction ds generalizing s1 s2 r1 r2 with
  | nil =>
    simp only [mergeDecls, Except.ok.injEq, Prod.mk.injEq] at h
    obtain ⟨e1, e2⟩ := h
    subst e1 e2
    exact ⟨fun _ => ⟨g1, g2⟩, fun hd => absurd hd (List.not_mem_nil d)⟩
  | cons d0 rest ih =>
    simp only [mergeDecls] at h
    obtain ⟨hd0, hrest⟩ := List.nodup_cons.1 hnd
    cases hstep : mergeDecl d0 s1 s2 with
    | error e => simp [hstep] at h
    | ok a =>
      obtain ⟨a1, a2⟩ := a
      simp only [hstep] at h
      obtain ⟨hb1, hb2, o1, o2⟩ := mergeDecl_step_other d0 s1 s2 a1 a2 hstep ha1 ha2
      by_cases hdd : d = d0
      · subst hdd
        refine ⟨fun hn => absurd (List.mem_cons_self _ _) hn, fun _ => ?_⟩
        rcases mergeDecl_inv d s1 s2 a1 a2 hstep with
          ⟨q1, t1, k1, k2, _, _, _, _⟩ | ⟨q2, t2, k1, k2, _, _, _, _⟩
          | ⟨q1, q2, t1, t2, k1, k2, l1, l2, hc, ht, e1, e2⟩
          | ⟨q1, q2, t1, t2, k1, k2, l1, l2, hc, ht, _, _, e1, e2⟩
        · rw [k2] at f2
          cases f2
        · rw [k1] at f1
          cases f1
        · rw [k1] at f1
          rw [k2] at f2
          cases f1
          cases f2
          rw [l1] at g1
          rw [l2] at g2
          cases g1
          cases g2
          rw [e1, e2] at h
          have := (ih hrest s1 s2 h ha1 ha2 r1 r2 k1 k2 l1 l2).1 hd0
          exact ⟨hc, fun _ => this, fun hne => absurd ht hne⟩
        · rw [k1] at f1
          rw [k2] at f2
          cases f1
          cases f2
          rw [l1] at g1
          rw [l2] at g2
          cases g1
          cases g2
          subst e1 e2
          have hp1 : p1 < s1.states.length := by
            rcases Nat.lt_or_ge p1 s1.states.length with hlt | hge
            · exact hlt
            · rw [List.getElem?_eq_none hge] at l1
              cases l1
          have hp2 : p2 < s2.states.length := by
            rcases Nat.lt_or_ge p2 s2.states.length with hlt | hge
            · exact hlt
            · rw [List.getElem?_eq_none hge] at l2
              cases l2
          have := (ih hrest _ _ h hb1 hb2 ⟨RefType.OWNED, r1.num_refs⟩ ⟨RefType.OWNED, r2.num_refs⟩
            k1 k2 (by simp [List.getElem?_set, hp1]) (by simp [List.getElem?_set, hp2])).1 hd0
          exact ⟨hc, fun he => absurd he ht, fun _ => this⟩
      · obtain ⟨_, _, _, _, v1, v2⟩ := mergeDecl_step d0 s1 s2 a1 a2 hstep
        have i := ih hrest a1 a2 h hb1 hb2 r1 r2 (by rw [v1 d hdd, f1]) (by rw [v2 d hdd, f2])
          (by rw [o1 d p1 hdd f1, g1]) (by rw [o2 d p2 hdd f2, g2])
        refine ⟨fun hn => i.1 (fun hr => hn (List.mem_cons_of_mem _ hr)), fun hm => ?_⟩
        rcases List.mem_cons.1 hm with hm | hm
        · exact absurd hm hdd
        · exact i.2 hm


theorem checkSameAndMerge_ok_mergeDecls (s1 s2 m1 m2 : BlockState)
    (h : checkSameAndMerge s1 s2 = .ok (m1, m2)) :
    mergeDecls (mergeDeclSet s1 s2) s1 s2 = .ok (m1, m2) ∧ allFound m1 = true := by
  unfold checkSameAndMerge at h
  cases hm : mergeDecls (mergeDeclSet s1 s2) s1 s2 with
  | error e => simp [hm] at h
  | ok a =>
    obtain ⟨a1, a2⟩ := a
    simp only [hm] at h
    split at h
    · next hall =>
      simp only [Except.ok.injEq, Prod.mk.injEq] at h
      obtain ⟨e1, e2⟩ := h
      subst e1 e2
      exact ⟨rfl, by simpa using hall⟩
    · cases h

theorem allFound_iff (s : BlockState) :
    allFound s = true
      ↔ ∀ (i : Nat) (r : RefState), s.states[i]? = some r →
          r.num_refs = 0 ∨ ∃ q ∈ s.vars, q.2 = i := by
  unfold allFound
  rw [List.all_eq_true]
  constructor
  · intro h i r hr
    have hi : i < s.states.length := by
      rcases Nat.lt_or_ge i s.states.length with hlt | hge
      · exact hlt
      · rw [List.getElem?_eq_none hge] at hr
        cases hr
    have := h i (List.mem_range.2 hi)
    simp only [hr, Bool.or_eq_true, decide_eq_true_eq, List.any_eq_true] at this
    exact this
  · intro h i _
    cases hr : s.states[i]? with
    | none => rfl
    | some r =>
      simp only [Bool.or_eq_true, decide_eq_true_eq, List.any_eq_true]
      exact h i r hr

/-! ### C16 -/

/-- C16: in states where every variable has a slot of its own, after a
successful merge a variable bound in both inputs is still bound to its two
slots; the two counts were equal and are unchanged; if the two kinds
differed both slots are now `OWNED`, if they agreed both slots are
unchanged; so the two slots now have the same kind and the same count. -/
theorem checkSameAndMerge_kinds (state1 state2 m1 m2 : BlockState)
    (hd1 : state1.distinctSlots = true) (hd2 : state2.distinctSlots = true)
    (hok : checkSameAndMerge state1 state2 = .ok (m1, m2))
    (d p1 p2 : Nat) (r1 r2 : RefState)
    (f1 : varsFind d state1.vars = some p1) (f2 : varsFind d state2.vars = some p2)
    (g1 : state1.states[p1]? = some r1) (g2 : state2.states[p2]? = some r2) :
    varsFind d m1.vars = some p1 ∧ varsFind d m2.vars = some p2
    ∧ r1.num_refs = r2.num_refs
    ∧ (r1.type ≠ r2.type →
        m1.states[p1]? = some ⟨.OWNED, r1.num_refs⟩ ∧ m2.states[p2]? = some ⟨.OWNED, r2.num_refs⟩)
    ∧ (r1.type = r2.type → m1.states[p1]? = some r1 ∧ m2.states[p2]? = some r2)
    ∧ ∃ r, m1.states[p1]? = some r ∧ m2.states[p2]? = some r := by
  obtain ⟨hm, _⟩ := checkSameAndMerge_ok_mergeDecls state1 state2 m1 m2 hok
  obtain ⟨k1, k2⟩ := checkSameAndMerge_vars state1 state2 m1 m2 hok
  have hmem : d ∈ mergeDeclSet state1 state2 :=
    (mem_mergeDeclSet state1 state2 d).2 (Or.inl ⟨p1, f1⟩)
  obtain ⟨hc, hsame, hdiff⟩ := (mergeDecls_kinds _ (nodup_mergeDeclSet state1 state2) state1 state2
    m1 m2 hm (distinctSlots_inj state1 hd1) (distinctSlots_inj state2 hd2) d p1 p2 r1 r2
    f1 f2 g1 g2).2 hmem
  refine ⟨?_, ?_, hc, hdiff, hsame, ?_⟩
  · rw [k1, varsFind_filter d (fun k => (varsFind k state2.vars).isSome) state1.vars]
    simp [f1, f2]
  · rw [k2, varsFind_filter d (fun k => (varsFind k state1.vars).isSome) state2.vars]
    simp [f1, f2]
  · by_cases ht : r1.type = r2.type
    · obtain ⟨e1, e2⟩ := hsame ht
      refine ⟨r1, e1, ?_⟩
      rw [e2]
      cases r1
      cases r2
      simp_all
    · obtain ⟨e1, e2⟩ := hdiff ht
      exact ⟨⟨.OWNED, r1.num_refs⟩, e1, by rw [e2, hc]⟩

/-- C16, at a variable `BORROWED` on one side and `OWNED` on the other,
without references. -/
theorem checkSameAndMerge_kinds_witness :
    varsFind 1 (⟨[⟨.OWNED, 0⟩], [(1, 0)]⟩ : BlockState).vars = some 0
    ∧ varsFind 1 (⟨[⟨.OWNED, 0⟩, ⟨.BORROWED, 0⟩], [(1, 0)]⟩ : BlockState).vars = some 0
    ∧ (⟨.BORROWED, 0⟩ : RefState).num_refs = (⟨.OWNED, 0⟩ : RefState).num_refs
    ∧ ((⟨.BORROWED, 0⟩ : RefState).type ≠ (⟨.OWNED, 0⟩ : RefState).type →
        (⟨[⟨.OWNED, 0⟩], [(1, 0)]⟩ : BlockState).states[0]?
            = some ⟨.OWNED, (⟨.BORROWED, 0⟩ : RefState).num_refs⟩
        ∧ (⟨[⟨.OWNED, 0⟩, ⟨.BORROWED, 0⟩], [(1, 0)]⟩ : BlockState).states[0]?
            = some ⟨.OWNED, (⟨.OWNED, 0⟩ : RefState).num_refs⟩)
    ∧ ((⟨.BORROWED, 0⟩ : RefState).type = (⟨.OWNED, 0⟩ : RefState).type →
        (⟨[⟨.OWNED, 0⟩], [(1, 0)]⟩ : BlockState).states[0]? = some ⟨.BORROWED, 0⟩
        ∧ (⟨[⟨.OWNED, 0⟩, ⟨.BORROWED, 0⟩], [(1, 0)]⟩ : BlockState).states[0]? = some ⟨.OWNED, 0⟩)
    ∧ ∃ r, (⟨[⟨.OWNED, 0⟩], [(1, 0)]⟩ : BlockState).states[0]? = some r
        ∧ (⟨[⟨.OWNED, 0⟩, ⟨.BORROWED, 0⟩], [(1, 0)]⟩ : BlockState).states[0]? = some r :=
  checkSameAndMerge_kinds ⟨[⟨.BORROWED, 0⟩], [(1, 0)]⟩ ⟨[⟨.OWNED, 0⟩, ⟨.BORROWED, 0⟩], [(1, 0)]⟩
    ⟨[⟨.OWNED, 0⟩], [(1, 0)]⟩ ⟨[⟨.OWNED, 0⟩, ⟨.BORROWED, 0⟩], [(1, 0)]⟩ (by decide) (by decide)
    (by decide) 1 0 0 ⟨.BORROWED, 0⟩ ⟨.OWNED, 0⟩ (by decide) (by decide) (by decide) (by decide)


/-! ### The join: success -/

/-- The first loop succeeds, without touching a slot, on a list of distinct
variables each of which is bound on both sides to slots of equal content,
or on one side only to a slot without references. -/
theorem mergeDecls_succeeds (ds : List Nat) (hnd : ds.Nodup) (s1 s2 : BlockState)
    (hgood : ∀ d ∈ ds,
      (∃ p1 p2 r, varsFind d s1.vars = some p1 ∧ varsFind d s2.vars = some p2
          ∧ s1.states[p1]? = some r ∧ s2.states[p2]? = some r)
      ∨ (∃ p r, varsFind d s1.vars = some p ∧ varsFind d s2.vars = none
          ∧ s1.states[p]? = some r ∧ r.num_refs = 0)
      ∨ (∃ p r, varsFind d s1.vars = none ∧ varsFind d s2.vars = some p
          ∧ s2.states[p]? = some r ∧ r.num_refs = 0)) :
    ∃ m1 m2, mergeDecls ds s1 s2 = .ok (m1, m2) ∧ m1.states = s1.states
      ∧ m2.states = s2.states := by
  induction ds generalizing s1 s2 with
  | nil => exact ⟨s1, s2, rfl, rfl, rfl⟩
  | cons d0 rest ih =>
    obtain ⟨hd0, hrest⟩ := List.nodup_cons.1 hnd
    have hstep : ∃ a1 a2, mergeDecl d0 s1 s2 = .ok (a1, a2) ∧ a1.states = s1.states
        ∧ a2.states = s2.states := by
      rcases hgood d0 (List.mem_cons_self _ _) with
        ⟨p1, p2, r, f1, f2, g1, g2⟩ | ⟨p, r, f1, f2, g, z⟩ | ⟨p, r, f1, f2, g, z⟩
      · exact ⟨s1, s2, mergeDecl_same d0 s1 s2 p1 p2 r f1 f2 g1 g2, rfl, rfl⟩
      · exact ⟨⟨s1.states, varsErase d0 s1.vars⟩, s2,
          by simp [mergeDecl, f1, f2, BlockState.slot, g, z], rfl, rfl⟩
      · exact ⟨s1, ⟨s2.states, varsErase d0 s2.vars⟩,
          by simp [mergeDecl, f1, f2, BlockState.slot, g, z], rfl, rfl⟩
    obtain ⟨a1, a2, hm, e1, e2⟩ := hstep
    obtain ⟨_, _, _, _, v1, v2⟩ := mergeDecl_step d0 s1 s2 a1 a2 hm
    have hgood' : ∀ d ∈ rest,
        (∃ p1 p2 r, varsFind d a1.vars = some p1 ∧ varsFind d a2.vars = some p2
            ∧ a1.states[p1]? = some r ∧ a2.states[p2]? = some r)
        ∨ (∃ p r, varsFind d a1.vars = some p ∧ varsFind d a2.vars = none
            ∧ a1.states[p]? = some r ∧ r.num_refs = 0)
        ∨ (∃ p r, varsFind d a1.vars = none ∧ varsFind d a2.vars = some p
            ∧ a2.states[p]? = some r ∧ r.num_refs = 0) := by
      intro d hd
      have hne : d ≠ d0 := fun e => hd0 (e ▸ hd)
      rw [v1 d hne, v2 d hne, e1, e2]
      exact hgood d (List.mem_cons_of_mem _ hd)
    obtain ⟨m1, m2, hok, k1, k2⟩ := ih hrest a1 a2 hgood'
    exact ⟨m1, m2, by simp only [mergeDecls, hm, hok], k1.trans e1, k2.trans e2⟩

theorem varsSet_unbound (d p : Nat) (vs : List (Nat × Nat)) (h : varsFind d vs = none) :
    varsSet d p vs = vs ++ [(d, p)] := by
  induction vs with
  | nil => rfl
  | cons q rest ih =>
    obtain ⟨k, v⟩ := q
    by_cases hk : k = d
    · simp [varsFind, hk] at h
    · simp only [varsFind, hk, if_false] at h
      simp [varsSet, hk, ih h]


/-- The merge of a state `st` with a state that extends it by new slots
(`rx`, then `others`) and by the binding of a fresh variable `x` to the slot
`rx`, in either order: it succeeds, dropping the binding of `x`, when `rx`
and the other new slots hold no reference, and fails when `rx` holds one. -/
theorem checkSameAndMerge_fresh_binding (st : BlockState) (x : Nat) (rx : RefState)
    (others : List RefState) (hwf : st.wellFormed = true) (hfound : allFound st = true)
    (hx : varsFind x st.vars = none) :
    (rx.num_refs = 0 → (∀ r ∈ others, r.num_refs = 0) →
      checkSameAndMerge ⟨st.states ++ rx :: others, varsSet x st.states.length st.vars⟩ st
          = .ok (⟨st.states ++ rx :: others, st.vars⟩, st)
      ∧ checkSameAndMerge st ⟨st.states ++ rx :: others, varsSet x st.states.length st.vars⟩
          = .ok (st, ⟨st.states ++ rx :: others, st.vars⟩))
    ∧ (rx.num_refs ≠ 0 →
      (∃ e, checkSameAndMerge ⟨st.states ++ rx :: others, varsSet x st.states.length st.vars⟩ st
          = .error e)
      ∧ (∃ e, checkSameAndMerge st
          ⟨st.states ++ rx :: others, varsSet x st.states.length st.vars⟩ = .error e)) := by
  have hfx : varsFind x (varsSet x st.states.length st.vars) = some st.states.length :=
    varsFind_varsSet_self _ _ _
  have hgx : (st.states ++ rx :: others)[st.states.length]? = some rx := by
    rw [List.getElem?_append_right (Nat.le_refl _)]
    simp
  have hold : ∀ d, d ≠ x →
      varsFind d (varsSet x st.states.length st.vars) = varsFind d st.vars :=
    fun d hd => varsFind_varsSet_other x st.states.length d st.vars hd
  have hslot : ∀ d p, varsFind d st.vars = some p →
      ∃ r, st.states[p]? = some r ∧ (st.states ++ rx :: others)[p]? = some r := by
    intro d p hp
    obtain ⟨r, hr⟩ := wellFormed_slot st hwf d p hp
    have hlt : p < st.states.length := by
      rcases Nat.lt_or_ge p st.states.length with hlt | hge
      · exact hlt
      · rw [List.getElem?_eq_none hge] at hr
        cases hr
    exact ⟨r, hr, by rw [List.getElem?_append_left hlt, hr]⟩
  have hvB : varsSet x st.states.length st.vars = st.vars ++ [(x, st.states.length)] :=
    varsSet_unbound _ _ _ hx
  have hkeys : ∀ q ∈ st.vars, q.1 ≠ x := (varsFind_eq_none_iff x st.vars).1 hx
  have hfilt : ∀ P : Nat × Nat → Bool, (∀ q ∈ st.vars, P q = true) →
      P (x, st.states.length) = false →
      List.filter P (varsSet x st.states.length st.vars) = st.vars := by
    intro P h1 h2
    rw [hvB, List.filter_append, List.filter_eq_self.2 h1]
    simp [List.filter_cons, h2]
  have hfoundB : rx.num_refs = 0 → (∀ r ∈ others, r.num_refs = 0) →
      allFound ⟨st.states ++ rx :: others, st.vars⟩ = true := by
    intro hz hothers
    rw [allFound_iff]
    intro i r hr
    rcases Nat.lt_or_ge i st.states.length with hlt | hge
    · have hr' : st.states[i]? = some r := by
        rw [← hr]
        exact (List.getElem?_append_left hlt).symm
      exact (allFound_iff st).1 hfound i r hr'
    · left
      have hr2 : (rx :: others)[i - st.states.length]? = some r := by
        rw [← hr]
        exact (List.getElem?_append_right hge).symm
      rcases List.mem_cons.1 (List.getElem?_mem hr2) with h | h
      · rw [h]
        exact hz
      · exact hothers r h
  refine ⟨fun hz hothers => ⟨?_, ?_⟩, fun hnz => ⟨?_, ?_⟩⟩
  · have hgood : ∀ d ∈ mergeDeclSet
          ⟨st.states ++ rx :: others, varsSet x st.states.length st.vars⟩ st,
        (∃ p1 p2 r, varsFind d (varsSet x st.states.length st.vars) = some p1
            ∧ varsFind d st.vars = some p2
            ∧ (st.states ++ rx :: others)[p1]? = some r ∧ st.states[p2]? = some r)
        ∨ (∃ p r, varsFind d (varsSet x st.states.length st.vars) = some p
            ∧ varsFind d st.vars = none
            ∧ (st.states ++ rx :: others)[p]? = some r ∧ r.num_refs = 0)
        ∨ (∃ p r, varsFind d (varsSet x st.states.length st.vars) = none
            ∧ varsFind d st.vars = some p
            ∧ st.states[p]? = some r ∧ r.num_refs = 0) := by
      intro d hd
      by_cases hdx : d = x
      · subst hdx
        exact Or.inr (Or.inl ⟨st.states.length, rx, hfx, hx, hgx, hz⟩)
      · have hb : ∃ p, varsFind d st.vars = some p := by
          rcases (mem_mergeDeclSet _ st d).1 hd with ⟨p, hp⟩ | ⟨p, hp⟩
          · exact ⟨p, (hold d hdx).symm.trans hp⟩
          · exact ⟨p, hp⟩
        obtain ⟨p, hp⟩ := hb
        obtain ⟨r, hr, hr'⟩ := hslot d p hp
        exact Or.inl ⟨p, p, r, (hold d hdx).trans hp, hp, hr', hr⟩
    obtain ⟨m1, m2, hm, e1, e2⟩ := mergeDecls_succeeds _ (nodup_mergeDeclSet _ _)
      ⟨st.states ++ rx :: others, varsSet x st.states.length st.vars⟩ st hgood
    obtain ⟨k1, k2⟩ := mergeDecls_vars _ _ st m1 m2 hm
    have hxmem : x ∈ mergeDeclSet
        ⟨st.states ++ rx :: others, varsSet x st.states.length st.vars⟩ st :=
      (mem_mergeDeclSet _ st x).2 (Or.inl ⟨_, hfx⟩)
    have hv1 : m1.vars = st.vars := by
      rw [k1]
      refine hfilt _ (fun q hq => ?_) (by simp [hxmem, hx])
      obtain ⟨p, hp⟩ := varsFind_isSome_of_mem q st.vars hq
      simp [hp]
    have hv2 : m2.vars = st.vars := by
      rw [k2, List.filter_eq_self]
      intro q hq
      obtain ⟨p, hp⟩ := varsFind_isSome_of_mem q st.vars hq
      have : varsFind q.1 (varsSet x st.states.length st.vars) = some p :=
        (hold q.1 (hkeys q hq)).trans hp
      simp [this]
    have hm1 : m1 = ⟨st.states ++ rx :: others, st.vars⟩ := by
      cases m1
      simp only [BlockState.mk.injEq]
      exact ⟨e1, hv1⟩
    have hm2 : m2 = st := by
      cases m2
      cases st
      simp only [BlockState.mk.injEq]
      exact ⟨e2, hv2⟩
    subst hm1 hm2
    simp [checkSameAndMerge, hm, hfoundB hz hothers]
  · have hgood : ∀ d ∈ mergeDeclSet st
          ⟨st.states ++ rx :: others, varsSet x st.states.length st.vars⟩,
        (∃ p1 p2 r, varsFind d st.vars = some p1
            ∧ varsFind d (varsSet x st.states.length st.vars) = some p2
            ∧ st.states[p1]? = some r ∧ (st.states ++ rx :: others)[p2]? = some r)
        ∨ (∃ p r, varsFind d st.vars = some p
            ∧ varsFind d (varsSet x st.states.length st.vars) = none
            ∧ st.states[p]? = some r ∧ r.num_refs = 0)
        ∨ (∃ p r, varsFind d st.vars = none
            ∧ varsFind d (varsSet x st.states.length st.vars) = some p
            ∧ (st.states ++ rx :: others)[p]? = some r ∧ r.num_refs = 0) := by
      intro d hd
      by_cases hdx : d = x
      · subst hdx
        exact Or.inr (Or.inr ⟨st.states.length, rx, hx, hfx, hgx, hz⟩)
      · have hb : ∃ p, varsFind d st.vars = some p := by
          rcases (mem_mergeDeclSet st _ d).1 hd with ⟨p, hp⟩ | ⟨p, hp⟩
          · exact ⟨p, hp⟩
          · exact ⟨p, (hold d hdx).symm.trans hp⟩
        obtain ⟨p, hp⟩ := hb
        obtain ⟨r, hr, hr'⟩ := hslot d p hp
        exact Or.inl ⟨p, p, r, hp, (hold d hdx).trans hp, hr, hr'⟩
    obtain ⟨m1, m2, hm, e1, e2⟩ := mergeDecls_succeeds _ (nodup_mergeDeclSet _ _) st
      ⟨st.states ++ rx :: others, varsSet x st.states.length st.vars⟩ hgood
    obtain ⟨k1, k2⟩ := mergeDecls_vars _ st _ m1 m2 hm
    have hxmem : x ∈ mergeDeclSet st
        ⟨st.states ++ rx :: others, varsSet x st.states.length st.vars⟩ :=
      (mem_mergeDeclSet st _ x).2 (Or.inr ⟨_, hfx⟩)
    have hv2 : m2.vars = st.vars := by
      rw [k2]
      refine hfilt _ (fun q hq => ?_) (by simp [hxmem, hx])
      obtain ⟨p, hp⟩ := varsFind_isSome_of_mem q st.vars hq
      simp [hp]
    have hv1 : m1.vars = st.vars := by
      rw [k1, List.filter_eq_self]
      intro q hq
      obtain ⟨p, hp⟩ := varsFind_isSome_of_mem q st.vars hq
      have : varsFind q.1 (varsSet x st.states.length st.vars) = some p :=
        (hold q.1 (hkeys q hq)).trans hp
      simp [this]
    have hm2 : m2 = ⟨st.states ++ rx :: others, st.vars⟩ := by
      cases m2
      simp only [BlockState.mk.injEq]
      exact ⟨e2, hv2⟩
    have hm1 : m1 = st := by
      cases m1
      cases st
      simp only [BlockState.mk.injEq]
      exact ⟨e1, hv1⟩
    subst hm1 hm2
    simp [checkSameAndMerge, hm, hfound]
  · apply checkSameAndMerge_fails
    exact mergeDecls_fails _ _ st x ((mem_mergeDeclSet _ st x).2 (Or.inl ⟨_, hfx⟩))
      (Or.inl ⟨st.states.length, rx, hfx, hx, hgx, hnz⟩)
  · apply checkSameAndMerge_fails
    exact mergeDecls_fails _ st _ x ((mem_mergeDeclSet st _ x).2 (Or.inr ⟨_, hfx⟩))
      (Or.inr (Or.inl ⟨st.states.length, rx, hx, hfx, hgx, hnz⟩))


/-! ### C7 -/

/-- C7: an `if` statement one branch `B` of which declares the variable
`x`, the other branch `O` leaving the state as it is. Let the condition
evaluate to `st` (well formed, without orphan slot, `x` unbound), and let
`B` end in the state that extends `st` by the slot `rx` bound to `x` and by
further slots without references (the emptied transient of the
initialiser). Whether `B` is the `then` or the `else` branch: if `rx` holds
no reference at the end of `B` the statement is accepted, the binding of `x`
being dropped; if `rx` still holds a reference the statement is rejected. -/
theorem handleStmt_if_one_branch_declares (return_ann : AnnotationType) (c : Expr) (B : Stmt)
    (O : Option Stmt) (state st : BlockState) (r : Option Nat) (x : Nat) (rx : RefState)
    (others : List RefState)
    (hcond : handleExpr c state = .ok (r, st))
    (hwf : st.wellFormed = true) (hfound : allFound st = true)
    (hx : varsFind x st.vars = none)
    (hB : handleStmt return_ann B st
      = .ok ⟨st.states ++ rx :: others, varsSet x st.states.length st.vars⟩)
    (hO : handleOptStmt return_ann O st = .ok st)
    (hothers : ∀ t ∈ others, t.num_refs = 0) :
    (rx.num_refs = 0 →
      handleStmt return_ann (.ifStmt c (some B) O) state
          = .ok ⟨st.states ++ rx :: others, st.vars⟩
      ∧ handleStmt return_ann (.ifStmt c O (some B)) state = .ok st)
    ∧ (rx.num_refs ≠ 0 →
      (∃ e, handleStmt return_ann (.ifStmt c (some B) O) state = .error e)
      ∧ (∃ e, handleStmt return_ann (.ifStmt c O (some B)) state = .error e)) := by
  have hcopy : st.copy = st := rfl
  obtain ⟨hyes, hno⟩ := checkSameAndMerge_fresh_binding st x rx others hwf hfound hx
  refine ⟨fun hz => ?_, fun hnz => ?_⟩
  · obtain ⟨m1, m2⟩ := hyes hz hothers
    constructor
    · simp only [handleStmt, hcond, handleOptStmt, hcopy, hB, hO, m1]
    · simp only [handleStmt, hcond, handleOptStmt, hcopy, hB, hO, m2]
  · obtain ⟨⟨e1, m1⟩, ⟨e2, m2⟩⟩ := hno hnz
    constructor
    · exact ⟨e1, by simp only [handleStmt, hcond, handleOptStmt, hcopy, hB, hO, m1]⟩
    · exact ⟨e2, by simp only [handleStmt, hcond, handleOptStmt, hcopy, hB, hO, m2]⟩

/-- C7, at `if (true) { BoxedInt* x = f(); return x; }` and its mirror
image (accepted), and at `if (true) { BoxedInt* x = f(); }` and its mirror
image (rejected). -/
theorem handleStmt_if_one_branch_declares_witness :
    (handleStmt .NONE (.ifStmt (.boolLiteral true)
          (some (.compound [declOwned boxPtr 1 2 false false, returnVar boxPtr 1])) none)
          BlockState.empty
        = .ok ⟨BlockState.empty.states ++ ⟨.OWNED, 0⟩ :: [⟨.OWNED, 0⟩], BlockState.empty.vars⟩
      ∧ handleStmt .NONE (.ifStmt (.boolLiteral true) none
          (some (.compound [declOwned boxPtr 1 2 false false, returnVar boxPtr 1])))
          BlockState.empty
        = .ok BlockState.empty)
    ∧ ((∃ e, handleStmt .NONE (.ifStmt (.boolLiteral true)
          (some (.compound [declOwned boxPtr 1 2 false false])) none) BlockState.empty
        = .error e)
      ∧ (∃ e, handleStmt .NONE (.ifStmt (.boolLiteral true) none
          (some (.compound [declOwned boxPtr 1 2 false false]))) BlockState.empty
        = .error e)) :=
  ⟨(handleStmt_if_one_branch_declares .NONE (.boolLiteral true)
      (.compound [declOwned boxPtr 1 2 false false, returnVar boxPtr 1]) none BlockState.empty
      BlockState.empty none 1 ⟨.OWNED, 0⟩ [⟨.OWNED, 0⟩] (by decide) (by decide) (by decide)
      (by decide) (by decide) (by decide) (by decide)).1 (by decide),
   (handleStmt_if_one_branch_declares .NONE (.boolLiteral true)
      (.compound [declOwned boxPtr 1 2 false false]) none BlockState.empty
      BlockState.empty none 1 ⟨.OWNED, 1⟩ [⟨.OWNED, 0⟩] (by decide) (by decide) (by decide)
      (by decide) (by decide) (by decide) (by decide)).2 (by decide)⟩


/-! ### Rule induction over `handle(Expr*)` -/

theorem borrowedIfRefcounted_rel {R : BlockState → BlockState → Prop} (hR : StepRel R)
    (ty : QualType) (s s' : BlockState) (r : Option Nat)
    (h : borrowedIfRefcounted ty s = .ok (r, s')) : R s s' := by
  unfold borrowedIfRefcounted at h
  cases hty : isRefcountedType ty with
  | error e => simp [hty] at h
  | ok b =>
    cases b with
    | false =>
      simp [hty] at h
      rw [← h.2]
      exact hR.refl s
    | true =>
      simp [hty, BlockState.createBorrowed] at h
      rw [← h.2]
      exact hR.borrowed s

mutual
/-- Rule induction: a relation respected by the elementary actions holds
between the state before and the state after every successful evaluation. -/
theorem handleExpr_rel {R : BlockState → BlockState → Prop} (hR : StepRel R) :
    ∀ (e : Expr) (s s' : BlockState) (r : Option Nat), handleExpr e s = .ok (r, s') → R s s'
  | .stringLiteral, s, s', r, h => by
    simp [handleExpr] at h
    rw [← h.2]
    exact hR.refl s
  | .integerLiteral, s, s', r, h => by
    simp [handleExpr] at h
    rw [← h.2]
    exact hR.refl s
  | .boolLiteral _, s, s', r, h => by
    simp [handleExpr] at h
    rw [← h.2]
    exact hR.refl s
  | .dependentOrConstruct ty, s, s', r, h => by
    simp only [handleExpr] at h
    cases ha : assertNotRefcounted ty Err.refcountedUnexpected with
    | error e => simp [ha] at h
    | ok u =>
      simp [ha] at h
      rw [← h.2]
      exact hR.refl s
  | .defaultArg ty, s, s', r, h => by
    simp only [handleExpr] at h
    cases ha : assertNotRefcounted ty Err.refcountedUnexpected with
    | error e => simp [ha] at h
    | ok u =>
      simp [ha] at h
      rw [← h.2]
      exact hR.refl s
  | .exprWithCleanups sub, s, s', r, h => by
    simp only [handleExpr] at h
    exact handleExpr_rel hR sub s s' r h
  | .materializeTemporary sub, s, s', r, h => by
    simp only [handleExpr] at h
    exact handleExpr_rel hR sub s s' r h
  | .bindTemporary sub, s, s', r, h => by
    simp only [handleExpr] at h
    exact handleExpr_rel hR sub s s' r h
  | .unaryOperator ty sub, s, s', r, h => by
    simp only [handleExpr] at h
    cases hs : handleExpr sub s with
    | error e => simp [hs] at h
    | ok q =>
      obtain ⟨r0, st⟩ := q
      simp only [hs] at h
      cases ha : assertNotRefcounted ty Err.implementMe with
      | error e => simp [ha] at h
      | ok u =>
        simp [ha] at h
        rw [← h.2]
        exact handleExpr_rel hR sub s st r0 hs
  | .paren sub, s, s', r, h => by
    simp only [handleExpr] at h
    exact handleExpr_rel hR sub s s' r h
  | .binaryOperator ty lhs rhs, s, s', r, h => by
    simp only [handleExpr] at h
    cases hl : handleExpr lhs s with
    | error e => simp [hl] at h
    | ok q =>
      obtain ⟨r1, st1⟩ := q
      simp only [hl] at h
      cases hr : handleExpr rhs st1 with
      | error e => simp [hr] at h
      | ok q2 =>
        obtain ⟨r2, st2⟩ := q2
        simp only [hr] at h
        cases ha : assertNotRefcounted ty Err.implementMe with
        | error e => simp [ha] at h
        | ok u =>
          simp [ha] at h
          rw [← h.2]
          exact hR.trans _ _ _ (handleExpr_rel hR lhs s st1 r1 hl)
            (handleExpr_rel hR rhs st1 st2 r2 hr)
  | .cast ty sub, s, s', r, h => by
    simp only [handleExpr] at h
    cases hty : isRefcountedType ty with
    | error e => simp [hty] at h
    | ok b =>
      cases b with
      | false =>
        simp only [hty] at h
        exact handleExpr_rel hR sub s s' r h
      | true =>
        simp only [hty] at h
        cases hsub : isRefcountedType sub.getType with
        | error e => simp [hsub] at h
        | ok b2 =>
          cases b2 with
          | false => simp [hsub] at h
          | true =>
            simp only [hsub] at h
            exact handleExpr_rel hR sub s s' r h
  | .member ty base, s, s', r, h => by
    simp only [handleExpr] at h
    cases hb : handleExpr base s with
    | error e => simp [hb] at h
    | ok q =>
      obtain ⟨r0, st⟩ := q
      simp only [hb] at h
      exact hR.trans _ _ _ (handleExpr_rel hR base s st r0 hb)
        (borrowedIfRefcounted_rel hR ty st s' r h)
  | .this ty, s, s', r, h => by
    simp only [handleExpr] at h
    exact borrowedIfRefcounted_rel hR ty s s' r h
  | .declRef ty decl context, s, s', r, h => by
    simp only [handleExpr] at h
    cases hty : isRefcountedType ty with
    | error e => simp [hty] at h
    | ok b =>
      cases b with
      | false =>
        simp [hty] at h
        rw [← h.2]
        exact hR.refl s
      | true =>
        simp only [hty] at h
        cases hf : varsFind decl s.vars with
        | some p =>
          simp [hf] at h
          rw [← h.2]
          exact hR.refl s
        | none =>
          simp only [hf] at h
          split at h
          · simp [BlockState.createBorrowed] at h
            rw [← h.2]
            exact hR.bind s decl hf
          · simp at h
  | .call ty callee args, s, s', r, h => by
    simp only [handleExpr] at h
    cases hft : calleeProto callee.getType with
    | error e => simp [hft] at h
    | ok ft =>
      simp only [hft] at h
      cases hc : handleExpr callee s with
      | error e => simp [hc] at h
      | ok q =>
        obtain ⟨r0, st1⟩ := q
        simp only [hc] at h
        cases ha : handleExprs args st1 with
        | error e => simp [ha] at h
        | ok st2 =>
          simp only [ha] at h
          have h12 : R s st2 := hR.trans _ _ _ (handleExpr_rel hR callee s st1 r0 hc)
            (handleExprs_rel hR args st1 st2 ha)
          cases hk : (if canThrow ft = true then checkClean st2 else Except.ok ()) with
          | error e => simp [hk] at h
          | ok u =>
            simp only [hk] at h
            cases hty : isRefcountedType ty with
            | error e => simp [hty] at h
            | ok b =>
              cases b with
              | false =>
                simp [hty] at h
                rw [← h.2]
                exact h12
              | true =>
                simp [hty, BlockState.createOwned] at h
                rw [← h.2]
                exact hR.trans _ _ _ h12 (hR.owned st2)
  | .new ty placement init, s, s', r, h => by
    simp only [handleExpr] at h
    cases hp : handleExprs placement s with
    | error e => simp [hp] at h
    | ok st1 =>
      simp only [hp] at h
      cases hi : handleOptExpr init st1 with
      | error e => simp [hi] at h
      | ok st2 =>
        simp only [hi] at h
        exact hR.trans _ _ _ (hR.trans _ _ _ (handleExprs_rel hR placement s st1 hp)
          (handleOptExpr_rel hR init st1 st2 hi)) (borrowedIfRefcounted_rel hR ty st2 s' r h)
  | .conditional ty cond trueExpr falseExpr, s, s', r, h => by
    simp only [handleExpr] at h
    cases hc : handleExpr cond s with
    | error e => simp [hc] at h
    | ok q =>
      obtain ⟨r0, st⟩ := q
      simp only [hc] at h
      cases ht : handleExpr trueExpr st with
      | error e => simp [ht] at h
      | ok qt =>
        obtain ⟨s1, ts⟩ := qt
        simp only [ht] at h
        cases hf : handleExpr falseExpr st.copy with
        | error e => simp [hf] at h
        | ok qf =>
          obtain ⟨s2, fs⟩ := qf
          simp only [hf] at h
          cases hm : checkSameAndMerge ts fs with
          | error e => simp [hm] at h
          | ok m =>
            obtain ⟨m1, m2⟩ := m
            simp only [hm] at h
            cases hg : ternaryAgree s1 s2 m1 m2 with
            | error e => simp [hg] at h
            | ok u =>
              simp [hg] at h
              rw [← h.2]
              exact hR.trans _ _ _ (handleExpr_rel hR cond s st r0 hc)
                (hR.merge st ts fs m1 m2 (handleExpr_rel hR trueExpr st ts s1 ht)
                  (handleExpr_rel hR falseExpr st fs s2 hf) hm)
  | .other _, s, s', r, h => by
    simp [handleExpr] at h
theorem handleExprs_rel {R : BlockState → BlockState → Prop} (hR : StepRel R) :
    ∀ (es : List Expr) (s s' : BlockState), handleExprs es s = .ok s' → R s s'
  | [], s, s', h => by
    simp [handleExprs] at h
    rw [← h]
    exact hR.refl s
  | e :: rest, s, s', h => by
    simp only [handleExprs] at h
    cases he : handleExpr e s with
    | error err => simp [he] at h
    | ok q =>
      obtain ⟨r0, st⟩ := q
      simp only [he] at h
      exact hR.trans _ _ _ (handleExpr_rel hR e s st r0 he) (handleExprs_rel hR rest st s' h)
theorem handleOptExpr_rel {R : BlockState → BlockState → Prop} (hR : StepRel R) :
    ∀ (e : Option Expr) (s s' : BlockState), handleOptExpr e s = .ok s' → R s s'
  | none, s, s', h => by
    simp [handleOptExpr] at h
    rw [← h]
    exact hR.refl s
  | some e, s, s', h => by
    simp only [handleOptExpr] at h
    cases he : handleExpr e s with
    | error err => simp [he] at h
    | ok q =>
      obtain ⟨r0, st⟩ := q
      simp [he] at h
      rw [← h]
      exact handleExpr_rel hR e s st r0 he
end


/-! ### Rule induction over `handle(Stmt*)` -/

theorem handleDecl_rel {R : BlockState → BlockState → Prop} (hR : StmtRel R)
    (d : Decl) (s s' : BlockState) (h : handleDecl d s = .ok s') : R s s' := by
  cases d with
  | nonVar => simp [handleDecl] at h
  | varDecl vardecl ty init =>
    simp only [handleDecl] at h
    cases hf : varsFind vardecl s.vars with
    | some p => simp [hf] at h
    | none =>
      simp only [hf, Option.isSome_none, Bool.false_eq_true, if_false] at h
      cases hty : isRefcountedType ty with
      | error e => simp [hty] at h
      | ok b =>
        simp only [hty] at h
        cases b with
        | false =>
          simp only [Bool.false_eq_true, if_false] at h
          cases init with
          | none =>
            simp at h
            rw [← h]
            exact hR.refl s
          | some e =>
            simp only [] at h
            cases he : handleExpr e s with
            | error err => simp [he] at h
            | ok q =>
              obtain ⟨r0, st⟩ := q
              simp [he] at h
              rw [← h]
              exact handleExpr_rel hR.toStepRel e s st r0 he
        | true =>
          simp only [if_true, BlockState.createBorrowed] at h
          have hb := hR.bind s vardecl hf
          cases init with
          | none =>
            simp at h
            rw [← h]
            exact hb
          | some e =>
            simp only [] at h
            cases he : handleExpr e
                ⟨s.states ++ [⟨RefType.BORROWED, 0⟩], varsSet vardecl s.states.length s.vars⟩ with
            | error err => simp [he] at h
            | ok q =>
              obtain ⟨r0, st⟩ := q
              simp only [he] at h
              exact hR.trans _ _ _ (hR.trans _ _ _ hb (handleExpr_rel hR.toStepRel e _ st r0 he))
                (hR.assign st s' vardecl r0 h)

theorem handleDecls_rel {R : BlockState → BlockState → Prop} (hR : StmtRel R)
    (ds : List Decl) (s s' : BlockState) (h : handleDecls ds s = .ok s') : R s s' := by
  induction ds generalizing s with
  | nil =>
    simp [handleDecls] at h
    rw [← h]
    exact hR.refl s
  | cons d rest ih =>
    simp only [handleDecls] at h
    cases hd : handleDecl d s with
    | error e => simp [hd] at h
    | ok st =>
      simp only [hd] at h
      exact hR.trans _ _ _ (handleDecl_rel hR d s st hd) (ih st h)

theorem bindParams_rel {R : BlockState → BlockState → Prop} (hR : StepRel R)
    (params : List (Nat × QualType)) (s s' : BlockState) (h : bindParams params s = .ok s') :
    R s s' := by
  induction params generalizing s with
  | nil =>
    simp [bindParams] at h
    rw [← h]
    exact hR.refl s
  | cons q rest ih =>
    obtain ⟨param, ty⟩ := q
    simp only [bindParams] at h
    cases hty : isRefcountedType ty with
    | error e => simp [hty] at h
    | ok b =>
      cases b with
      | false =>
        simp only [hty] at h
        exact ih s h
      | true =>
        simp only [hty] at h
        cases hf : varsFind param s.vars with
        | some p => simp [hf] at h
        | none =>
          simp only [hf, Option.isSome_none, Bool.false_eq_true, if_false,
            BlockState.createBorrowed] at h
          exact hR.trans _ _ _ (hR.bind s param hf) (ih _ h)

mutual
/-- Rule induction over statements. -/
theorem handleStmt_rel {R : BlockState → BlockState → Prop} (hR : StmtRel R)
    (return_ann : AnnotationType) :
    ∀ (stmt : Stmt) (s s' : BlockState), handleStmt return_ann stmt s = .ok s' → R s s'
  | .expr e, s, s', h => by
    simp only [handleStmt] at h
    cases he : handleExpr e s with
    | error err => simp [he] at h
    | ok q =>
      obtain ⟨r0, st⟩ := q
      simp [he] at h
      rw [← h]
      exact handleExpr_rel hR.toStepRel e s st r0 he
  | .compound body, s, s', h => by
    simp only [handleStmt] at h
    exact handleStmts_rel hR return_ann body s s' h
  | .doStmt cond body, s, s', h => by
    simp only [handleStmt] at h
    split at h
    · exact handleStmt_rel hR return_ann body s s' h
    · simp at h
  | .forStmt init cond condVar inc body, s, s', h => by
    simp only [handleStmt] at h
    cases hi : handleStmtPtr return_ann init s with
    | error e => simp [hi] at h
    | ok st1 =>
      simp only [hi] at h
      cases hc : handleExprPtr cond st1 with
      | error e => simp [hc] at h
      | ok q =>
        obtain ⟨r0, st2⟩ := q
        simp only [hc] at h
        cases hv : checkConditionVariable condVar with
        | error e => simp [hv] at h
        | ok u =>
          simp only [hv] at h
          cases hb : handleStmt return_ann body st2 with
          | error e => simp [hb] at h
          | ok st3 =>
            simp only [hb] at h
            cases hm : checkSameAndMerge st3 st2.copy with
            | error e => simp [hm] at h
            | ok m =>
              obtain ⟨m1, m2⟩ := m
              simp [hm] at h
              rw [← h]
              have hc' : R st1 st2 := by
                cases cond with
                | none => simp [handleExprPtr] at hc
                | some c => exact handleExpr_rel hR.toStepRel c st1 st2 r0 hc
              exact hR.trans _ _ _ (hR.trans _ _ _ (handleStmtPtr_rel hR return_ann init s st1 hi) hc')
                (hR.merge st2 st3 st2.copy m1 m2 (handleStmt_rel hR return_ann body st2 st3 hb)
                  (hR.refl st2) hm)
  | .whileStmt cond condVar body, s, s', h => by
    simp only [handleStmt] at h
    cases hc : handleExpr cond s with
    | error e => simp [hc] at h
    | ok q =>
      obtain ⟨r0, st1⟩ := q
      simp only [hc] at h
      cases hv : checkConditionVariable condVar with
      | error e => simp [hv] at h
      | ok u =>
        simp only [hv] at h
        cases hb : handleStmt return_ann body st1 with
        | error e => simp [hb] at h
        | ok st2 =>
          simp only [hb] at h
          cases hm : checkSameAndMerge st2 st1.copy with
          | error e => simp [hm] at h
          | ok m =>
            obtain ⟨m1, m2⟩ := m
            simp [hm] at h
            rw [← h]
            exact hR.trans _ _ _ (handleExpr_rel hR.toStepRel cond s st1 r0 hc)
              (hR.merge st1 st2 st1.copy m1 m2 (handleStmt_rel hR return_ann body st1 st2 hb)
                (hR.refl st1) hm)
  | .ifStmt cond thenStmt elseStmt, s, s', h => by
    simp only [handleStmt] at h
    cases hc : handleExpr cond s with
    | error e => simp [hc] at h
    | ok q =>
      obtain ⟨r0, st⟩ := q
      simp only [hc] at h
      cases ht : handleOptStmt return_ann thenStmt st with
      | error e => simp [ht] at h
      | ok ts =>
        simp only [ht] at h
        cases hf : handleOptStmt return_ann elseStmt st.copy with
        | error e => simp [hf] at h
        | ok fs =>
          simp only [hf] at h
          cases hm : checkSameAndMerge ts fs with
          | error e => simp [hm] at h
          | ok m =>
            obtain ⟨m1, m2⟩ := m
            simp [hm] at h
            rw [← h]
            exact hR.trans _ _ _ (handleExpr_rel hR.toStepRel cond s st r0 hc)
              (hR.merge st ts fs m1 m2 (handleOptStmt_rel hR return_ann thenStmt st ts ht)
                (handleOptStmt_rel hR return_ann elseStmt st fs hf) hm)
  | .declStmt decls, s, s', h => by
    simp only [handleStmt] at h
    exact handleDecls_rel hR decls s s' h
  | .returnStmt retValue, s, s', h => by
    simp only [handleStmt] at h
    cases retValue with
    | none => simp at h
    | some e =>
      simp only [] at h
      cases he : handleExpr e s with
      | error err => simp [he] at h
      | ok q =>
        obtain ⟨r0, st⟩ := q
        simp only [he] at h
        exact hR.trans _ _ _ (handleExpr_rel hR.toStepRel e s st r0 he)
          (hR.consume return_ann e.getType r0 st s' h)
  | .asmStmt inputs outputs, s, s', h => by
    simp only [handleStmt] at h
    cases hi : handleExprs inputs s with
    | error e => simp [hi] at h
    | ok st =>
      simp only [hi] at h
      exact hR.trans _ _ _ (handleExprs_rel hR.toStepRel inputs s st hi)
        (handleExprs_rel hR.toStepRel outputs st s' h)
  | .other, s, s', h => by
    simp [handleStmt] at h
theorem handleStmts_rel {R : BlockState → BlockState → Prop} (hR : StmtRel R)
    (return_ann : AnnotationType) :
    ∀ (stmts : List Stmt) (s s' : BlockState), handleStmts return_ann stmts s = .ok s' → R s s'
  | [], s, s', h => by
    simp [handleStmts] at h
    rw [← h]
    exact hR.refl s
  | stmt :: rest, s, s', h => by
    simp only [handleStmts] at h
    cases hs : handleStmt return_ann stmt s with
    | error e => simp [hs] at h
    | ok st =>
      simp only [hs] at h
      exact hR.trans _ _ _ (handleStmt_rel hR return_ann stmt s st hs)
        (handleStmts_rel hR return_ann rest st s' h)
theorem handleOptStmt_rel {R : BlockState → BlockState → Prop} (hR : StmtRel R)
    (return_ann : AnnotationType) :
    ∀ (stmt : Option Stmt) (s s' : BlockState),
      handleOptStmt return_ann stmt s = .ok s' → R s s'
  | none, s, s', h => by
    simp [handleOptStmt] at h
    rw [← h]
    exact hR.refl s
  | some stmt, s, s', h => by
    simp only [handleOptStmt] at h
    exact handleStmt_rel hR return_ann stmt s s' h
theorem handleStmtPtr_rel {R : BlockState → BlockState → Prop} (hR : StmtRel R)
    (return_ann : AnnotationType) :
    ∀ (stmt : Option Stmt) (s s' : BlockState),
      handleStmtPtr return_ann stmt s = .ok s' → R s s'
  | none, s, s', h => by
    simp [handleStmtPtr] at h
  | some stmt, s, s', h => by
    simp only [handleStmtPtr] at h
    exact handleStmt_rel hR return_ann stmt s s' h
end


/-! ### C13 -/

theorem borrowedHaveNoRefs_iff (s : BlockState) :
    s.borrowedHaveNoRefs = true
      ↔ ∀ r ∈ s.states, r.type = RefType.BORROWED → r.num_refs = 0 := by
  simp only [BlockState.borrowedHaveNoRefs, List.all_eq_true, decide_eq_true_eq]

theorem borrowedHaveNoRefs_append (s : BlockState) (r : RefState) (vars : List (Nat × Nat))
    (hr : r.type = RefType.BORROWED → r.num_refs = 0) (h : s.borrowedHaveNoRefs = true) :
    BlockState.borrowedHaveNoRefs ⟨s.states ++ [r], vars⟩ = true := by
  rw [borrowedHaveNoRefs_iff] at h ⊢
  intro x hx
  rcases List.mem_append.1 hx with hx | hx
  · exact h x hx
  · rw [List.mem_singleton.1 hx]
    exact hr

theorem borrowedHaveNoRefs_merge (a b m1 m2 : BlockState)
    (hm : checkSameAndMerge a b = .ok (m1, m2)) :
    (a.borrowedHaveNoRefs = true → m1.borrowedHaveNoRefs = true)
    ∧ (b.borrowedHaveNoRefs = true → m2.borrowedHaveNoRefs = true) := by
  obtain ⟨_, _, t1, t2⟩ := checkSameAndMerge_slots a b m1 m2 hm
  have key : ∀ xs ys : List RefState,
      (∀ (i : Nat) (r : RefState), ys[i]? = some r → r.type = RefType.OWNED ∨ xs[i]? = some r) →
      (∀ r ∈ xs, r.type = RefType.BORROWED → r.num_refs = 0) →
      ∀ r ∈ ys, r.type = RefType.BORROWED → r.num_refs = 0 := by
    intro xs ys ht hx r hr hb
    obtain ⟨i, hi⟩ := List.getElem?_of_mem hr
    rcases ht i r hi with ho | hs
    · rw [ho] at hb
      cases hb
    · exact hx r (List.getElem?_mem hs) hb
  constructor
  · intro h
    rw [borrowedHaveNoRefs_iff] at h ⊢
    exact key _ _ t1 h
  · intro h
    rw [borrowedHaveNoRefs_iff] at h ⊢
    exact key _ _ t2 h

theorem borrowedHaveNoRefs_doAssign (s s' : BlockState) (d : Nat) (n : Option Nat)
    (h : s.doAssign d n = .ok s') (hs : s.borrowedHaveNoRefs = true) :
    s'.borrowedHaveNoRefs = true := by
  unfold BlockState.doAssign at h
  cases n with
  | none => simp at h
  | some n =>
    simp only [] at h
    cases hf : varsFind d s.vars with
    | none => simp [hf] at h
    | some v =>
      simp only [hf, BlockState.slot] at h
      cases hv : s.states[v]? with
      | none => simp [hv] at h
      | some sv =>
        cases hn : s.states[n]? with
        | none => simp [hv, hn] at h
        | some sn =>
          simp only [hv, hn] at h
          by_cases hz : sv.num_refs = 0
          · simp only [hz, if_true, Except.ok.injEq] at h
            rw [borrowedHaveNoRefs_iff] at hs ⊢
            rw [← h]
            intro x hx hb
            have hsn := hs sn (List.getElem?_mem hn)
            rcases List.mem_or_eq_of_mem_set hx with hx | hx
            · rcases List.mem_or_eq_of_mem_set hx with hx | hx
              · exact hs x hx hb
              · rw [hx] at hb ⊢
                exact hsn hb
            · rw [hx]
          · simp [hz] at h

theorem borrowedHaveNoRefs_consumeReturn (ann : AnnotationType) (ty : QualType)
    (rs : Option Nat) (s s' : BlockState) (h : consumeReturn ann ty rs s = .ok s')
    (hs : s.borrowedHaveNoRefs = true) : s'.borrowedHaveNoRefs = true := by
  unfold consumeReturn at h
  cases hty : isRefcountedType ty with
  | error e => simp [hty] at h
  | ok b =>
    cases b with
    | false =>
      simp [hty] at h
      rw [← h]
      exact hs
    | true =>
      simp only [hty] at h
      by_cases ha : ann = AnnotationType.BORROWED
      · simp [ha] at h
        rw [← h]
        exact hs
      · simp only [ne_eq, ha, not_false_eq_true, if_true] at h
        cases rs with
        | none => simp at h
        | some p =>
          simp only [BlockState.slot] at h
          cases hp : s.states[p]? with
          | none => simp [hp] at h
          | some r =>
            simp only [hp] at h
            by_cases hpos : r.num_refs > 0
            · simp only [hpos, if_true, Except.ok.injEq] at h
              rw [borrowedHaveNoRefs_iff] at hs ⊢
              rw [← h]
              intro x hx hb
              rcases List.mem_or_eq_of_mem_set hx with hx | hx
              · exact hs x hx hb
              · rw [hx] at hb
                have := hs r (List.getElem?_mem hp) hb
                omega
            · simp [hpos] at h

/-- The invariant of C13 as a relation respected by every action. -/
theorem borrowedHaveNoRefs_stmtRel :
    StmtRel (fun s s' => s.borrowedHaveNoRefs = true → s'.borrowedHaveNoRefs = true) where
  refl := fun _ h => h
  trans := fun _ _ _ h1 h2 h => h2 (h1 h)
  borrowed := fun s h => borrowedHaveNoRefs_append s _ _ (fun _ => rfl) h
  owned := fun s h => borrowedHaveNoRefs_append s _ _ (fun hb => by cases hb) h
  bind := fun s _ _ h => borrowedHaveNoRefs_append s _ _ (fun _ => rfl) h
  merge := fun _ a b m1 m2 h1 _ hm h => (borrowedHaveNoRefs_merge a b m1 m2 hm).1 (h1 h)
  assign := fun s s' d n h hs => borrowedHaveNoRefs_doAssign s s' d n h hs
  consume := fun ann ty rs s s' h hs => borrowedHaveNoRefs_consumeReturn ann ty rs s s' h hs

/-- C13: every slot of kind `BORROWED` holds no reference, in the empty
state and after each action that builds a new state from states with that
property: the creation of a slot, an assignment, a merge (both states), a
duplication, the binding of the parameters, the walk of an expression or of
a statement; hence in the state at the end of `checkFunction`. -/
theorem borrowedHaveNoRefs_invariant :
    BlockState.empty.borrowedHaveNoRefs = true
    ∧ (∀ s : BlockState, s.borrowedHaveNoRefs = true →
        s.createBorrowed.2.borrowedHaveNoRefs = true ∧ s.createOwned.2.borrowedHaveNoRefs = true
        ∧ s.copy.borrowedHaveNoRefs = true)
    ∧ (∀ (s s' : BlockState) (d : Nat) (n : Option Nat), s.borrowedHaveNoRefs = true →
        s.doAssign d n = .ok s' → s'.borrowedHaveNoRefs = true)
    ∧ (∀ a b m1 m2 : BlockState, a.borrowedHaveNoRefs = true → b.borrowedHaveNoRefs = true →
        checkSameAndMerge a b = .ok (m1, m2) →
        m1.borrowedHaveNoRefs = true ∧ m2.borrowedHaveNoRefs = true)
    ∧ (∀ (params : List (Nat × QualType)) (s s' : BlockState), s.borrowedHaveNoRefs = true →
        bindParams params s = .ok s' → s'.borrowedHaveNoRefs = true)
    ∧ (∀ (e : Expr) (s s' : BlockState) (r : Option Nat), s.borrowedHaveNoRefs = true →
        handleExpr e s = .ok (r, s') → s'.borrowedHaveNoRefs = true)
    ∧ (∀ (return_ann : AnnotationType) (stmt : Stmt) (s s' : BlockState),
        s.borrowedHaveNoRefs = true → handleStmt return_ann stmt s = .ok s' →
        s'.borrowedHaveNoRefs = true)
    ∧ (∀ (func : FunctionDecl) (st : BlockState), checkFunction func = .ok st →
        st.borrowedHaveNoRefs = true) := by
  have hparams : ∀ (params : List (Nat × QualType)) (s s' : BlockState),
      s.borrowedHaveNoRefs = true → bindParams params s = .ok s' →
      s'.borrowedHaveNoRefs = true :=
    fun params s s' hs h => bindParams_rel borrowedHaveNoRefs_stmtRel.toStepRel params s s' h hs
  have hstmt : ∀ (return_ann : AnnotationType) (stmt : Stmt) (s s' : BlockState),
      s.borrowedHaveNoRefs = true → handleStmt return_ann stmt s = .ok s' →
      s'.borrowedHaveNoRefs = true :=
    fun return_ann stmt s s' hs h =>
      handleStmt_rel borrowedHaveNoRefs_stmtRel return_ann stmt s s' h hs
  refine ⟨by decide, fun s hs => ⟨?_, ?_, hs⟩, fun s s' d n hs h => ?_,
    fun a b m1 m2 ha hb hm => ?_, hparams, fun e s s' r hs h => ?_, hstmt, fun func st h => ?_⟩
  · exact borrowedHaveNoRefs_append s _ _ (fun _ => rfl) hs
  · exact borrowedHaveNoRefs_append s _ _ (fun hb => by cases hb) hs
  · exact borrowedHaveNoRefs_doAssign s s' d n h hs
  · exact ⟨(borrowedHaveNoRefs_merge a b m1 m2 hm).1 ha, (borrowedHaveNoRefs_merge a b m1 m2 hm).2 hb⟩
  · exact handleExpr_rel borrowedHaveNoRefs_stmtRel.toStepRel e s s' r h hs
  · unfold checkFunction at h
    cases hb : bindParams func.params BlockState.empty with
    | error e => simp [hb] at h
    | ok s0 =>
      simp only [hb] at h
      cases hbody : handleStmt (getAnnotationType func.returnTypeLoc) func.body s0 with
      | error e => simp [hbody] at h
      | ok s1 =>
        simp only [hbody] at h
        cases hc : checkClean s1 with
        | error e => simp [hc] at h
        | ok u =>
          simp [hc] at h
          rw [← h]
          exact hstmt _ _ s0 s1 (hparams _ _ s0 (by decide) hb) hbody

/-- C13, at the function `BoxedInt* g(BoxedInt* a) { BoxedInt* x = f();
return x; }` and at the merge of a `BORROWED` with an `OWNED` binding. -/
theorem borrowedHaveNoRefs_invariant_witness :
    BlockState.borrowedHaveNoRefs ⟨[⟨.BORROWED, 0⟩, ⟨.OWNED, 0⟩, ⟨.OWNED, 0⟩], [(3, 0), (1, 1)]⟩
        = true
    ∧ (BlockState.borrowedHaveNoRefs ⟨[⟨.OWNED, 0⟩], [(1, 0)]⟩ = true
        ∧ BlockState.borrowedHaveNoRefs ⟨[⟨.OWNED, 0⟩], [(1, 0)]⟩ = true) :=
  ⟨borrowedHaveNoRefs_invariant.2.2.2.2.2.2.2
      ⟨[], [(3, boxPtr)], .compound [declOwned boxPtr 1 2 false false, returnVar boxPtr 1]⟩
      ⟨[⟨.BORROWED, 0⟩, ⟨.OWNED, 0⟩, ⟨.OWNED, 0⟩], [(3, 0), (1, 1)]⟩ (by decide),
   borrowedHaveNoRefs_invariant.2.2.2.1 ⟨[⟨.BORROWED, 0⟩], [(1, 0)]⟩ ⟨[⟨.OWNED, 0⟩], [(1, 0)]⟩
      ⟨[⟨.OWNED, 0⟩], [(1, 0)]⟩ ⟨[⟨.OWNED, 0⟩], [(1, 0)]⟩ (by decide) (by decide) (by decide)⟩


/-! ### Evaluation extends the state -/

theorem wellFormed_lt (s : BlockState) (hwf : s.wellFormed = true) (d p : Nat)
    (h : varsFind d s.vars = some p) : p < s.states.length := by
  have := List.all_eq_true.1 hwf (d, p) (varsFind_some_mem d p s.vars h)
  simpa using this

theorem wellFormed_append (s : BlockState) (extra : List RefState) (hwf : s.wellFormed = true) :
    BlockState.wellFormed ⟨s.states ++ extra, s.vars⟩ = true := by
  unfold BlockState.wellFormed at hwf ⊢
  rw [List.all_eq_true] at hwf ⊢
  intro q hq
  have := hwf q hq
  simp only [decide_eq_true_eq, List.length_append] at this ⊢
  omega

theorem extends_append (s : BlockState) (extra : List RefState) :
    s.Extends ⟨s.states ++ extra, s.vars⟩ :=
  ⟨⟨extra, rfl⟩, fun _ _ h => h, fun _ _ h => Or.inl h⟩

theorem extends_trans (a b c : BlockState) (hb : b.wellFormed = true)
    (h1 : a.Extends b) (h2 : b.Extends c) : a.Extends c := by
  obtain ⟨⟨e1, s1⟩, o1, n1⟩ := h1
  obtain ⟨⟨e2, s2⟩, o2, n2⟩ := h2
  refine ⟨⟨e1 ++ e2, by rw [s2, s1, List.append_assoc]⟩, fun d p h => o2 d p (o1 d p h),
    fun d p h => ?_⟩
  rcases n2 d p h with hb1 | ⟨hb1, hc⟩
  · rcases n1 d p hb1 with ha | ⟨ha, hbs⟩
    · exact Or.inl ha
    · refine Or.inr ⟨ha, ?_⟩
      have hlt : p < b.states.length := wellFormed_lt b hb d p hb1
      rw [s2, List.getElem?_append_left hlt]
      exact hbs
  · refine Or.inr ⟨?_, hc⟩
    cases ha : varsFind d a.vars with
    | none => rfl
    | some q =>
      rw [o1 d q ha] at hb1
      cases hb1

theorem extends_bind (s : BlockState) (d : Nat) (hwf : s.wellFormed = true)
    (hd : varsFind d s.vars = none) :
    s.Extends ⟨s.states ++ [⟨RefType.BORROWED, 0⟩], varsSet d s.states.length s.vars⟩
    ∧ BlockState.wellFormed
        ⟨s.states ++ [⟨RefType.BORROWED, 0⟩], varsSet d s.states.length s.vars⟩ = true := by
  constructor
  · refine ⟨⟨_, rfl⟩, fun d' p h => ?_, fun d' p h => ?_⟩
    · have hne : d' ≠ d := by
        intro e
        rw [e, hd] at h
        cases h
      exact (varsFind_varsSet_other d s.states.length d' s.vars hne).trans h
    · by_cases hne : d' = d
      · subst hne
        have h' : varsFind d' (varsSet d' s.states.length s.vars) = some p := h
        rw [varsFind_varsSet_self] at h'
        cases h'
        refine Or.inr ⟨hd, ?_⟩
        show (s.states ++ [⟨RefType.BORROWED, 0⟩])[s.states.length]? = _
        rw [List.getElem?_append_right (Nat.le_refl _)]
        simp
      · have h' : varsFind d' (varsSet d s.states.length s.vars) = some p := h
        rw [varsFind_varsSet_other d s.states.length d' s.vars hne] at h'
        exact Or.inl h'
  · unfold BlockState.wellFormed at hwf ⊢
    rw [List.all_eq_true] at hwf ⊢
    intro q hq
    have hq' : q ∈ s.vars ++ [(d, s.states.length)] := by
      rw [← varsSet_unbound d s.states.length s.vars hd]
      exact hq
    simp only [decide_eq_true_eq, List.length_append, List.length_singleton]
    rcases List.mem_append.1 hq' with hq' | hq'
    · have := hwf q hq'
      simp only [decide_eq_true_eq] at this
      omega
    · rw [List.mem_singleton.1 hq']
      exact Nat.lt_succ_self _

/-- The merge of two states that both extend a common well-formed state
touches no slot and keeps the common bindings: its first state again
extends the common state. -/
theorem extends_merge (s a b m1 m2 : BlockState) (hs : s.wellFormed = true)
    (ha : s.Extends a) (hwa : a.wellFormed = true)
    (hb : s.Extends b)
    (hm : checkSameAndMerge a b = .ok (m1, m2)) :
    m1.states = a.states ∧ m2.states = b.states ∧ s.Extends m1 ∧ m1.wellFormed = true := by
  obtain ⟨⟨ea, sa⟩, oa, na⟩ := ha
  obtain ⟨⟨eb, sb⟩, ob, nb⟩ := hb
  obtain ⟨hmd, _⟩ := checkSameAndMerge_ok_mergeDecls a b m1 m2 hm
  obtain ⟨k1, _⟩ := checkSameAndMerge_vars a b m1 m2 hm
  have hgood : ∀ d ∈ mergeDeclSet a b,
      (∃ p1 p2 r, varsFind d a.vars = some p1 ∧ varsFind d b.vars = some p2
          ∧ a.states[p1]? = some r ∧ b.states[p2]? = some r)
      ∨ (∃ p r, varsFind d a.vars = some p ∧ varsFind d b.vars = none
          ∧ a.states[p]? = some r ∧ r.num_refs = 0)
      ∨ (∃ p r, varsFind d a.vars = none ∧ varsFind d b.vars = some p
          ∧ b.states[p]? = some r ∧ r.num_refs = 0) := by
    intro d hd
    cases fa : varsFind d a.vars with
    | none =>
      cases fb : varsFind d b.vars with
      | none =>
        rcases (mem_mergeDeclSet a b d).1 hd with ⟨p, hp⟩ | ⟨p, hp⟩
        · rw [fa] at hp
          cases hp
        · rw [fb] at hp
          cases hp
      | some p2 =>
        rcases nb d p2 fb with hsd | ⟨_, hslot⟩
        · rw [oa d p2 hsd] at fa
          cases fa
        · exact Or.inr (Or.inr ⟨p2, _, rfl, rfl, hslot, rfl⟩)
    | some p1 =>
      cases fb : varsFind d b.vars with
      | none =>
        rcases na d p1 fa with hsd | ⟨_, hslot⟩
        · rw [ob d p1 hsd] at fb
          cases fb
        · exact Or.inr (Or.inl ⟨p1, _, rfl, rfl, hslot, rfl⟩)
      | some p2 =>
        rcases na d p1 fa with hsd | ⟨hnone, hslot⟩
        · have hp : p2 = p1 := by
            have := ob d p1 hsd
            rw [fb] at this
            exact Option.some.inj this
          subst hp
          have hlt : p2 < s.states.length := wellFormed_lt s hs d p2 hsd
          refine Or.inl ⟨p2, p2, s.states[p2], rfl, rfl, ?_, ?_⟩
          · rw [sa, List.getElem?_append_left hlt]
            exact List.getElem?_eq_getElem hlt
          · rw [sb, List.getElem?_append_left hlt]
            exact List.getElem?_eq_getElem hlt
        · rcases nb d p2 fb with hsd | ⟨_, hslot2⟩
          · rw [hnone] at hsd
            cases hsd
          · exact Or.inl ⟨p1, p2, _, rfl, rfl, hslot, hslot2⟩
  obtain ⟨m1', m2', hok, e1, e2⟩ := mergeDecls_succeeds _ (nodup_mergeDeclSet a b) a b hgood
  rw [hmd] at hok
  simp only [Except.ok.injEq, Prod.mk.injEq] at hok
  obtain ⟨h1, h2⟩ := hok
  subst h1 h2
  have hfind : ∀ d, varsFind d m1.vars
      = if (varsFind d b.vars).isSome = true then varsFind d a.vars else none := by
    intro d
    rw [k1, varsFind_filter d (fun k => (varsFind k b.vars).isSome) a.vars]
  refine ⟨e1, e2, ⟨⟨ea, by rw [e1, sa]⟩, fun d p h => ?_, fun d p h => ?_⟩, ?_⟩
  · rw [hfind d, ob d p h, oa d p h]
    simp
  · rw [hfind d] at h
    have ha' : varsFind d a.vars = some p := by
      cases hb' : (varsFind d b.vars).isSome with
      | false => simp [hb'] at h
      | true =>
        simp only [hb', if_true] at h
        exact h
    rw [e1]
    exact na d p ha'
  · unfold BlockState.wellFormed at hwa ⊢
    rw [List.all_eq_true] at hwa ⊢
    intro q hq
    rw [k1] at hq
    have := hwa q (List.mem_of_mem_filter hq)
    rw [e1]
    exact this

/-- Evaluation extends a well-formed state: a `StepRel`. -/
theorem extends_stepRel :
    StepRel (fun s s' => s.wellFormed = true → s.Extends s' ∧ s'.wellFormed = true) where
  refl := fun s h => ⟨by simpa using extends_append s [], h⟩
  trans := fun a b c h1 h2 h =>
    ⟨extends_trans a b c (h1 h).2 (h1 h).1 (h2 (h1 h).2).1, (h2 (h1 h).2).2⟩
  borrowed := fun s h => ⟨extends_append s _, wellFormed_append s _ h⟩
  owned := fun s h => ⟨extends_append s _, wellFormed_append s _ h⟩
  bind := fun s d hd h => extends_bind s d h hd
  merge := fun s a b m1 m2 ha hb hm h =>
    ⟨(extends_merge s a b m1 m2 h (ha h).1 (ha h).2 (hb h).1 hm).2.2.1,
      (extends_merge s a b m1 m2 h (ha h).1 (ha h).2 (hb h).1 hm).2.2.2⟩

/-! ### C8 -/

/-- C8: let the condition of a ternary evaluate to `st` (from a well-formed
state), the true branch evaluate on `st` to the result `s1` in
`true_state`, and the false branch evaluate on the duplicate of `st` to the
result `s2` in `false_state`. If one result is a slot and the other is
none, or if both are slots and their kinds or their counts differ, the
evaluation of the ternary fails. -/
theorem handleExpr_conditional_disagree (ty : QualType) (cond trueExpr falseExpr : Expr)
    (state st true_state false_state : BlockState) (rc s1 s2 : Option Nat)
    (hwf : state.wellFormed = true)
    (hcond : handleExpr cond state = .ok (rc, st))
    (htrue : handleExpr trueExpr st = .ok (s1, true_state))
    (hfalse : handleExpr falseExpr st.copy = .ok (s2, false_state)) :
    (s1.isSome ≠ s2.isSome →
      ∃ e, handleExpr (.conditional ty cond trueExpr falseExpr) state = .error e)
    ∧ (∀ (p1 p2 : Nat) (r1 r2 : RefState), s1 = some p1 → s2 = some p2 →
        true_state.states[p1]? = some r1 → false_state.states[p2]? = some r2 →
        r1.type ≠ r2.type ∨ r1.num_refs ≠ r2.num_refs →
        ∃ e, handleExpr (.conditional ty cond trueExpr falseExpr) state = .error e) := by
  have hst := handleExpr_rel extends_stepRel cond state st rc hcond hwf
  have hts := handleExpr_rel extends_stepRel trueExpr st true_state s1 htrue hst.2
  have hfs := handleExpr_rel extends_stepRel falseExpr st false_state s2 hfalse hst.2
  have hunfold : handleExpr (.conditional ty cond trueExpr falseExpr) state
      = match checkSameAndMerge true_state false_state with
        | .error e => .error e
        | .ok (m1, m2) =>
          match ternaryAgree s1 s2 m1 m2 with
          | .error e => .error e
          | .ok _ => .ok (s1, m1) := by
    simp only [handleExpr, hcond, htrue, hfalse]
  rw [hunfold]
  cases hm : checkSameAndMerge true_state false_state with
  | error e => exact ⟨fun _ => ⟨e, rfl⟩, fun _ _ _ _ _ _ _ _ _ => ⟨e, rfl⟩⟩
  | ok m =>
    obtain ⟨m1, m2⟩ := m
    obtain ⟨e1, e2, _, _⟩ :=
      extends_merge st true_state false_state m1 m2 hst.2 hts.1 hts.2 hfs.1 hm
    refine ⟨fun hp => ?_, fun p1 p2 r1 r2 h1 h2 g1 g2 hd => ?_⟩
    · cases s1 with
      | none =>
        cases s2 with
        | none => exact absurd rfl hp
        | some p2 => exact ⟨Err.ternaryPresence, by simp [ternaryAgree]⟩
      | some p1 =>
        cases s2 with
        | none => exact ⟨Err.ternaryPresence, by simp [ternaryAgree]⟩
        | some p2 => exact absurd rfl hp
    · subst h1 h2
      rw [← e1] at g1
      rw [← e2] at g2
      by_cases hc : r1.num_refs = r2.num_refs
      · have ht : r1.type ≠ r2.type := by
          rcases hd with hd | hd
          · exact hd
          · exact absurd hc hd
        exact ⟨Err.ternaryKind, by simp [ternaryAgree, BlockState.slot, g1, g2, hc, ht]⟩
      · exact ⟨Err.ternaryCount, by simp [ternaryAgree, BlockState.slot, g1, g2, hc]⟩

/-- C8, at `true ? x : this` with `x` bound to an `OWNED` slot without
reference (an `OWNED` and a `BORROWED` result of equal counts), and at
`true ? 0 : this` (no slot and a slot). -/
theorem handleExpr_conditional_disagree_witness :
    (∃ e, handleExpr (.conditional boxPtr (.boolLiteral true) (.declRef boxPtr 1 [DeclKind.Function])
        (.this boxPtr)) ⟨[⟨.OWNED, 0⟩], [(1, 0)]⟩ = .error e)
    ∧ (∃ e, handleExpr (.conditional boxPtr (.boolLiteral true) .integerLiteral
        (.this boxPtr)) ⟨[⟨.OWNED, 0⟩], [(1, 0)]⟩ = .error e) :=
  ⟨(handleExpr_conditional_disagree boxPtr (.boolLiteral true) (.declRef boxPtr 1 [DeclKind.Function])
      (.this boxPtr) ⟨[⟨.OWNED, 0⟩], [(1, 0)]⟩ ⟨[⟨.OWNED, 0⟩], [(1, 0)]⟩
      ⟨[⟨.OWNED, 0⟩], [(1, 0)]⟩ ⟨[⟨.OWNED, 0⟩, ⟨.BORROWED, 0⟩], [(1, 0)]⟩ none (some 0) (some 1)
      (by decide) (by decide) (by decide) (by decide)).2 0 1 ⟨.OWNED, 0⟩ ⟨.BORROWED, 0⟩ rfl rfl
      (by decide) (by decide) (Or.inl (by decide)),
   (handleExpr_conditional_disagree boxPtr (.boolLiteral true) .integerLiteral
      (.this boxPtr) ⟨[⟨.OWNED, 0⟩], [(1, 0)]⟩ ⟨[⟨.OWNED, 0⟩], [(1, 0)]⟩
      ⟨[⟨.OWNED, 0⟩], [(1, 0)]⟩ ⟨[⟨.OWNED, 0⟩, ⟨.BORROWED, 0⟩], [(1, 0)]⟩ none none (some 1)
      (by decide) (by decide) (by decide) (by decide)).1 (by decide)⟩


/-! ### Plain code leaves the empty state empty -/

theorem notRefcounted_iff (t : QualType) :
    notRefcounted t = true ↔ isRefcountedType t = .ok false := by
  unfold notRefcounted
  cases h : isRefcountedType t with
  | error e => simp
  | ok b => cases b <;> simp

theorem assertNotRefcounted_plain (t : QualType) (err : Err) (h : notRefcounted t = true) :
    assertNotRefcounted t err = .ok () := by
  simp [assertNotRefcounted, (notRefcounted_iff t).1 h]

theorem borrowedIfRefcounted_plain (t : QualType) (s : BlockState) (h : notRefcounted t = true) :
    borrowedIfRefcounted t s = .ok (none, s) := by
  simp [borrowedIfRefcounted, (notRefcounted_iff t).1 h]

theorem checkSameAndMerge_empty :
    checkSameAndMerge BlockState.empty BlockState.empty.copy
      = .ok (BlockState.empty, BlockState.empty) := by
  decide

mutual
theorem handleExpr_plain :
    ∀ e : Expr, e.plain = true → handleExpr e BlockState.empty = .ok (none, BlockState.empty)
  | .stringLiteral, _ => by simp [handleExpr]
  | .integerLiteral, _ => by simp [handleExpr]
  | .boolLiteral _, _ => by simp [handleExpr]
  | .dependentOrConstruct ty, h => by
    simp only [Expr.plain] at h
    simp [handleExpr, assertNotRefcounted_plain ty _ h]
  | .defaultArg ty, h => by
    simp only [Expr.plain] at h
    simp [handleExpr, assertNotRefcounted_plain ty _ h]
  | .exprWithCleanups sub, h => by
    simp only [Expr.plain] at h
    simp [handleExpr, handleExpr_plain sub h]
  | .materializeTemporary sub, h => by
    simp only [Expr.plain] at h
    simp [handleExpr, handleExpr_plain sub h]
  | .bindTemporary sub, h => by
    simp only [Expr.plain] at h
    simp [handleExpr, handleExpr_plain sub h]
  | .unaryOperator ty sub, h => by
    simp only [Expr.plain, Bool.and_eq_true] at h
    simp [handleExpr, handleExpr_plain sub h.2, assertNotRefcounted_plain ty _ h.1]
  | .paren sub, h => by
    simp only [Expr.plain] at h
    simp [handleExpr, handleExpr_plain sub h]
  | .binaryOperator ty lhs rhs, h => by
    simp only [Expr.plain, Bool.and_eq_true] at h
    simp [handleExpr, handleExpr_plain lhs h.1.2, handleExpr_plain rhs h.2,
      assertNotRefcounted_plain ty _ h.1.1]
  | .cast ty sub, h => by
    simp only [Expr.plain, Bool.and_eq_true] at h
    simp [handleExpr, (notRefcounted_iff ty).1 h.1, handleExpr_plain sub h.2]
  | .member ty base, h => by
    simp only [Expr.plain, Bool.and_eq_true] at h
    simp [handleExpr, handleExpr_plain base h.2, borrowedIfRefcounted_plain ty _ h.1]
  | .this ty, h => by
    simp only [Expr.plain] at h
    simp [handleExpr, borrowedIfRefcounted_plain ty _ h]
  | .declRef ty decl context, h => by
    simp only [Expr.plain] at h
    simp [handleExpr, (notRefcounted_iff ty).1 h]
  | .call ty callee args, h => by
    simp only [Expr.plain, Bool.and_eq_true] at h
    obtain ⟨⟨⟨hk, hty⟩, hc⟩, ha⟩ := h
    cases hft : calleeProto callee.getType with
    | error e => simp [calleeKnown, hft] at hk
    | ok ft =>
      have hclean : checkClean BlockState.empty = .ok () := by decide
      by_cases hthrow : canThrow ft = true
      · simp [handleExpr, hft, handleExpr_plain callee hc, handleExprs_plain args ha, hthrow,
          hclean, (notRefcounted_iff ty).1 hty]
      · simp [handleExpr, hft, handleExpr_plain callee hc, handleExprs_plain args ha, hthrow,
          (notRefcounted_iff ty).1 hty]
  | .new ty placement init, h => by
    simp only [Expr.plain, Bool.and_eq_true] at h
    simp [handleExpr, handleExprs_plain placement h.1.2, handleOptExpr_plain init h.2,
      borrowedIfRefcounted_plain ty _ h.1.1]
  | .conditional ty cond trueExpr falseExpr, h => by
    simp only [Expr.plain, Bool.and_eq_true] at h
    have hf : handleExpr falseExpr BlockState.empty.copy = .ok (none, BlockState.empty) :=
      handleExpr_plain falseExpr h.2
    have hm : checkSameAndMerge BlockState.empty BlockState.empty
        = .ok (BlockState.empty, BlockState.empty) := checkSameAndMerge_empty
    simp [handleExpr, handleExpr_plain cond h.1.1, handleExpr_plain trueExpr h.1.2, hf, hm,
      ternaryAgree]
  | .other _, h => by
    simp [Expr.plain] at h
theorem handleExprs_plain :
    ∀ es : List Expr, Expr.plainList es = true →
      handleExprs es BlockState.empty = .ok BlockState.empty
  | [], _ => by simp [handleExprs]
  | e :: rest, h => by
    simp only [Expr.plainList, Bool.and_eq_true] at h
    simp [handleExprs, handleExpr_plain e h.1, handleExprs_plain rest h.2]
theorem handleOptExpr_plain :
    ∀ e : Option Expr, Expr.plainOpt e = true →
      handleOptExpr e BlockState.empty = .ok BlockState.empty
  | none, _ => by simp [handleOptExpr]
  | some e, h => by
    simp only [Expr.plainOpt] at h
    simp [handleOptExpr, handleExpr_plain e h]
end

theorem checkConditionVariable_plain (condVar : Option QualType)
    (h : plainConditionVariable condVar = true) : checkConditionVariable condVar = .ok () := by
  cases condVar with
  | none => rfl
  | some t => exact assertNotRefcounted_plain t _ h

theorem handleDecls_plain (decls : List Decl) (h : decls.all Decl.plain = true) :
    handleDecls decls BlockState.empty = .ok BlockState.empty := by
  induction decls with
  | nil => rfl
  | cons d rest ih =>
    simp only [List.all_cons, Bool.and_eq_true] at h
    have hd : handleDecl d BlockState.empty = .ok BlockState.empty := by
      cases d with
      | nonVar => simp [Decl.plain] at h
      | varDecl v ty init =>
        have h1 := h.1
        simp only [Decl.plain, Bool.and_eq_true] at h1
        cases init with
        | none =>
          simp [handleDecl, BlockState.empty, varsFind, (notRefcounted_iff ty).1 h1.1]
        | some e =>
          have he := handleExpr_plain e h1.2
          simp only [BlockState.empty] at he
          simp [handleDecl, BlockState.empty, varsFind, (notRefcounted_iff ty).1 h1.1, he]
    simp only [handleDecls, hd]
    exact ih h.2

mutual
theorem handleStmt_plain (return_ann : AnnotationType) :
    ∀ stmt : Stmt, stmt.plain = true →
      handleStmt return_ann stmt BlockState.empty = .ok BlockState.empty
  | .expr e, h => by
    simp only [Stmt.plain] at h
    simp [handleStmt, handleExpr_plain e h]
  | .compound body, h => by
    simp only [Stmt.plain] at h
    simp [handleStmt, handleStmts_plain return_ann body h]
  | .doStmt cond body, h => by
    simp only [Stmt.plain, Bool.and_eq_true] at h
    obtain ⟨hc, hb⟩ := h
    split at hc
    · simp [handleStmt, handleStmt_plain return_ann body hb]
    · cases hc
  | .forStmt init cond condVar inc body, h => by
    simp only [Stmt.plain, Bool.and_eq_true] at h
    obtain ⟨⟨⟨hi, hc⟩, hv⟩, hb⟩ := h
    cases cond with
    | none => simp at hc
    | some c =>
      simp only [] at hc
      have hbody : handleStmt return_ann body BlockState.empty = .ok BlockState.empty :=
        handleStmt_plain return_ann body hb
      simp [handleStmt, handleStmtPtr_plain return_ann init hi, handleExprPtr,
        handleExpr_plain c hc, checkConditionVariable_plain condVar hv, hbody,
        checkSameAndMerge_empty]
  | .whileStmt cond condVar body, h => by
    simp only [Stmt.plain, Bool.and_eq_true] at h
    obtain ⟨⟨hc, hv⟩, hb⟩ := h
    have hbody : handleStmt return_ann body BlockState.empty = .ok BlockState.empty :=
      handleStmt_plain return_ann body hb
    simp [handleStmt, handleExpr_plain cond hc, checkConditionVariable_plain condVar hv, hbody,
      checkSameAndMerge_empty]
  | .ifStmt cond thenStmt elseStmt, h => by
    simp only [Stmt.plain, Bool.and_eq_true] at h
    obtain ⟨⟨hc, ht⟩, he⟩ := h
    have helse : handleOptStmt return_ann elseStmt BlockState.empty.copy = .ok BlockState.empty :=
      handleOptStmt_plain return_ann elseStmt he
    have hm : checkSameAndMerge BlockState.empty BlockState.empty
        = .ok (BlockState.empty, BlockState.empty) := checkSameAndMerge_empty
    simp [handleStmt, handleExpr_plain cond hc, handleOptStmt_plain return_ann thenStmt ht, helse,
      hm]
  | .declStmt decls, h => by
    simp only [Stmt.plain] at h
    simp [handleStmt, handleDecls_plain decls h]
  | .returnStmt retValue, h => by
    simp only [Stmt.plain] at h
    cases retValue with
    | none => simp at h
    | some e =>
      simp only [Bool.and_eq_true] at h
      simp [handleStmt, handleExpr_plain e h.1, consumeReturn, (notRefcounted_iff _).1 h.2]
  | .asmStmt inputs outputs, h => by
    simp only [Stmt.plain, Bool.and_eq_true] at h
    simp [handleStmt, handleExprs_plain inputs h.1, handleExprs_plain outputs h.2]
  | .other, h => by
    simp [Stmt.plain] at h
theorem handleStmts_plain (return_ann : AnnotationType) :
    ∀ stmts : List Stmt, Stmt.plainList stmts = true →
      handleStmts return_ann stmts BlockState.empty = .ok BlockState.empty
  | [], _ => by simp [handleStmts]
  | stmt :: rest, h => by
    simp only [Stmt.plainList, Bool.and_eq_true] at h
    simp [handleStmts, handleStmt_plain return_ann stmt h.1, handleStmts_plain return_ann rest h.2]
theorem handleOptStmt_plain (return_ann : AnnotationType) :
    ∀ stmt : Option Stmt, Stmt.plainOpt stmt = true →
      handleOptStmt return_ann stmt BlockState.empty = .ok BlockState.empty
  | none, _ => by simp [handleOptStmt]
  | some stmt, h => by
    simp only [Stmt.plainOpt] at h
    simp [handleOptStmt, handleStmt_plain return_ann stmt h]
theorem handleStmtPtr_plain (return_ann : AnnotationType) :
    ∀ stmt : Option Stmt, Stmt.plainPtr stmt = true →
      handleStmtPtr return_ann stmt BlockState.empty = .ok BlockState.empty
  | none, h => by simp [Stmt.plainPtr] at h
  | some stmt, h => by
    simp only [Stmt.plainPtr] at h
    simp [handleStmtPtr, handleStmt_plain return_ann stmt h]
end


/-! ### C9 -/

/-- C9 (as the code has it): a function without parameter of refcounted
type, whose body is plain (built from the statements and expressions the
checker knows, none of them of refcounted type, every variable and every
returned value of a type that is not refcounted), is accepted by
`checkFunction`, and the state at its end has no slot and no binding. -/
theorem checkFunction_plain (func : FunctionDecl)
    (hparams : ∀ q ∈ func.params, isRefcountedType q.2 = .ok false)
    (hbody : func.body.plain = true) :
    checkFunction func = .ok ⟨[], []⟩ := by
  have hb : bindParams func.params BlockState.empty = .ok BlockState.empty :=
    bindParams_not_refcounted func.params BlockState.empty hparams
  have hs : handleStmt (getAnnotationType func.returnTypeLoc) func.body BlockState.empty
      = .ok BlockState.empty := handleStmt_plain _ func.body hbody
  have hc : checkClean BlockState.empty = .ok () := by decide
  simp only [checkFunction, hb, hs, hc]
  rfl

/-- C9, at `int g(int a) { int x = a + 1; if (x) { f(); } return x; }`
with `int f()`. -/
theorem checkFunction_plain_witness :
    checkFunction ⟨[], [(1, .builtin)], .compound
        [.declStmt [.varDecl 2 .builtin (some (.binaryOperator .builtin
            (.cast .builtin (.declRef .builtin 1 [DeclKind.Function])) .integerLiteral))],
          .ifStmt (.cast .builtin (.declRef .builtin 2 [DeclKind.Function]))
            (some (.expr (callOwned .builtin 3 false false))) none,
          .returnStmt (some (.cast .builtin (.declRef .builtin 2 [DeclKind.Function])))]⟩
      = .ok ⟨[], []⟩ :=
  checkFunction_plain ⟨[], [(1, .builtin)], .compound
      [.declStmt [.varDecl 2 .builtin (some (.binaryOperator .builtin
          (.cast .builtin (.declRef .builtin 1 [DeclKind.Function])) .integerLiteral))],
        .ifStmt (.cast .builtin (.declRef .builtin 2 [DeclKind.Function]))
          (some (.expr (callOwned .builtin 3 false false))) none,
        .returnStmt (some (.cast .builtin (.declRef .builtin 2 [DeclKind.Function])))]⟩
    (by decide) (by decide)

/-- C9 fails as stated: the functions `void g() { f(); }` (with `f`
returning `BoxedInt*`) and `void g() { return; }` have no parameter, no
local variable and no return value, and `checkFunction` rejects both. -/
theorem checkFunction_without_refcounted_locals_fails :
    (¬ ∃ st, checkFunction ⟨[], [], .compound [.expr (callOwned boxPtr 2 false false)]⟩ = .ok st)
    ∧ (¬ ∃ st, checkFunction ⟨[], [], .compound [.returnStmt none]⟩ = .ok st) := by
  have h1 : checkFunction ⟨[], [], .compound [.expr (callOwned boxPtr 2 false false)]⟩
      = .error Err.notClean := by decide
  have h2 : checkFunction ⟨[], [], .compound [.returnStmt none]⟩ = .error Err.nullNode := by
    decide
  constructor
  · rintro ⟨st, h⟩
    rw [h1] at h
    cases h
  · rintro ⟨st, h⟩
    rw [h2] at h
    cases h


/-! ### C17 -/

/-- C17: a declaration `ty v = e;` of a variable of refcounted type, `v` not
yet bound, in a well-formed state. The variable is first bound to a fresh
`BORROWED` slot, at the position `state.states.length`; let the initialiser
then evaluate to the slot `t`, another slot, holding `rt`, in the state
`st2`. After the declaration `v` is bound to its slot, which has the kind
and the count of `rt`; the slot `t` has count zero (and its kind); every
other slot and every binding is as in `st2`. If the initialiser yields no
slot, the declaration fails. -/
theorem handleStmt_decl_init (return_ann : AnnotationType) (v : Nat) (ty : QualType) (e : Expr)
    (state st2 : BlockState) (res : Option Nat)
    (hwf : state.wellFormed = true)
    (hty : isRefcountedType ty = .ok true)
    (hunbound : varsFind v state.vars = none)
    (heval : handleExpr e
        ⟨state.states ++ [⟨.BORROWED, 0⟩], varsSet v state.states.length state.vars⟩
      = .ok (res, st2)) :
    (res = none →
      handleStmt return_ann (.declStmt [.varDecl v ty (some e)]) state = .error Err.assignNull)
    ∧ (∀ (t : Nat) (rt : RefState), res = some t → t ≠ state.states.length →
        st2.states[t]? = some rt →
        ∃ st3, handleStmt return_ann (.declStmt [.varDecl v ty (some e)]) state = .ok st3
          ∧ st3.vars = st2.vars
          ∧ varsFind v st3.vars = some state.states.length
          ∧ st3.states.length = st2.states.length
          ∧ st3.states[state.states.length]? = some ⟨rt.type, rt.num_refs⟩
          ∧ st3.states[t]? = some ⟨rt.type, 0⟩
          ∧ ∀ q, q ≠ state.states.length → q ≠ t → st3.states[q]? = st2.states[q]?) := by
  refine ⟨fun hres => ?_, fun t rt hres hne ht => ?_⟩
  · subst hres
    simp [handleStmt, handleDecls, handleDecl, hunbound, hty, BlockState.createBorrowed, heval,
      BlockState.doAssign]
  · subst hres
    obtain ⟨_, hwf1⟩ := extends_bind state v hwf hunbound
    obtain ⟨⟨⟨extra, hstates⟩, hold, _⟩, _⟩ :=
      handleExpr_rel extends_stepRel e _ st2 (some t) heval hwf1
    have hv : varsFind v st2.vars = some state.states.length :=
      hold v state.states.length (varsFind_varsSet_self v state.states.length state.vars)
    have hpv : st2.states[state.states.length]? = some ⟨.BORROWED, 0⟩ := by
      rw [hstates]
      show ((state.states ++ [⟨.BORROWED, 0⟩]) ++ extra)[state.states.length]? = _
      rw [List.getElem?_append_left (by simp), List.getElem?_append_right (Nat.le_refl _)]
      simp
    have htl : t < st2.states.length := by
      rcases Nat.lt_or_ge t st2.states.length with h | h
      · exact h
      · rw [List.getElem?_eq_none h] at ht
        cases ht
    have hpl : state.states.length < st2.states.length := by
      rcases Nat.lt_or_ge state.states.length st2.states.length with h | h
      · exact h
      · rw [List.getElem?_eq_none h] at hpv
        cases hpv
    refine ⟨⟨(st2.states.set state.states.length ⟨rt.type, rt.num_refs⟩).set t ⟨rt.type, 0⟩,
      st2.vars⟩, ?_, rfl, hv, by simp, ?_, ?_, ?_⟩
    · simp [handleStmt, handleDecls, handleDecl, hunbound, hty, BlockState.createBorrowed, heval,
        BlockState.doAssign, hv, BlockState.slot, ht, hpv]
    · simp [List.getElem?_set, hne, hpl]
    · simp [List.getElem?_set, htl]
    · intro q hq1 hq2
      simp [List.getElem?_set, Ne.symm hq1, Ne.symm hq2]

/-- C17, at `BoxedInt* v = f();` in the empty state (the initialiser
yields slot 1, an `OWNED` slot with one reference; `v` is at slot 0) and at
`BoxedInt* v = 0;` (no slot). -/
theorem handleStmt_decl_init_witness :
    (∃ st3, handleStmt .NONE (.declStmt [.varDecl 1 boxPtr (some (callOwned boxPtr 2 false false))])
          BlockState.empty = .ok st3
      ∧ st3.vars = [(1, 0)]
      ∧ varsFind 1 st3.vars = some 0
      ∧ st3.states.length = 2
      ∧ st3.states[0]? = some ⟨.OWNED, 1⟩
      ∧ st3.states[1]? = some ⟨.OWNED, 0⟩
      ∧ ∀ q, q ≠ 0 → q ≠ 1 → st3.states[q]? = [(⟨.BORROWED, 0⟩ : RefState), ⟨.OWNED, 1⟩][q]?)
    ∧ handleStmt .NONE (.declStmt [.varDecl 1 boxPtr (some .integerLiteral)]) BlockState.empty
        = .error Err.assignNull :=
  ⟨(handleStmt_decl_init .NONE 1 boxPtr (callOwned boxPtr 2 false false) BlockState.empty
      ⟨[⟨.BORROWED, 0⟩, ⟨.OWNED, 1⟩], [(1, 0)]⟩ (some 1) (by decide) isRefcountedType_boxPtr
      (by decide) (by decide)).2 1 ⟨.OWNED, 1⟩ rfl (by decide) (by decide),
   (handleStmt_decl_init .NONE 1 boxPtr .integerLiteral BlockState.empty
      ⟨[⟨.BORROWED, 0⟩], [(1, 0)]⟩ none (by decide) isRefcountedType_boxPtr (by decide)
      (by decide)).1 rfl⟩


/-! ### Well-formedness and distinct slots are invariants of the walk -/

theorem doAssign_frame (s s' : BlockState) (d : Nat) (n : Option Nat)
    (h : s.doAssign d n = .ok s') : s'.vars = s.vars ∧ s'.states.length = s.states.length := by
  unfold BlockState.doAssign at h
  cases n with
  | none => simp at h
  | some n =>
    simp only [] at h
    cases hf : varsFind d s.vars with
    | none => simp [hf] at h
    | some v =>
      simp only [hf] at h
      cases hv : s.slot v with
      | error e => simp [hv] at h
      | ok sv =>
        cases hn : s.slot n with
        | error e => simp [hv, hn] at h
        | ok sn =>
          simp only [hv, hn] at h
          by_cases hz : sv.num_refs = 0
          · simp only [hz, if_true, Except.ok.injEq] at h
            rw [← h]
            simp
          · simp [hz] at h

theorem consumeReturn_frame (ann : AnnotationType) (ty : QualType) (rs : Option Nat)
    (s s' : BlockState) (h : consumeReturn ann ty rs s = .ok s') :
    s'.vars = s.vars ∧ s'.states.length = s.states.length := by
  unfold consumeReturn at h
  cases hty : isRefcountedType ty with
  | error e => simp [hty] at h
  | ok b =>
    cases b with
    | false =>
      simp [hty] at h
      rw [← h]
      exact ⟨rfl, rfl⟩
    | true =>
      simp only [hty] at h
      by_cases ha : ann = AnnotationType.BORROWED
      · simp [ha] at h
        rw [← h]
        exact ⟨rfl, rfl⟩
      · simp only [ne_eq, ha, not_false_eq_true, if_true] at h
        cases rs with
        | none => simp at h
        | some p =>
          simp only [] at h
          cases hp : s.slot p with
          | error e => simp [hp] at h
          | ok r =>
            simp only [hp] at h
            by_cases hpos : r.num_refs > 0
            · simp only [hpos, if_true, Except.ok.injEq] at h
              rw [← h]
              simp
            · simp [hpos] at h

theorem wellFormed_of_frame (s s' : BlockState) (hv : s'.vars = s.vars)
    (hl : s'.states.length = s.states.length) :
    (s.wellFormed = true ∧ s.distinctSlots = true) →
      s'.wellFormed = true ∧ s'.distinctSlots = true := by
  unfold BlockState.wellFormed BlockState.distinctSlots
  rw [hv, hl]
  exact fun h => h

/-- Every binding points into the deque and no two bindings share a slot:
a relation respected by every action of the two walks. -/
theorem wellFormed_distinct_stmtRel :
    StmtRel (fun s s' => (s.wellFormed = true ∧ s.distinctSlots = true) →
      s'.wellFormed = true ∧ s'.distinctSlots = true) where
  refl := fun _ h => h
  trans := fun _ _ _ h1 h2 h => h2 (h1 h)
  borrowed := fun s h => ⟨wellFormed_append s _ h.1, h.2⟩
  owned := fun s h => ⟨wellFormed_append s _ h.1, h.2⟩
  bind := fun s d hd h => by
    refine ⟨(extends_bind s d h.1 hd).2, ?_⟩
    have hnd : (s.vars.map Prod.snd).Nodup := by simpa [BlockState.distinctSlots] using h.2
    have hlt : ∀ p ∈ s.vars.map Prod.snd, p < s.states.length := by
      intro p hp
      obtain ⟨q, hq, rfl⟩ := List.mem_map.1 hp
      have := List.all_eq_true.1 h.1 q hq
      simpa using this
    have hfresh : s.states.length ∉ s.vars.map Prod.snd :=
      fun hm => Nat.lt_irrefl _ (hlt _ hm)
    simp only [BlockState.distinctSlots, decide_eq_true_eq]
    rw [varsSet_unbound d s.states.length s.vars hd, List.map_append]
    exact List.Nodup.append hnd (List.nodup_singleton _) (by simpa using hfresh)
  merge := fun s a b m1 m2 ha _ hm h => by
    obtain ⟨hwa, hda⟩ := ha h
    obtain ⟨k1, _⟩ := checkSameAndMerge_vars a b m1 m2 hm
    obtain ⟨c1, _, _, _⟩ := checkSameAndMerge_slots a b m1 m2 hm
    have hlen : m1.states.length = a.states.length := by
      have := congrArg List.length (map_num_refs_eq _ _ c1)
      simpa using this
    constructor
    · unfold BlockState.wellFormed at hwa ⊢
      rw [List.all_eq_true] at hwa ⊢
      intro q hq
      rw [k1] at hq
      rw [hlen]
      exact hwa q (List.mem_of_mem_filter hq)
    · have hnd : (a.vars.map Prod.snd).Nodup := by simpa [BlockState.distinctSlots] using hda
      simp only [BlockState.distinctSlots, decide_eq_true_eq]
      rw [k1]
      exact List.Nodup.sublist (List.Sublist.map _ (List.filter_sublist _)) hnd
  assign := fun s s' d n h =>
    wellFormed_of_frame s s' (doAssign_frame s s' d n h).1 (doAssign_frame s s' d n h).2
  consume := fun ann ty rs s s' h =>
    wellFormed_of_frame s s' (consumeReturn_frame ann ty rs s s' h).1
      (consumeReturn_frame ann ty rs s s' h).2

/-- The states the checker builds are well formed, and each of their
variables has a slot of its own: the hypotheses made on states above hold
after the binding of the parameters, and after every expression and every
statement handled from a state where they hold. -/
theorem wellFormed_distinct_invariant :
    (BlockState.empty.wellFormed = true ∧ BlockState.empty.distinctSlots = true)
    ∧ (∀ (params : List (Nat × QualType)) (s s' : BlockState),
        s.wellFormed = true ∧ s.distinctSlots = true → bindParams params s = .ok s' →
        s'.wellFormed = true ∧ s'.distinctSlots = true)
    ∧ (∀ (e : Expr) (s s' : BlockState) (r : Option Nat),
        s.wellFormed = true ∧ s.distinctSlots = true → handleExpr e s = .ok (r, s') →
        s'.wellFormed = true ∧ s'.distinctSlots = true)
    ∧ (∀ (return_ann : AnnotationType) (stmt : Stmt) (s s' : BlockState),
        s.wellFormed = true ∧ s.distinctSlots = true → handleStmt return_ann stmt s = .ok s' →
        s'.wellFormed = true ∧ s'.distinctSlots = true) :=
  ⟨by decide,
   fun params s s' hs h => bindParams_rel wellFormed_distinct_stmtRel.toStepRel params s s' h hs,
   fun e s s' r hs h => handleExpr_rel wellFormed_distinct_stmtRel.toStepRel e s s' r h hs,
   fun return_ann stmt s s' hs h =>
     handleStmt_rel wellFormed_distinct_stmtRel return_ann stmt s s' h hs⟩


/-! ### C25 -/

/-- C25: the increment of a `for` statement is not handled. Two `for`
statements that differ in their increment only have the same outcome on
every state; so the statement `for (; true; f()) {}` with `f` returning
`BoxedInt*` is accepted by `checkFunction`, with an empty state at its end,
as if it had no increment. -/
theorem handleStmt_for_increment_ignored :
    (∀ (return_ann : AnnotationType) (init : Option Stmt) (cond : Option Expr)
        (condVar : Option QualType) (inc1 inc2 : Option Expr) (body : Stmt) (state : BlockState),
      handleStmt return_ann (.forStmt init cond condVar inc1 body) state
        = handleStmt return_ann (.forStmt init cond condVar inc2 body) state)
    ∧ handleStmt .NONE (.expr (callOwned boxPtr 2 false false)) BlockState.empty
        = .ok ⟨[⟨.OWNED, 1⟩], []⟩
    ∧ checkFunction ⟨[], [], .forStmt (some (.compound [])) (some (.boolLiteral true)) none
          (some (callOwned boxPtr 2 false false)) (.compound [])⟩ = .ok ⟨[], []⟩
    ∧ checkFunction ⟨[], [], .forStmt (some (.compound [])) (some (.boolLiteral true)) none
          none (.compound [])⟩ = .ok ⟨[], []⟩ := by
  refine ⟨fun return_ann init cond condVar inc1 inc2 body state => ?_, by decide, by decide,
    by decide⟩
  simp only [handleStmt]


/-! ### C24 -/

/-- C24: in a well-formed state where the variable `x`, of refcounted type,
is bound to a slot holding one reference, and under a return annotation
other than `BORROWED`, the statement `if (c) return x;` is rejected whatever
the condition `c`: when `c` evaluates, the `then` path ends with the slot of
`x` at zero, the `else` path keeps it at one, and the merge fails. -/
theorem handleStmt_early_return_fails (return_ann : AnnotationType) (ty : QualType) (c : Expr)
    (x p : Nat) (rx : RefState) (state : BlockState)
    (hann : return_ann ≠ AnnotationType.BORROWED)
    (hty : isRefcountedType ty = .ok true)
    (hwf : state.wellFormed = true)
    (hx : varsFind x state.vars = some p)
    (hp : state.states[p]? = some rx)
    (hone : rx.num_refs = 1) :
    ∃ e, handleStmt return_ann (.ifStmt c (some (returnVar ty x)) none) state = .error e := by
  cases hcond : handleExpr c state with
  | error e => exact ⟨e, by simp only [handleStmt, hcond]⟩
  | ok q =>
    obtain ⟨rc, st⟩ := q
    obtain ⟨⟨⟨extra, hstates⟩, hold, _⟩, _⟩ :=
      handleExpr_rel extends_stepRel c state st rc hcond hwf
    have hx' : varsFind x st.vars = some p := hold x p hx
    have hlt : p < state.states.length := wellFormed_lt state hwf x p hx
    have hp' : st.states[p]? = some rx := by
      rw [hstates, List.getElem?_append_left hlt]
      exact hp
    have hlt' : p < st.states.length := by
      rw [hstates, List.length_append]
      omega
    have hthen : handleStmt return_ann (returnVar ty x) st
        = .ok ⟨st.states.set p ⟨rx.type, rx.num_refs - 1⟩, st.vars⟩ := by
      simp [returnVar, useVar, handleStmt, handleExpr, hty, Expr.getType, hx', consumeReturn, hann,
        BlockState.slot, hp', hone]
    have hmerge : ∃ e, checkSameAndMerge
        ⟨st.states.set p ⟨rx.type, rx.num_refs - 1⟩, st.vars⟩ st.copy = .error e := by
      apply checkSameAndMerge_fails
      refine mergeDecls_fails _ _ _ x ((mem_mergeDeclSet _ _ x).2 (Or.inl ⟨p, hx'⟩))
        (Or.inr (Or.inr ⟨p, p, ⟨rx.type, rx.num_refs - 1⟩, rx, hx', hx', ?_, hp', ?_⟩))
      · simp [List.getElem?_set, hlt']
      · simp [hone]
    obtain ⟨e, he⟩ := hmerge
    have hif : ∀ (B : Stmt) (ts : BlockState), handleStmt return_ann B st = .ok ts →
        handleStmt return_ann (.ifStmt c (some B) none) state
          = match checkSameAndMerge ts st.copy with
            | .error e => .error e
            | .ok (m1, _) => .ok m1 := by
      intro B ts hB
      simp only [handleStmt, hcond, handleOptStmt, hB]
    exact ⟨e, by rw [hif _ _ hthen, he]⟩

/-- C24, at `if (true) return x;` with `x` a `BoxedInt*` bound to an
`OWNED` slot holding one reference, in a function without annotation. -/
theorem handleStmt_early_return_fails_witness :
    ∃ e, handleStmt .NONE (.ifStmt (.boolLiteral true) (some (returnVar boxPtr 1)) none)
      ⟨[⟨.OWNED, 1⟩, ⟨.OWNED, 0⟩], [(1, 0)]⟩ = .error e :=
  handleStmt_early_return_fails .NONE boxPtr (.boolLiteral true) 1 0 ⟨.OWNED, 1⟩
    ⟨[⟨.OWNED, 1⟩, ⟨.OWNED, 0⟩], [(1, 0)]⟩ (by decide) isRefcountedType_boxPtr (by decide)
    (by decide) (by decide) (by decide)


/-! ### C23 -/

/-- A successful call of refcounted type: its sub-expressions evaluated to
some state, and the result is the `OWNED` slot appended to that state. -/
theorem handleExpr_call_inv (ty : QualType) (callee : Expr) (args : List Expr)
    (s s' : BlockState) (r : Option Nat) (hty : isRefcountedType ty = .ok true)
    (h : handleExpr (.call ty callee args) s = .ok (r, s')) :
    ∃ r0 st1 st2, handleExpr callee s = .ok (r0, st1) ∧ handleExprs args st1 = .ok st2
      ∧ s' = ⟨st2.states ++ [⟨RefType.OWNED, 1⟩], st2.vars⟩ ∧ r = some st2.states.length := by
  simp only [handleExpr] at h
  cases hft : calleeProto callee.getType with
  | error e => simp [hft] at h
  | ok ft =>
    simp only [hft] at h
    cases hc : handleExpr callee s with
    | error e => simp [hc] at h
    | ok q =>
      obtain ⟨r0, st1⟩ := q
      simp only [hc] at h
      cases ha : handleExprs args st1 with
      | error e => simp [ha] at h
      | ok st2 =>
        simp only [ha] at h
        cases hk : (if canThrow ft = true then checkClean st2 else Except.ok ()) with
        | error e => simp [hk] at h
        | ok u =>
          simp [hk, hty, BlockState.createOwned] at h
          exact ⟨r0, st1, st2, rfl, ha, h.2.symm, h.1.symm⟩

/-- C23: from a well-formed state, a ternary whose true branch is a call
of refcounted type is rejected, whatever its condition and its false
branch: when the three sub-expressions evaluate, the `OWNED` slot of the
call holds one reference and no binding of the true-branch state points to
it, so the merge fails (in its first loop, or on `assert(found)`). -/
theorem handleExpr_conditional_call_fails (ty callTy : QualType) (cond callee falseExpr : Expr)
    (args : List Expr) (state : BlockState)
    (hwf : state.wellFormed = true)
    (hcall : isRefcountedType callTy = .ok true) :
    ∃ e, handleExpr (.conditional ty cond (.call callTy callee args) falseExpr) state
      = .error e := by
  cases hcond : handleExpr cond state with
  | error e => exact ⟨e, by simp only [handleExpr, hcond]⟩
  | ok q =>
    obtain ⟨rc, st⟩ := q
    have hst := (handleExpr_rel extends_stepRel cond state st rc hcond hwf).2
    cases ht : handleExpr (.call callTy callee args) st with
    | error e => exact ⟨e, by simp only [handleExpr, hcond] at ht ⊢; simp only [ht]⟩
    | ok qt =>
      obtain ⟨s1, ts⟩ := qt
      cases hf : handleExpr falseExpr st.copy with
      | error e =>
        refine ⟨e, ?_⟩
        have hgen : ∀ (t : Expr), handleExpr t st = .ok (s1, ts) →
            handleExpr (.conditional ty cond t falseExpr) state = .error e := by
          intro t h
          simp only [handleExpr, hcond, h, hf]
        exact hgen _ ht
      | ok qf =>
        obtain ⟨s2, fs⟩ := qf
        have hgen : ∀ (t : Expr), handleExpr t st = .ok (s1, ts) →
            handleExpr (.conditional ty cond t falseExpr) state
              = match checkSameAndMerge ts fs with
                | .error e => .error e
                | .ok (m1, m2) =>
                  match ternaryAgree s1 s2 m1 m2 with
                  | .error e => .error e
                  | .ok _ => .ok (s1, m1) := by
          intro t h
          simp only [handleExpr, hcond, h, hf]
        rw [hgen _ ht]
        cases hm : checkSameAndMerge ts fs with
        | error e => exact ⟨e, rfl⟩
        | ok m =>
          obtain ⟨m1, m2⟩ := m
          exfalso
          obtain ⟨r0, st1, st2, hc, ha, hts, _⟩ :=
            handleExpr_call_inv callTy callee args st ts s1 hcall ht
          have hst1 := (handleExpr_rel extends_stepRel callee st st1 r0 hc hst).2
          have hst2 := (handleExprs_rel extends_stepRel args st1 st2 ha hst1).2
          obtain ⟨_, hfound⟩ := checkSameAndMerge_ok_mergeDecls ts fs m1 m2 hm
          obtain ⟨k1, _⟩ := checkSameAndMerge_vars ts fs m1 m2 hm
          obtain ⟨c1, _, _, _⟩ := checkSameAndMerge_slots ts fs m1 m2 hm
          have hslot : (ts.states[st2.states.length]?).map RefState.num_refs = some 1 := by
            rw [hts]
            show ((st2.states ++ [⟨RefType.OWNED, 1⟩])[st2.states.length]?).map _ = _
            rw [List.getElem?_append_right (Nat.le_refl _)]
            simp
          have hm1 := c1 st2.states.length
          rw [hslot] at hm1
          cases hr : m1.states[st2.states.length]? with
          | none => simp [hr] at hm1
          | some r =>
            simp [hr] at hm1
            rcases (allFound_iff m1).1 hfound _ r hr with hz | ⟨q, hq, hq2⟩
            · omega
            · rw [k1] at hq
              have hq' : q ∈ st2.vars := by
                have := List.mem_of_mem_filter hq
                rw [hts] at this
                exact this
              have hlt := List.all_eq_true.1 hst2 q hq'
              simp only [decide_eq_true_eq] at hlt
              omega

/-- C23, at `true ? f() : f()` with `f` returning `BoxedInt*`, in the
empty state. -/
theorem handleExpr_conditional_call_fails_witness :
    ∃ e, handleExpr (.conditional boxPtr (.boolLiteral true)
      (.call boxPtr (.cast (.pointer (.functionProto false false))
        (.declRef (.functionProto false false) 2 [DeclKind.TranslationUnit])) [])
      (callOwned boxPtr 2 false false)) BlockState.empty = .error e :=
  handleExpr_conditional_call_fails boxPtr boxPtr (.boolLiteral true)
    (.cast (.pointer (.functionProto false false))
      (.declRef (.functionProto false false) 2 [DeclKind.TranslationUnit]))
    (callOwned boxPtr 2 false false) [] BlockState.empty (by decide) isRefcountedType_boxPtr


/-! ### C21 -/

theorem countsZeroOrOne_iff (s : BlockState) :
    s.countsZeroOrOne = true ↔ ∀ r ∈ s.states, r.num_refs = 0 ∨ r.num_refs = 1 := by
  simp only [BlockState.countsZeroOrOne, List.all_eq_true, decide_eq_true_eq]

theorem countsZeroOrOne_iff_map (s : BlockState) :
    s.countsZeroOrOne = true ↔ ∀ c ∈ s.states.map RefState.num_refs, c = 0 ∨ c = 1 := by
  rw [countsZeroOrOne_iff]
  constructor
  · intro h c hc
    obtain ⟨r, hr, rfl⟩ := List.mem_map.1 hc
    exact h r hr
  · intro h r hr
    exact h r.num_refs (List.mem_map.2 ⟨r, hr, rfl⟩)

theorem countsZeroOrOne_append (s : BlockState) (r : RefState) (vars : List (Nat × Nat))
    (hr : r.num_refs = 0 ∨ r.num_refs = 1) (h : s.countsZeroOrOne = true) :
    BlockState.countsZeroOrOne ⟨s.states ++ [r], vars⟩ = true := by
  rw [countsZeroOrOne_iff] at h ⊢
  intro x hx
  rcases List.mem_append.1 hx with hx | hx
  · exact h x hx
  · rw [List.mem_singleton.1 hx]
    exact hr

theorem countsZeroOrOne_merge (a b m1 m2 : BlockState)
    (hm : checkSameAndMerge a b = .ok (m1, m2)) :
    (a.countsZeroOrOne = true → m1.countsZeroOrOne = true)
    ∧ (b.countsZeroOrOne = true → m2.countsZeroOrOne = true) := by
  obtain ⟨c1, c2, _, _⟩ := checkSameAndMerge_slots a b m1 m2 hm
  constructor
  · intro h
    rw [countsZeroOrOne_iff_map] at h ⊢
    rw [map_num_refs_eq _ _ c1]
    exact h
  · intro h
    rw [countsZeroOrOne_iff_map] at h ⊢
    rw [map_num_refs_eq _ _ c2]
    exact h

theorem countsZeroOrOne_doAssign (s s' : BlockState) (d : Nat) (n : Option Nat)
    (h : s.doAssign d n = .ok s') (hs : s.countsZeroOrOne = true) :
    s'.countsZeroOrOne = true := by
  unfold BlockState.doAssign at h
  cases n with
  | none => simp at h
  | some n =>
    simp only [] at h
    cases hf : varsFind d s.vars with
    | none => simp [hf] at h
    | some v =>
      simp only [hf, BlockState.slot] at h
      cases hv : s.states[v]? with
      | none => simp [hv] at h
      | some sv =>
        cases hn : s.states[n]? with
        | none => simp [hv, hn] at h
        | some sn =>
          simp only [hv, hn] at h
          by_cases hz : sv.num_refs = 0
          · simp only [hz, if_true, Except.ok.injEq] at h
            rw [countsZeroOrOne_iff] at hs ⊢
            rw [← h]
            intro x hx
            have hsn := hs sn (List.getElem?_mem hn)
            rcases List.mem_or_eq_of_mem_set hx with hx | hx
            · rcases List.mem_or_eq_of_mem_set hx with hx | hx
              · exact hs x hx
              · rw [hx]
                exact hsn
            · rw [hx]
              exact Or.inl rfl
          · simp [hz] at h

theorem countsZeroOrOne_consumeReturn (ann : AnnotationType) (ty : QualType)
    (rs : Option Nat) (s s' : BlockState) (h : consumeReturn ann ty rs s = .ok s')
    (hs : s.countsZeroOrOne = true) : s'.countsZeroOrOne = true := by
  unfold consumeReturn at h
  cases hty : isRefcountedType ty with
  | error e => simp [hty] at h
  | ok b =>
    cases b with
    | false =>
      simp [hty] at h
      rw [← h]
      exact hs
    | true =>
      simp only [hty] at h
      by_cases ha : ann = AnnotationType.BORROWED
      · simp [ha] at h
        rw [← h]
        exact hs
      · simp only [ne_eq, ha, not_false_eq_true, if_true] at h
        cases rs with
        | none => simp at h
        | some p =>
          simp only [BlockState.slot] at h
          cases hp : s.states[p]? with
          | none => simp [hp] at h
          | some r =>
            simp only [hp] at h
            by_cases hpos : r.num_refs > 0
            · simp only [hpos, if_true, Except.ok.injEq] at h
              rw [countsZeroOrOne_iff] at hs ⊢
              rw [← h]
              intro x hx
              rcases List.mem_or_eq_of_mem_set hx with hx | hx
              · exact hs x hx
              · rw [hx]
                have := hs r (List.getElem?_mem hp)
                left
                show r.num_refs - 1 = 0
                omega
            · simp [hpos] at h

/-- The invariant of C21 as a relation respected by every action. -/
theorem countsZeroOrOne_stmtRel :
    StmtRel (fun s s' => s.countsZeroOrOne = true → s'.countsZeroOrOne = true) where
  refl := fun _ h => h
  trans := fun _ _ _ h1 h2 h => h2 (h1 h)
  borrowed := fun s h => countsZeroOrOne_append s _ _ (Or.inl rfl) h
  owned := fun s h => countsZeroOrOne_append s _ _ (Or.inr rfl) h
  bind := fun s _ _ h => countsZeroOrOne_append s _ _ (Or.inl rfl) h
  merge := fun _ a b m1 m2 h1 _ hm h => (countsZeroOrOne_merge a b m1 m2 hm).1 (h1 h)
  assign := fun s s' d n h hs => countsZeroOrOne_doAssign s s' d n h hs
  consume := fun ann ty rs s s' h hs => countsZeroOrOne_consumeReturn ann ty rs s s' h hs

/-- C21: the count of every slot is zero or one, in the empty state and
after each action that builds a new state from states with that property:
the creation of a slot, an assignment, the return of a reference, a merge
(both states), a duplication, the binding of the parameters, the walk of an
expression or of a statement; hence in the state at the end of
`checkFunction`. -/
theorem countsZeroOrOne_invariant :
    BlockState.empty.countsZeroOrOne = true
    ∧ (∀ s : BlockState, s.countsZeroOrOne = true →
        s.createBorrowed.2.countsZeroOrOne = true ∧ s.createOwned.2.countsZeroOrOne = true
        ∧ s.copy.countsZeroOrOne = true)
    ∧ (∀ (s s' : BlockState) (d : Nat) (n : Option Nat), s.countsZeroOrOne = true →
        s.doAssign d n = .ok s' → s'.countsZeroOrOne = true)
    ∧ (∀ (ann : AnnotationType) (ty : QualType) (rs : Option Nat) (s s' : BlockState),
        s.countsZeroOrOne = true → consumeReturn ann ty rs s = .ok s' →
        s'.countsZeroOrOne = true)
    ∧ (∀ a b m1 m2 : BlockState, a.countsZeroOrOne = true → b.countsZeroOrOne = true →
        checkSameAndMerge a b = .ok (m1, m2) →
        m1.countsZeroOrOne = true ∧ m2.countsZeroOrOne = true)
    ∧ (∀ (params : List (Nat × QualType)) (s s' : BlockState), s.countsZeroOrOne = true →
        bindParams params s = .ok s' → s'.countsZeroOrOne = true)
    ∧ (∀ (e : Expr) (s s' : BlockState) (r : Option Nat), s.countsZeroOrOne = true →
        handleExpr e s = .ok (r, s') → s'.countsZeroOrOne = true)
    ∧ (∀ (return_ann : AnnotationType) (stmt : Stmt) (s s' : BlockState),
        s.countsZeroOrOne = true → handleStmt return_ann stmt s = .ok s' →
        s'.countsZeroOrOne = true)
    ∧ (∀ (func : FunctionDecl) (st : BlockState), checkFunction func = .ok st →
        st.countsZeroOrOne = true) := by
  have hparams : ∀ (params : List (Nat × QualType)) (s s' : BlockState),
      s.countsZeroOrOne = true → bindParams params s = .ok s' →
      s'.countsZeroOrOne = true :=
    fun params s s' hs h => bindParams_rel countsZeroOrOne_stmtRel.toStepRel params s s' h hs
  have hstmt : ∀ (return_ann : AnnotationType) (stmt : Stmt) (s s' : BlockState),
      s.countsZeroOrOne = true → handleStmt return_ann stmt s = .ok s' →
      s'.countsZeroOrOne = true :=
    fun return_ann stmt s s' hs h =>
      handleStmt_rel countsZeroOrOne_stmtRel return_ann stmt s s' h hs
  refine ⟨by decide, fun s hs => ⟨?_, ?_, hs⟩, fun s s' d n hs h => ?_,
    fun ann ty rs s s' hs h => ?_, fun a b m1 m2 ha hb hm => ?_, hparams,
    fun e s s' r hs h => ?_, hstmt, fun func st h => ?_⟩
  · exact countsZeroOrOne_append s _ _ (Or.inl rfl) hs
  · exact countsZeroOrOne_append s _ _ (Or.inr rfl) hs
  · exact countsZeroOrOne_doAssign s s' d n h hs
  · exact countsZeroOrOne_consumeReturn ann ty rs s s' h hs
  · exact ⟨(countsZeroOrOne_merge a b m1 m2 hm).1 ha, (countsZeroOrOne_merge a b m1 m2 hm).2 hb⟩
  · exact handleExpr_rel countsZeroOrOne_stmtRel.toStepRel e s s' r h hs
  · unfold checkFunction at h
    cases hb : bindParams func.params BlockState.empty with
    | error e => simp [hb] at h
    | ok s0 =>
      simp only [hb] at h
      cases hbody : handleStmt (getAnnotationType func.returnTypeLoc) func.body s0 with
      | error e => simp [hbody] at h
      | ok s1 =>
        simp only [hbody] at h
        cases hc : checkClean s1 with
        | error e => simp [hc] at h
        | ok u =>
          simp [hc] at h
          rw [← h]
          exact hstmt _ _ s0 s1 (hparams _ _ s0 (by decide) hb) hbody

/-- C21, at the body `BoxedInt* x = f();` walked from the empty state
(the slot of `x` holds one reference, the transient none), and at the return
of `x` from that state. -/
theorem countsZeroOrOne_invariant_witness :
    BlockState.countsZeroOrOne ⟨[⟨.OWNED, 1⟩, ⟨.OWNED, 0⟩], [(1, 0)]⟩ = true
    ∧ BlockState.countsZeroOrOne ⟨[⟨.OWNED, 0⟩, ⟨.OWNED, 0⟩], [(1, 0)]⟩ = true :=
  ⟨countsZeroOrOne_invariant.2.2.2.2.2.2.2.1 .NONE (declOwned boxPtr 1 2 false false)
      BlockState.empty ⟨[⟨.OWNED, 1⟩, ⟨.OWNED, 0⟩], [(1, 0)]⟩ (by decide) (by decide),
   countsZeroOrOne_invariant.2.2.2.2.2.2.2.1 .NONE (returnVar boxPtr 1)
      ⟨[⟨.OWNED, 1⟩, ⟨.OWNED, 0⟩], [(1, 0)]⟩ ⟨[⟨.OWNED, 0⟩, ⟨.OWNED, 0⟩], [(1, 0)]⟩ (by decide)
      (by decide)⟩


/-! ### Conservation of references on branch-free code -/

theorem sumRefs_append (s : BlockState) (r : RefState) (vars : List (Nat × Nat)) :
    sumRefs ⟨s.states ++ [r], vars⟩ = sumRefs s + r.num_refs := by
  simp [sumRefs, List.map_append, List.sum_append]

theorem sum_num_refs_set (xs : List RefState) (i : Nat) (r a : RefState)
    (h : xs[i]? = some r) :
    ((xs.set i a).map RefState.num_refs).sum
      = (xs.map RefState.num_refs).sum - r.num_refs + a.num_refs := by
  induction xs generalizing i with
  | nil => simp at h
  | cons x rest ih =>
    cases i with
    | zero =>
      simp at h
      subst h
      simp only [List.set_cons_zero, List.map_cons, List.sum_cons]
      omega
    | succ j =>
      simp at h
      simp only [List.set_cons_succ, List.map_cons, List.sum_cons, ih j h]
      omega

theorem borrowedIfRefcounted_sum (ty : QualType) (s s' : BlockState) (r : Option Nat)
    (h : borrowedIfRefcounted ty s = .ok (r, s')) : sumRefs s' = sumRefs s := by
  unfold borrowedIfRefcounted at h
  cases hty : isRefcountedType ty with
  | error e => simp [hty] at h
  | ok b =>
    cases b with
    | false =>
      simp [hty] at h
      rw [← h.2]
    | true =>
      simp [hty, BlockState.createBorrowed] at h
      rw [← h.2, sumRefs_append]
      simp

mutual
/-- Evaluating an expression without ternary raises the sum of the counts
by the number of its calls of refcounted type. -/
theorem handleExpr_sum :
    ∀ (e : Expr) (s s' : BlockState) (r : Option Nat), e.noTernary = true →
      handleExpr e s = .ok (r, s') → sumRefs s' = sumRefs s + (e.ownedCalls : Int)
  | .stringLiteral, s, s', r, _, h => by
    simp [handleExpr] at h
    simp [← h.2, Expr.ownedCalls]
  | .integerLiteral, s, s', r, _, h => by
    simp [handleExpr] at h
    simp [← h.2, Expr.ownedCalls]
  | .boolLiteral _, s, s', r, _, h => by
    simp [handleExpr] at h
    simp [← h.2, Expr.ownedCalls]
  | .dependentOrConstruct ty, s, s', r, _, h => by
    simp only [handleExpr] at h
    cases ha : assertNotRefcounted ty Err.refcountedUnexpected with
    | error e => simp [ha] at h
    | ok u =>
      simp [ha] at h
      simp [← h.2, Expr.ownedCalls]
  | .defaultArg ty, s, s', r, _, h => by
    simp only [handleExpr] at h
    cases ha : assertNotRefcounted ty Err.refcountedUnexpected with
    | error e => simp [ha] at h
    | ok u =>
      simp [ha] at h
      simp [← h.2, Expr.ownedCalls]
  | .exprWithCleanups sub, s, s', r, hn, h => by
    simp only [handleExpr] at h
    simp only [Expr.noTernary] at hn
    simp only [Expr.ownedCalls]
    exact handleExpr_sum sub s s' r hn h
  | .materializeTemporary sub, s, s', r, hn, h => by
    simp only [handleExpr] at h
    simp only [Expr.noTernary] at hn
    simp only [Expr.ownedCalls]
    exact handleExpr_sum sub s s' r hn h
  | .bindTemporary sub, s, s', r, hn, h => by
    simp only [handleExpr] at h
    simp only [Expr.noTernary] at hn
    simp only [Expr.ownedCalls]
    exact handleExpr_sum sub s s' r hn h
  | .unaryOperator ty sub, s, s', r, hn, h => by
    simp only [handleExpr] at h
    simp only [Expr.noTernary] at hn
    simp only [Expr.ownedCalls]
    cases hs : handleExpr sub s with
    | error e => simp [hs] at h
    | ok q =>
      obtain ⟨r0, st⟩ := q
      simp only [hs] at h
      cases ha : assertNotRefcounted ty Err.implementMe with
      | error e => simp [ha] at h
      | ok u =>
        simp [ha] at h
        rw [← h.2]
        exact handleExpr_sum sub s st r0 hn hs
  | .paren sub, s, s', r, hn, h => by
    simp only [handleExpr] at h
    simp only [Expr.noTernary] at hn
    simp only [Expr.ownedCalls]
    exact handleExpr_sum sub s s' r hn h
  | .binaryOperator ty lhs rhs, s, s', r, hn, h => by
    simp only [handleExpr] at h
    simp only [Expr.noTernary, Bool.and_eq_true] at hn
    simp only [Expr.ownedCalls]
    cases hl : handleExpr lhs s with
    | error e => simp [hl] at h
    | ok q =>
      obtain ⟨r1, st1⟩ := q
      simp only [hl] at h
      cases hr : handleExpr rhs st1 with
      | error e => simp [hr] at h
      | ok q2 =>
        obtain ⟨r2, st2⟩ := q2
        simp only [hr] at h
        cases ha : assertNotRefcounted ty Err.implementMe with
        | error e => simp [ha] at h
        | ok u =>
          simp [ha] at h
          rw [← h.2]
          have e1 := handleExpr_sum lhs s st1 r1 hn.1 hl
          have e2 := handleExpr_sum rhs st1 st2 r2 hn.2 hr
          omega
  | .cast ty sub, s, s', r, hn, h => by
    simp only [handleExpr] at h
    simp only [Expr.noTernary] at hn
    simp only [Expr.ownedCalls]
    cases hty : isRefcountedType ty with
    | error e => simp [hty] at h
    | ok b =>
      cases b with
      | false =>
        simp only [hty] at h
        exact handleExpr_sum sub s s' r hn h
      | true =>
        simp only [hty] at h
        cases hsub : isRefcountedType sub.getType with
        | error e => simp [hsub] at h
        | ok b2 =>
          cases b2 with
          | false => simp [hsub] at h
          | true =>
            simp only [hsub] at h
            exact handleExpr_sum sub s s' r hn h
  | .member ty base, s, s', r, hn, h => by
    simp only [handleExpr] at h
    simp only [Expr.noTernary] at hn
    simp only [Expr.ownedCalls]
    cases hb : handleExpr base s with
    | error e => simp [hb] at h
    | ok q =>
      obtain ⟨r0, st⟩ := q
      simp only [hb] at h
      rw [borrowedIfRefcounted_sum ty st s' r h]
      exact handleExpr_sum base s st r0 hn hb
  | .this ty, s, s', r, _, h => by
    simp only [handleExpr] at h
    simp [Expr.ownedCalls, borrowedIfRefcounted_sum ty s s' r h]
  | .declRef ty decl context, s, s', r, _, h => by
    simp only [handleExpr] at h
    simp only [Expr.ownedCalls]
    cases hty : isRefcountedType ty with
    | error e => simp [hty] at h
    | ok b =>
      cases b with
      | false =>
        simp [hty] at h
        simp [← h.2]
      | true =>
        simp only [hty] at h
        cases hf : varsFind decl s.vars with
        | some p =>
          simp [hf] at h
          simp [← h.2]
        | none =>
          simp only [hf] at h
          split at h
          · simp [BlockState.createBorrowed] at h
            rw [← h.2, sumRefs_append]
            simp
          · simp at h
  | .call ty callee args, s, s', r, hn, h => by
    simp only [handleExpr] at h
    simp only [Expr.noTernary, Bool.and_eq_true] at hn
    simp only [Expr.ownedCalls]
    cases hft : calleeProto callee.getType with
    | error e => simp [hft] at h
    | ok ft =>
      simp only [hft] at h
      cases hc : handleExpr callee s with
      | error e => simp [hc] at h
      | ok q =>
        obtain ⟨r0, st1⟩ := q
        simp only [hc] at h
        cases ha : handleExprs args st1 with
        | error e => simp [ha] at h
        | ok st2 =>
          simp only [ha] at h
          have e1 := handleExpr_sum callee s st1 r0 hn.1 hc
          have e2 := handleExprs_sum args st1 st2 hn.2 ha
          cases hk : (if canThrow ft = true then checkClean st2 else Except.ok ()) with
          | error e => simp [hk] at h
          | ok u =>
            simp only [hk] at h
            cases hty : isRefcountedType ty with
            | error e => simp [hty] at h
            | ok b =>
              cases b with
              | false =>
                simp [hty] at h
                rw [← h.2]
                simp only [isRefcounted, hty]
                simp
                omega
              | true =>
                simp [hty, BlockState.createOwned] at h
                rw [← h.2, sumRefs_append]
                simp only [isRefcounted, hty]
                simp
                omega
  | .new ty placement init, s, s', r, hn, h => by
    simp only [handleExpr] at h
    simp only [Expr.noTernary, Bool.and_eq_true] at hn
    simp only [Expr.ownedCalls]
    cases hp : handleExprs placement s with
    | error e => simp [hp] at h
    | ok st1 =>
      simp only [hp] at h
      cases hi : handleOptExpr init st1 with
      | error e => simp [hi] at h
      | ok st2 =>
        simp only [hi] at h
        have e1 := handleExprs_sum placement s st1 hn.1 hp
        have e2 := handleOptExpr_sum init st1 st2 hn.2 hi
        rw [borrowedIfRefcounted_sum ty st2 s' r h]
        omega
  | .conditional _ _ _ _, _, _, _, hn, _ => by
    simp [Expr.noTernary] at hn
  | .other _, s, s', r, _, h => by
    simp [handleExpr] at h
theorem handleExprs_sum :
    ∀ (es : List Expr) (s s' : BlockState), Expr.noTernaryList es = true →
      handleExprs es s = .ok s' → sumRefs s' = sumRefs s + (Expr.ownedCallsList es : Int)
  | [], s, s', _, h => by
    simp [handleExprs] at h
    simp [← h, Expr.ownedCallsList]
  | e :: rest, s, s', hn, h => by
    simp only [handleExprs] at h
    simp only [Expr.noTernaryList, Bool.and_eq_true] at hn
    simp only [Expr.ownedCallsList]
    cases he : handleExpr e s with
    | error err => simp [he] at h
    | ok q =>
      obtain ⟨r0, st⟩ := q
      simp only [he] at h
      have e1 := handleExpr_sum e s st r0 hn.1 he
      have e2 := handleExprs_sum rest st s' hn.2 h
      omega
theorem handleOptExpr_sum :
    ∀ (e : Option Expr) (s s' : BlockState), Expr.noTernaryOpt e = true →
      handleOptExpr e s = .ok s' → sumRefs s' = sumRefs s + (Expr.ownedCallsOpt e : Int)
  | none, s, s', _, h => by
    simp [handleOptExpr] at h
    simp [← h, Expr.ownedCallsOpt]
  | some e, s, s', hn, h => by
    simp only [handleOptExpr] at h
    simp only [Expr.noTernaryOpt] at hn
    simp only [Expr.ownedCallsOpt]
    cases he : handleExpr e s with
    | error err => simp [he] at h
    | ok q =>
      obtain ⟨r0, st⟩ := q
      simp [he] at h
      rw [← h]
      exact handleExpr_sum e s st r0 hn he
end


theorem doAssign_sum (s s' : BlockState) (d : Nat) (n : Option Nat)
    (h : s.doAssign d n = .ok s') : sumRefs s' = sumRefs s := by
  unfold BlockState.doAssign at h
  cases n with
  | none => simp at h
  | some n =>
    simp only [] at h
    cases hf : varsFind d s.vars with
    | none => simp [hf] at h
    | some v =>
      simp only [hf, BlockState.slot] at h
      cases hv : s.states[v]? with
      | none => simp [hv] at h
      | some sv =>
        cases hn : s.states[n]? with
        | none => simp [hv, hn] at h
        | some sn =>
          simp only [hv, hn] at h
          by_cases hz : sv.num_refs = 0
          · simp only [hz, if_true, Except.ok.injEq] at h
            rw [← h]
            have hvl : v < s.states.length := by
              rcases Nat.lt_or_ge v s.states.length with hlt | hge
              · exact hlt
              · rw [List.getElem?_eq_none hge] at hv
                cases hv
            have hmid : ∃ x, (s.states.set v ⟨sn.type, sn.num_refs⟩)[n]? = some x
                ∧ x.num_refs = sn.num_refs := by
              by_cases hvn : v = n
              · subst hvn
                exact ⟨⟨sn.type, sn.num_refs⟩, by simp [List.getElem?_set, hvl], rfl⟩
              · exact ⟨sn, by simp [List.getElem?_set, hvn, hn], rfl⟩
            obtain ⟨x, hx, hxn⟩ := hmid
            simp only [sumRefs]
            rw [sum_num_refs_set _ n x _ hx, sum_num_refs_set _ v sv _ hv]
            simp only []
            omega
          · simp [hz] at h

theorem consumeReturn_sum (ann : AnnotationType) (ty : QualType) (rs : Option Nat)
    (s s' : BlockState) (hann : ann ≠ AnnotationType.BORROWED)
    (h : consumeReturn ann ty rs s = .ok s') :
    sumRefs s' = sumRefs s - ((if isRefcounted ty then 1 else 0 : Nat) : Int) := by
  unfold consumeReturn at h
  cases hty : isRefcountedType ty with
  | error e => simp [hty] at h
  | ok b =>
    cases b with
    | false =>
      simp [hty] at h
      simp [← h, isRefcounted, hty]
    | true =>
      simp only [hty, ne_eq, hann, not_false_eq_true, if_true] at h
      cases rs with
      | none => simp at h
      | some p =>
        simp only [BlockState.slot] at h
        cases hp : s.states[p]? with
        | none => simp [hp] at h
        | some r =>
          simp only [hp] at h
          by_cases hpos : r.num_refs > 0
          · simp only [hpos, if_true, Except.ok.injEq] at h
            rw [← h]
            simp only [sumRefs, isRefcounted, hty]
            rw [sum_num_refs_set _ p r _ hp]
            simp
          · simp [hpos] at h

theorem handleDecl_sum (d : Decl) (s s' : BlockState) (hn : d.noTernary = true)
    (h : handleDecl d s = .ok s') : sumRefs s' = sumRefs s + (d.ownedCalls : Int) := by
  cases d with
  | nonVar => simp [handleDecl] at h
  | varDecl vardecl ty init =>
    simp only [handleDecl] at h
    simp only [Decl.noTernary] at hn
    simp only [Decl.ownedCalls]
    cases hf : varsFind vardecl s.vars with
    | some p => simp [hf] at h
    | none =>
      simp only [hf, Option.isSome_none, Bool.false_eq_true, if_false] at h
      cases hty : isRefcountedType ty with
      | error e => simp [hty] at h
      | ok b =>
        simp only [hty] at h
        cases b with
        | false =>
          simp only [Bool.false_eq_true, if_false] at h
          cases init with
          | none =>
            simp at h
            simp [← h, Expr.ownedCallsOpt]
          | some e =>
            simp only [] at h
            simp only [Expr.noTernaryOpt] at hn
            simp only [Expr.ownedCallsOpt]
            cases he : handleExpr e s with
            | error err => simp [he] at h
            | ok q =>
              obtain ⟨r0, st⟩ := q
              simp [he] at h
              rw [← h]
              exact handleExpr_sum e s st r0 hn he
        | true =>
          simp only [if_true, BlockState.createBorrowed] at h
          have hb : sumRefs
              ⟨s.states ++ [⟨RefType.BORROWED, 0⟩], varsSet vardecl s.states.length s.vars⟩
              = sumRefs s := by
            rw [sumRefs_append]
            simp
          cases init with
          | none =>
            simp at h
            rw [← h, hb]
            simp [Expr.ownedCallsOpt]
          | some e =>
            simp only [] at h
            simp only [Expr.noTernaryOpt] at hn
            simp only [Expr.ownedCallsOpt]
            cases he : handleExpr e
                ⟨s.states ++ [⟨RefType.BORROWED, 0⟩], varsSet vardecl s.states.length s.vars⟩ with
            | error err => simp [he] at h
            | ok q =>
              obtain ⟨r0, st⟩ := q
              simp only [he] at h
              rw [doAssign_sum st s' vardecl r0 h, handleExpr_sum e _ st r0 hn he, hb]

theorem handleDecls_sum (ds : List Decl) (s s' : BlockState)
    (hn : ds.all Decl.noTernary = true) (h : handleDecls ds s = .ok s') :
    sumRefs s' = sumRefs s + (Decl.ownedCallsList ds : Int) := by
  induction ds generalizing s with
  | nil =>
    simp [handleDecls] at h
    simp [← h, Decl.ownedCallsList]
  | cons d rest ih =>
    simp only [handleDecls] at h
    simp only [List.all_cons, Bool.and_eq_true] at hn
    simp only [Decl.ownedCallsList]
    cases hd : handleDecl d s with
    | error e => simp [hd] at h
    | ok st =>
      simp only [hd] at h
      have e1 := handleDecl_sum d s st hn.1 hd
      have e2 := ih st hn.2 h
      omega

theorem bindParams_sum (params : List (Nat × QualType)) (s s' : BlockState)
    (h : bindParams params s = .ok s') : sumRefs s' = sumRefs s := by
  induction params generalizing s with
  | nil =>
    simp [bindParams] at h
    rw [← h]
  | cons q rest ih =>
    obtain ⟨param, ty⟩ := q
    simp only [bindParams] at h
    cases hty : isRefcountedType ty with
    | error e => simp [hty] at h
    | ok b =>
      cases b with
      | false =>
        simp only [hty] at h
        exact ih s h
      | true =>
        simp only [hty] at h
        cases hf : varsFind param s.vars with
        | some p => simp [hf] at h
        | none =>
          simp only [hf, Option.isSome_none, Bool.false_eq_true, if_false,
            BlockState.createBorrowed] at h
          rw [ih _ h, sumRefs_append]
          simp

theorem checkClean_sum (s : BlockState) (h : checkClean s = .ok ()) : sumRefs s = 0 := by
  unfold checkClean at h
  split at h
  · next hall =>
    rw [List.all_eq_true] at hall
    simp only [sumRefs]
    apply List.sum_eq_zero
    intro c hc
    obtain ⟨r, hr, rfl⟩ := List.mem_map.1 hc
    simpa using hall r hr
  · cases h

mutual
/-- Handling a branch-free statement under an annotation other than
`BORROWED` changes the sum of the counts by the number of its calls of
refcounted type less the number of its returns of refcounted type. -/
theorem handleStmt_sum (return_ann : AnnotationType)
    (hann : return_ann ≠ AnnotationType.BORROWED) :
    ∀ (stmt : Stmt) (s s' : BlockState), stmt.branchFree = true →
      handleStmt return_ann stmt s = .ok s' →
      sumRefs s' = sumRefs s + (stmt.ownedCalls : Int) - (stmt.ownedReturns : Int)
  | .expr e, s, s', hn, h => by
    simp only [handleStmt] at h
    simp only [Stmt.branchFree] at hn
    simp only [Stmt.ownedCalls, Stmt.ownedReturns]
    cases he : handleExpr e s with
    | error err => simp [he] at h
    | ok q =>
      obtain ⟨r0, st⟩ := q
      simp [he] at h
      rw [← h]
      have := handleExpr_sum e s st r0 hn he
      simp
      exact this
  | .compound body, s, s', hn, h => by
    simp only [handleStmt] at h
    simp only [Stmt.branchFree] at hn
    simp only [Stmt.ownedCalls, Stmt.ownedReturns]
    exact handleStmts_sum return_ann hann body s s' hn h
  | .doStmt cond body, s, s', hn, h => by
    simp only [handleStmt] at h
    simp only [Stmt.branchFree] at hn
    simp only [Stmt.ownedCalls, Stmt.ownedReturns]
    split at h
    · exact handleStmt_sum return_ann hann body s s' hn h
    · simp at h
  | .declStmt decls, s, s', hn, h => by
    simp only [handleStmt] at h
    simp only [Stmt.branchFree] at hn
    simp only [Stmt.ownedCalls, Stmt.ownedReturns]
    have := handleDecls_sum decls s s' hn h
    simp
    exact this
  | .returnStmt retValue, s, s', hn, h => by
    simp only [handleStmt] at h
    cases retValue with
    | none => simp at h
    | some e =>
      simp only [] at h
      simp only [Stmt.branchFree, Expr.noTernaryOpt] at hn
      simp only [Stmt.ownedCalls, Stmt.ownedReturns, Expr.ownedCallsOpt]
      cases he : handleExpr e s with
      | error err => simp [he] at h
      | ok q =>
        obtain ⟨r0, st⟩ := q
        simp only [he] at h
        rw [consumeReturn_sum return_ann e.getType r0 st s' hann h,
          handleExpr_sum e s st r0 hn he]
  | .forStmt _ _ _ _ _, _, _, hn, _ => by simp [Stmt.branchFree] at hn
  | .whileStmt _ _ _, _, _, hn, _ => by simp [Stmt.branchFree] at hn
  | .ifStmt _ _ _, _, _, hn, _ => by simp [Stmt.branchFree] at hn
  | .asmStmt _ _, _, _, hn, _ => by simp [Stmt.branchFree] at hn
  | .other, _, _, hn, _ => by simp [Stmt.branchFree] at hn
theorem handleStmts_sum (return_ann : AnnotationType)
    (hann : return_ann ≠ AnnotationType.BORROWED) :
    ∀ (stmts : List Stmt) (s s' : BlockState), Stmt.branchFreeList stmts = true →
      handleStmts return_ann stmts s = .ok s' →
      sumRefs s' = sumRefs s + (Stmt.ownedCallsList stmts : Int)
        - (Stmt.ownedReturnsList stmts : Int)
  | [], s, s', _, h => by
    simp [handleStmts] at h
    simp [← h, Stmt.ownedCallsList, Stmt.ownedReturnsList]
  | stmt :: rest, s, s', hn, h => by
    simp only [handleStmts] at h
    simp only [Stmt.branchFreeList, Bool.and_eq_true] at hn
    simp only [Stmt.ownedCallsList, Stmt.ownedReturnsList]
    cases hs : handleStmt return_ann stmt s with
    | error e => simp [hs] at h
    | ok st =>
      simp only [hs] at h
      have e1 := handleStmt_sum return_ann hann stmt s st hn.1 hs
      have e2 := handleStmts_sum return_ann hann rest st s' hn.2 h
      push_cast
      omega
end


/-! ### C22 -/

/-- C22: on a branch-free statement (compound statements, `do {} while
(false)`, declarations, returns, expression statements, no ternary) handled
under an annotation other than `BORROWED`, the sum of the counts of all
slots grows by the number of calls of refcounted type and falls by the
number of returns of refcounted type; the binding of the parameters leaves
it at zero. So when `checkFunction` accepts a function with such a body and
such an annotation, the body has as many calls of refcounted type as
returns of refcounted type. -/
theorem checkFunction_conservation :
    (∀ (params : List (Nat × QualType)) (s0 : BlockState),
      bindParams params BlockState.empty = .ok s0 → sumRefs s0 = 0)
    ∧ (∀ (return_ann : AnnotationType) (stmt : Stmt) (s s' : BlockState),
        return_ann ≠ AnnotationType.BORROWED → stmt.branchFree = true →
        handleStmt return_ann stmt s = .ok s' →
        sumRefs s' = sumRefs s + (stmt.ownedCalls : Int) - (stmt.ownedReturns : Int))
    ∧ (∀ (func : FunctionDecl) (st : BlockState), func.body.branchFree = true →
        getAnnotationType func.returnTypeLoc ≠ AnnotationType.BORROWED →
        checkFunction func = .ok st → func.body.ownedCalls = func.body.ownedReturns) := by
  have hparams : ∀ (params : List (Nat × QualType)) (s0 : BlockState),
      bindParams params BlockState.empty = .ok s0 → sumRefs s0 = 0 := by
    intro params s0 h
    rw [bindParams_sum params BlockState.empty s0 h]
    rfl
  refine ⟨hparams, fun return_ann stmt s s' hann hb h =>
    handleStmt_sum return_ann hann stmt s s' hb h, fun func st hb hann h => ?_⟩
  unfold checkFunction at h
  cases hbind : bindParams func.params BlockState.empty with
  | error e => simp [hbind] at h
  | ok s0 =>
    simp only [hbind] at h
    cases hbody : handleStmt (getAnnotationType func.returnTypeLoc) func.body s0 with
    | error e => simp [hbody] at h
    | ok s1 =>
      simp only [hbody] at h
      cases hc : checkClean s1 with
      | error e => simp [hc] at h
      | ok u =>
        have e0 := hparams func.params s0 hbind
        have e1 := handleStmt_sum _ hann func.body s0 s1 hb hbody
        have e2 := checkClean_sum s1 hc
        omega

/-- C22, at `BoxedInt* g() { BoxedInt* x = f(); return x; }`: one call,
one return, and the sum of the counts after the declaration alone is one. -/
theorem checkFunction_conservation_witness :
    sumRefs ⟨[⟨.OWNED, 1⟩, ⟨.OWNED, 0⟩], [(1, 0)]⟩
        = sumRefs BlockState.empty + ((declOwned boxPtr 1 2 false false).ownedCalls : Int)
          - ((declOwned boxPtr 1 2 false false).ownedReturns : Int)
    ∧ Stmt.ownedCalls (.compound [declOwned boxPtr 1 2 false false, returnVar boxPtr 1])
        = Stmt.ownedReturns (.compound [declOwned boxPtr 1 2 false false, returnVar boxPtr 1]) :=
  ⟨checkFunction_conservation.2.1 .NONE (declOwned boxPtr 1 2 false false) BlockState.empty
      ⟨[⟨.OWNED, 1⟩, ⟨.OWNED, 0⟩], [(1, 0)]⟩ (by decide) (by decide) (by decide),
   checkFunction_conservation.2.2
      ⟨[], [], .compound [declOwned boxPtr 1 2 false false, returnVar boxPtr 1]⟩
      ⟨[⟨.OWNED, 0⟩, ⟨.OWNED, 0⟩], [(1, 0)]⟩ (by decide) (by decide) (by decide)⟩

end FunctionRefchecker
